import Mathlib

/-!
# penumbra/core/keys/v1alpha1 (keys.pb.go)

A shallow embedding of the generated Go bindings for the key and address
messages, followed by theorems about them.

Conventions of the embedding:

* a Go byte slice is a list of naturals (one per octet); the nil slice and the
  empty slice are both the empty list, as both have length 0;
* a Go string is its sequence of bytes, again a list of naturals;
* a Go pointer to a struct is an Option, nil being none;
* a Go uint32 is a natural number, reduced modulo 2 ^ 32 where a wider value is
  stored into it;
* a method that can dereference a nil pointer returns an Except whose error is
  the run-time panic.
-/

set_option linter.dupNamespace false

namespace keysv1alpha1

/-! ## Data model -/

/-- Go byte slices and strings: the sequence of their octets. -/
abbrev Bytes := List Nat

/-- The protoimpl.MessageState of a message: the index in
file_penumbra_core_keys_v1alpha1_keys_proto_msgTypes of the MessageInfo stored
in it, or none when nothing has been stored. -/
abbrev MessageState := Option Nat

/-- The run-time panic of a Go method. -/
inductive GoPanic where
  | nilDereference
  deriving DecidableEq, Repr

/-- The Go struct Address. -/
structure Address where
  state : MessageState := none
  sizeCache : Int := 0
  unknownFields : Bytes := []
  Inner : Bytes := []
  AltBech32M : Bytes := []
  deriving DecidableEq, Repr

/-- The Go struct PayloadKey. -/
structure PayloadKey where
  state : MessageState := none
  sizeCache : Int := 0
  unknownFields : Bytes := []
  Inner : Bytes := []
  deriving DecidableEq, Repr

/-- The Go struct SpendKey. -/
structure SpendKey where
  state : MessageState := none
  sizeCache : Int := 0
  unknownFields : Bytes := []
  Inner : Bytes := []
  deriving DecidableEq, Repr

/-- The Go struct FullViewingKey. -/
structure FullViewingKey where
  state : MessageState := none
  sizeCache : Int := 0
  unknownFields : Bytes := []
  Inner : Bytes := []
  deriving DecidableEq, Repr

/-- The Go struct WalletId. -/
structure WalletId where
  state : MessageState := none
  sizeCache : Int := 0
  unknownFields : Bytes := []
  Inner : Bytes := []
  deriving DecidableEq, Repr

/-- The Go struct Diversifier. -/
structure Diversifier where
  state : MessageState := none
  sizeCache : Int := 0
  unknownFields : Bytes := []
  Inner : Bytes := []
  deriving DecidableEq, Repr

/-- The Go struct AddressIndex. -/
structure AddressIndex where
  state : MessageState := none
  sizeCache : Int := 0
  unknownFields : Bytes := []
  Account : Nat := 0
  Randomizer : Bytes := []
  deriving DecidableEq, Repr

/-- The Go struct IdentityKey. -/
structure IdentityKey where
  state : MessageState := none
  sizeCache : Int := 0
  unknownFields : Bytes := []
  Ik : Bytes := []
  deriving DecidableEq, Repr

/-- The Go struct GovernanceKey. -/
structure GovernanceKey where
  state : MessageState := none
  sizeCache : Int := 0
  unknownFields : Bytes := []
  Gk : Bytes := []
  deriving DecidableEq, Repr

/-- The Go struct ConsensusKey. -/
structure ConsensusKey where
  state : MessageState := none
  sizeCache : Int := 0
  unknownFields : Bytes := []
  Inner : Bytes := []
  deriving DecidableEq, Repr

/-- The Go struct AddressView_Decoded. -/
structure AddressView_Decoded where
  state : MessageState := none
  sizeCache : Int := 0
  unknownFields : Bytes := []
  Address : Option Address := none
  Index : Option AddressIndex := none
  WalletId : Option WalletId := none
  deriving DecidableEq, Repr

/-- The Go struct AddressView_Opaque. -/
structure AddressView_Opaque where
  state : MessageState := none
  sizeCache : Int := 0
  unknownFields : Bytes := []
  Address : Option Address := none
  deriving DecidableEq, Repr

/-- The Go struct AddressView_Decoded_, the oneof wrapper of field decoded. -/
structure AddressView_Decoded_ where
  Decoded : Option AddressView_Decoded := none
  deriving DecidableEq, Repr

/-- The Go struct AddressView_Opaque_, the oneof wrapper of field opaque. -/
structure AddressView_Opaque_ where
  Opaque : Option AddressView_Opaque := none
  deriving DecidableEq, Repr

/-- A non-nil value of the Go interface isAddressView_AddressView: its dynamic
type is one of the two pointer types implementing it, and the pointer it holds
may itself be nil. -/
inductive isAddressView_AddressView where
  | Decoded_ (p : Option AddressView_Decoded_)
  | Opaque_ (p : Option AddressView_Opaque_)
  deriving DecidableEq, Repr

/-- The Go struct AddressView; its oneof field is an interface value, none being
the nil interface. -/
structure AddressView where
  state : MessageState := none
  sizeCache : Int := 0
  unknownFields : Bytes := []
  AddressView : Option isAddressView_AddressView := none
  deriving DecidableEq, Repr

/-! ## Getters -/

/-- Address.GetInner. -/
def Address.GetInner (x : Option Address) : Bytes :=
  match x with
  | some x => x.Inner
  | none => []

/-- Address.GetAltBech32M. -/
def Address.GetAltBech32M (x : Option Address) : Bytes :=
  match x with
  | some x => x.AltBech32M
  | none => []

/-- AddressView.GetAddressView. -/
def AddressView.GetAddressView (m : Option keysv1alpha1.AddressView) : Option isAddressView_AddressView :=
  match m with
  | some m => m.AddressView
  | none => none

/-- AddressView.GetDecoded: the type assertion succeeds whenever the dynamic type
is the Decoded wrapper pointer, also when that pointer is nil, in which case the
field access panics. -/
def AddressView.GetDecoded (x : Option keysv1alpha1.AddressView) : Except GoPanic (Option AddressView_Decoded) :=
  match AddressView.GetAddressView x with
  | some (.Decoded_ (some x)) => .ok x.Decoded
  | some (.Decoded_ none) => .error .nilDereference
  | _ => .ok none

/-- AddressView.GetOpaque. -/
def AddressView.GetOpaque (x : Option keysv1alpha1.AddressView) : Except GoPanic (Option AddressView_Opaque) :=
  match AddressView.GetAddressView x with
  | some (.Opaque_ (some x)) => .ok x.Opaque
  | some (.Opaque_ none) => .error .nilDereference
  | _ => .ok none

/-- PayloadKey.GetInner. -/
def PayloadKey.GetInner (x : Option PayloadKey) : Bytes :=
  match x with
  | some x => x.Inner
  | none => []

/-- SpendKey.GetInner. -/
def SpendKey.GetInner (x : Option SpendKey) : Bytes :=
  match x with
  | some x => x.Inner
  | none => []

/-- FullViewingKey.GetInner. -/
def FullViewingKey.GetInner (x : Option FullViewingKey) : Bytes :=
  match x with
  | some x => x.Inner
  | none => []

/-- WalletId.GetInner. -/
def WalletId.GetInner (x : Option WalletId) : Bytes :=
  match x with
  | some x => x.Inner
  | none => []

/-- Diversifier.GetInner. -/
def Diversifier.GetInner (x : Option Diversifier) : Bytes :=
  match x with
  | some x => x.Inner
  | none => []

/-- AddressIndex.GetAccount. -/
def AddressIndex.GetAccount (x : Option AddressIndex) : Nat :=
  match x with
  | some x => x.Account
  | none => 0

/-- AddressIndex.GetRandomizer. -/
def AddressIndex.GetRandomizer (x : Option AddressIndex) : Bytes :=
  match x with
  | some x => x.Randomizer
  | none => []

/-- IdentityKey.GetIk. -/
def IdentityKey.GetIk (x : Option IdentityKey) : Bytes :=
  match x with
  | some x => x.Ik
  | none => []

/-- GovernanceKey.GetGk. -/
def GovernanceKey.GetGk (x : Option GovernanceKey) : Bytes :=
  match x with
  | some x => x.Gk
  | none => []

/-- ConsensusKey.GetInner. -/
def ConsensusKey.GetInner (x : Option ConsensusKey) : Bytes :=
  match x with
  | some x => x.Inner
  | none => []

/-- AddressView_Decoded.GetAddress. -/
def AddressView_Decoded.GetAddress (x : Option AddressView_Decoded) :
    Option keysv1alpha1.Address :=
  match x with
  | some x => x.Address
  | none => none

/-- AddressView_Decoded.GetIndex. -/
def AddressView_Decoded.GetIndex (x : Option AddressView_Decoded) : Option AddressIndex :=
  match x with
  | some x => x.Index
  | none => none

/-- AddressView_Decoded.GetWalletId. -/
def AddressView_Decoded.GetWalletId (x : Option AddressView_Decoded) :
    Option keysv1alpha1.WalletId :=
  match x with
  | some x => x.WalletId
  | none => none

/-- AddressView_Opaque.GetAddress. -/
def AddressView_Opaque.GetAddress (x : Option AddressView_Opaque) :
    Option keysv1alpha1.Address :=
  match x with
  | some x => x.Address
  | none => none

/-! ## Struct tags -/

/-- The Go type of a struct field carrying a protobuf tag. -/
inductive GoType where
  | byteSlice
  | string
  | uint32
  | pointer (struct : String)
  deriving DecidableEq, Repr

/-- A tagged field of a Go struct: the field name, its Go type and the value of
the protobuf key of its struct tag, as written in the source. -/
structure StructField where
  goName : String
  goType : GoType
  protobuf : String
  deriving DecidableEq, Repr

/-- The tagged fields of every struct of the file, in declaration order. The two
oneof wrappers are the structs holding the tags of the members of AddressView. -/
def structFields : List (String × List StructField) :=
  [ ("Address",
      [ ⟨"Inner", .byteSlice, "bytes,1,opt,name=inner,proto3"⟩,
        ⟨"AltBech32M", .string, "bytes,2,opt,name=alt_bech32m,json=altBech32m,proto3"⟩ ]),
    ("AddressView_Decoded_",
      [ ⟨"Decoded", .pointer "AddressView_Decoded", "bytes,1,opt,name=decoded,proto3,oneof"⟩ ]),
    ("AddressView_Opaque_",
      [ ⟨"Opaque", .pointer "AddressView_Opaque", "bytes,2,opt,name=opaque,proto3,oneof"⟩ ]),
    ("PayloadKey", [ ⟨"Inner", .byteSlice, "bytes,1,opt,name=inner,proto3"⟩ ]),
    ("SpendKey", [ ⟨"Inner", .byteSlice, "bytes,1,opt,name=inner,proto3"⟩ ]),
    ("FullViewingKey", [ ⟨"Inner", .byteSlice, "bytes,1,opt,name=inner,proto3"⟩ ]),
    ("WalletId", [ ⟨"Inner", .byteSlice, "bytes,1,opt,name=inner,proto3"⟩ ]),
    ("Diversifier", [ ⟨"Inner", .byteSlice, "bytes,1,opt,name=inner,proto3"⟩ ]),
    ("AddressIndex",
      [ ⟨"Account", .uint32, "varint,2,opt,name=account,proto3"⟩,
        ⟨"Randomizer", .byteSlice, "bytes,3,opt,name=randomizer,proto3"⟩ ]),
    ("IdentityKey", [ ⟨"Ik", .byteSlice, "bytes,1,opt,name=ik,proto3"⟩ ]),
    ("GovernanceKey", [ ⟨"Gk", .byteSlice, "bytes,1,opt,name=gk,proto3"⟩ ]),
    ("ConsensusKey", [ ⟨"Inner", .byteSlice, "bytes,1,opt,name=inner,proto3"⟩ ]),
    ("AddressView_Decoded",
      [ ⟨"Address", .pointer "Address", "bytes,1,opt,name=address,proto3"⟩,
        ⟨"Index", .pointer "AddressIndex", "bytes,2,opt,name=index,proto3"⟩,
        ⟨"WalletId", .pointer "WalletId", "bytes,3,opt,name=wallet_id,json=walletId,proto3"⟩ ]),
    ("AddressView_Opaque",
      [ ⟨"Address", .pointer "Address", "bytes,1,opt,name=address,proto3"⟩ ]) ]

/-- The structs whose tagged fields make up a message: the struct of the message itself,
and for AddressView the two wrappers of its oneof. -/
def messageStructs : List (String × List String) :=
  [ ("Address", ["Address"]),
    ("AddressView", ["AddressView_Decoded_", "AddressView_Opaque_"]),
    ("AddressView.Decoded", ["AddressView_Decoded"]),
    ("AddressView.Opaque", ["AddressView_Opaque"]),
    ("PayloadKey", ["PayloadKey"]),
    ("SpendKey", ["SpendKey"]),
    ("FullViewingKey", ["FullViewingKey"]),
    ("WalletId", ["WalletId"]),
    ("Diversifier", ["Diversifier"]),
    ("AddressIndex", ["AddressIndex"]),
    ("IdentityKey", ["IdentityKey"]),
    ("GovernanceKey", ["GovernanceKey"]),
    ("ConsensusKey", ["ConsensusKey"]) ]

/-- The comma-separated parts of a tag value. -/
def splitComma : List Char → List (List Char)
  | [] => [[]]
  | c :: cs =>
    match splitComma cs with
    | [] => [[]]
    | w :: ws => if c = ',' then [] :: w :: ws else (c :: w) :: ws

/-- A decimal numeral, none when a character is not a digit or there is none. -/
def parseDecimal (cs : List Char) : Option Nat :=
  if cs = [] then none
  else cs.foldl (fun acc c =>
    match acc with
    | none => none
    | some n => if '0' ≤ c ∧ c ≤ '9' then some (n * 10 + (c.toNat - 48)) else none) (some 0)

/-- The parts of a protobuf struct tag this development reads: the wire kind
(first part), the field number (second part), the name (the part name=...) and
whether the part oneof is present. -/
structure ParsedTag where
  wireKind : String
  number : Nat
  name : String
  oneof : Bool
  deriving DecidableEq, Repr

/-- The value of the part that starts with name=, if any. -/
def tagName : List (List Char) → Option (List Char)
  | [] => none
  | ('n' :: 'a' :: 'm' :: 'e' :: '=' :: v) :: _ => some v
  | _ :: ps => tagName ps

/-- Parse a protobuf struct tag. -/
def parseTag (tag : String) : Option ParsedTag :=
  match splitComma tag.data with
  | kind :: num :: rest =>
    match parseDecimal num, tagName rest with
    | some n, some nm => some ⟨String.mk kind, n, String.mk nm, rest.contains "oneof".data⟩
    | _, _ => none
  | _ => none

/-- The tagged fields of a message, over all the structs that make it up. -/
def messageFields (msg : String) : List StructField :=
  match messageStructs.lookup msg with
  | none => []
  | some structs => structs.flatMap (fun s => (structFields.lookup s).getD [])

/-- The oneof fields of the structs: the struct, its Go field, and the value of the
protobuf_oneof key of the struct tag of that field. -/
def structOneofs : List (String × String × String) :=
  [ ("AddressView", "AddressView", "address_view") ]

/-- The names of the fields of a message whose tag carries the part oneof. -/
def oneofMembers (msg : String) : List String :=
  (messageFields msg).filterMap (fun f =>
    match parseTag f.protobuf with
    | some t => if t.oneof then some t.name else none
    | none => none)

/-- The field types of the field table of the specification. -/
inductive SpecType where
  | bytes
  | string
  | message
  | uint32
  deriving DecidableEq, Repr

/-- The type the table of the specification gives to a field whose tag has this wire
kind and whose Go type is this one; none when the two do not fit together. -/
def specTypeOf (wireKind : String) (t : GoType) : Option SpecType :=
  match t with
  | .byteSlice => if wireKind = "bytes" then some .bytes else none
  | .string => if wireKind = "bytes" then some .string else none
  | .pointer _ => if wireKind = "bytes" then some .message else none
  | .uint32 => if wireKind = "varint" then some .uint32 else none

/-- What the source declares for field name of message msg: its field number, its
type in the terms of the specification, and whether it is a oneof member. -/
def declaredField (msg name : String) : Option (Nat × SpecType × Bool) :=
  match (messageFields msg).filterMap (fun f =>
      match parseTag f.protobuf with
      | some t => if t.name = name then
          (specTypeOf t.wireKind f.goType).map (fun ty => (t.number, ty, t.oneof)) else none
      | none => none) with
  | [d] => some d
  | _ => none

/-- The field numbers declared in the tags of a message; none when a tag does not
parse. -/
def declaredNumbers (msg : String) : Option (List Nat) :=
  (messageFields msg).mapM (fun f => (parseTag f.protobuf).map (fun t => t.number))

/-- The field table of the specification (section 6), row by row: message, field
name, field number, type, and whether the row is marked as a oneof member. -/
def specFieldTable : List (String × String × Nat × SpecType × Bool) :=
  [ ("Address", "inner", 1, .bytes, false),
    ("Address", "alt_bech32m", 2, .string, false),
    ("AddressView", "decoded", 1, .message, true),
    ("AddressView", "opaque", 2, .message, true),
    ("AddressView.Decoded", "address", 1, .message, false),
    ("AddressView.Decoded", "index", 2, .message, false),
    ("AddressView.Decoded", "wallet_id", 3, .message, false),
    ("AddressView.Opaque", "address", 1, .message, false),
    ("PayloadKey", "inner", 1, .bytes, false),
    ("SpendKey", "inner", 1, .bytes, false),
    ("FullViewingKey", "inner", 1, .bytes, false),
    ("WalletId", "inner", 1, .bytes, false),
    ("Diversifier", "inner", 1, .bytes, false),
    ("ConsensusKey", "inner", 1, .bytes, false),
    ("AddressIndex", "account", 2, .uint32, false),
    ("AddressIndex", "randomizer", 3, .bytes, false),
    ("IdentityKey", "ik", 1, .bytes, false),
    ("GovernanceKey", "gk", 1, .bytes, false) ]

/-! ## Wire format

The encoder and decoder are the protobuf runtime, which is not part of this
sources of this repository: the file only declares the schema (struct tags, raw
descriptor) that drives it. The definitions of this section follow section 4.1
of the specification, with the field numbers and wire kinds of the struct tags.
-/

/-- Modelled from the spec: the error taxonomy of section 7 (the codec itself is
missing from the sources). invalidInvariant is the optional application-level
check, which the decoder below does not perform; fuelExhausted is not an error
of the codec but the outcome of the decoding loop below when its step bound is
too small, which Codec.decode never is. -/
inductive DecodeError where
  | malformedVarint
  | truncatedInput
  | wireTypeMismatch
  | invalidInvariant
  | fuelExhausted
  deriving DecidableEq, Repr

/-- Equality of results is decidable. -/
instance instDecidableEqExcept {ε α : Type} [DecidableEq ε] [DecidableEq α] :
    DecidableEq (Except ε α)
  | .ok a, .ok b =>
    if h : a = b then isTrue (by rw [h]) else isFalse (fun h2 => by cases h2; exact h rfl)
  | .error a, .error b =>
    if h : a = b then isTrue (by rw [h]) else isFalse (fun h2 => by cases h2; exact h rfl)
  | .ok _, .error _ => isFalse (fun h => by cases h)
  | .error _, .ok _ => isFalse (fun h => by cases h)

/-- Modelled from the spec: the two wire types of the glossary (the codec is
missing from the sources). -/
inductive WireType where
  | varint
  | lengthDelimited
  deriving DecidableEq, Repr

/-- Modelled from the spec: the number of a wire type inside a tag, 0 for a
variable-length integer and 2 for a length-delimited payload, the values the
struct tags varint and bytes stand for. -/
def WireType.code : WireType → Nat
  | .varint => 0
  | .lengthDelimited => 2

/-- Modelled from the spec: the wire type of a number found in a tag; none for a
number that is neither of the two wire types the specification defines. -/
def WireType.ofCode : Nat → Option WireType
  | 0 => some .varint
  | 2 => some .lengthDelimited
  | _ => none

/-- Modelled from the spec: the largest number of bytes of a variable-length
integer; ten bytes of seven payload bits hold every 64-bit value. -/
def maxVarintLen : Nat := 10

/-- Modelled from the spec: a variable-length integer, seven payload bits per
byte, least significant group first, the continuation bit (128) set on every byte
but the last; the first argument bounds the number of bytes written. -/
def encodeVarintAux : Nat → Nat → Bytes
  | 0, _ => []
  | k + 1, v => if v < 128 then [v] else (v % 128 + 128) :: encodeVarintAux k (v / 128)

/-- Modelled from the spec: the variable-length encoding of an integer. -/
def encodeVarint (v : Nat) : Bytes := encodeVarintAux maxVarintLen v

/-- Modelled from the spec: read a variable-length integer of at most the given
number of bytes; the value and the bytes after it, malformedVarint when the
continuation bit is still set on the last byte allowed, truncatedInput when the
input ends before the integer does. -/
def decodeVarintAux : Nat → Bytes → Except DecodeError (Nat × Bytes)
  | 0, _ => .error .malformedVarint
  | _ + 1, [] => .error .truncatedInput
  | k + 1, b :: bs =>
    if b < 128 then .ok (b, bs)
    else
      match decodeVarintAux k bs with
      | .ok (v, rest) => .ok (b % 128 + 128 * v, rest)
      | .error e => .error e

/-- Modelled from the spec: read a variable-length integer. -/
def decodeVarint (bs : Bytes) : Except DecodeError (Nat × Bytes) :=
  decodeVarintAux maxVarintLen bs

/-- Modelled from the spec: the tag of a field record,
(field_number << 3 | wire_type) as a variable-length integer. -/
def encodeTag (num : Nat) (wt : WireType) : Bytes := encodeVarint (num * 8 + wt.code)

/-- Modelled from the spec: the payload of a field record, by wire type. -/
inductive FieldValue where
  | varint (v : Nat)
  | bytes (b : Bytes)
  deriving DecidableEq, Repr

/-- Modelled from the spec: the wire type of a payload. -/
def FieldValue.wireType : FieldValue → WireType
  | .varint _ => .varint
  | .bytes _ => .lengthDelimited

/-- Modelled from the spec: the bytes of a payload, the integer itself for a
variable-length integer, the byte count followed by the raw bytes for a
length-delimited payload. -/
def encodeValue : FieldValue → Bytes
  | .varint v => encodeVarint v
  | .bytes b => encodeVarint b.length ++ b

/-- Modelled from the spec: a field record, the tag followed by the payload. -/
def encodeRecord (num : Nat) (v : FieldValue) : Bytes :=
  encodeTag num v.wireType ++ encodeValue v

/-- Modelled from the spec: the values a variable-length integer of maxVarintLen
bytes can hold are those below this limit, 2 ^ 70. -/
def varintLimit : Nat := 128 ^ maxVarintLen

/-- A payload whose integer, or whose byte count, a variable-length integer can
hold. -/
def FieldValue.Encodable : FieldValue → Prop
  | .varint v => v < varintLimit
  | .bytes b => b.length < varintLimit

/-- A field number whose tag a variable-length integer can hold. -/
def EncodableFieldNumber (num : Nat) : Prop := num < varintLimit / 8

/-- Modelled from the spec: read the payload of a field of the given wire type;
a length prefix claiming more bytes than remain is truncatedInput. -/
def readValue : WireType → Bytes → Except DecodeError (FieldValue × Bytes)
  | .varint, bs =>
    match decodeVarint bs with
    | .ok (v, rest) => .ok (.varint v, rest)
    | .error e => .error e
  | .lengthDelimited, bs =>
    match decodeVarint bs with
    | .ok (n, rest) =>
      if n ≤ rest.length then .ok (.bytes (rest.take n), rest.drop n)
      else .error .truncatedInput
    | .error e => .error e

/-- Modelled from the spec: what the decoder of one message type is made of, the
all-default record it starts from, the wire type its schema declares for each
field number (none for a number not in the schema) and the assignment of a
payload to the field of that number. -/
structure Codec (T : Type) where
  zero : T
  kind : Nat → Option WireType
  assign : T → Nat → FieldValue → Except DecodeError T

/-- Modelled from the spec: decode one field record. The tag is read and split
into field number and wire type; a field of the schema whose declared wire type
differs is wireTypeMismatch, otherwise its payload is read and assigned; the
payload of a field number not in the schema is consumed according to its wire
type and discarded. A tag whose wire type is neither of the two the
specification defines is reported as wireTypeMismatch. -/
def decodeField {T : Type} (C : Codec T) (acc : T) (bs : Bytes) : Except DecodeError (T × Bytes) :=
  match decodeVarint bs with
  | .error e => .error e
  | .ok (tag, rest) =>
    match WireType.ofCode (tag % 8) with
    | none => .error .wireTypeMismatch
    | some wt =>
      match C.kind (tag / 8) with
      | none =>
        match readValue wt rest with
        | .error e => .error e
        | .ok (_, rest1) => .ok (acc, rest1)
      | some k =>
        if k = wt then
          match readValue wt rest with
          | .error e => .error e
          | .ok (v, rest1) =>
            match C.assign acc (tag / 8) v with
            | .error e => .error e
            | .ok acc1 => .ok (acc1, rest1)
        else .error .wireTypeMismatch

/-- Modelled from the spec: read field records until the input is exhausted. The
first argument bounds the number of records read. -/
def decodeLoop {T : Type} (C : Codec T) : Nat → T → Bytes → Except DecodeError T
  | _, acc, [] => .ok acc
  | 0, _, _ :: _ => .error .fuelExhausted
  | fuel + 1, acc, b :: bs =>
    match decodeField C acc (b :: bs) with
    | .error e => .error e
    | .ok (acc1, rest) => decodeLoop C fuel acc1 rest

/-- Modelled from the spec: continue decoding into a record. Every field record
has at least one byte, so the length of the input bounds the number of
records. -/
def Codec.resume {T : Type} (C : Codec T) (acc : T) (bs : Bytes) : Except DecodeError T :=
  decodeLoop C bs.length acc bs

/-- Modelled from the spec: Decode(bytes), starting from the all-default
record. -/
def Codec.decode {T : Type} (C : Codec T) (bs : Bytes) : Except DecodeError T :=
  C.resume C.zero bs

/-- Modelled from the spec: the record of a byte-sequence or string field,
omitted when the value is empty. -/
def encodeBytesField (num : Nat) (b : Bytes) : Bytes :=
  if b = [] then [] else encodeRecord num (.bytes b)

/-- Modelled from the spec: the record of an integer field, omitted when the
value is 0. -/
def encodeVarintField (num : Nat) (v : Nat) : Bytes :=
  if v = 0 then [] else encodeRecord num (.varint v)

/-- Modelled from the spec: the record of a nested message field, given the
encoding of the nested message; omitted when the field is absent. -/
def encodeMessageField (num : Nat) (m : Option Bytes) : Bytes :=
  match m with
  | none => []
  | some payload => encodeRecord num (.bytes payload)

/-! ## Message codecs

One encoder and one decoder per message, with the field numbers and types of the
field table of the specification. A field that occurs more than once is assigned each
time, so that the last occurrence stays. The decoder does not look at the
bookkeeping fields state, sizeCache and unknownFields: a decoded message has them
at their zero value, and the encoder does not read them. A string is carried as
its bytes, which the decoder does not inspect.
-/

/-- Modelled from the spec: Encode for Address, inner = 1 (bytes) and
alt_bech32m = 2 (string), each omitted when empty. -/
def Address.encode (m : Address) : Bytes :=
  encodeBytesField 1 m.Inner ++ encodeBytesField 2 m.AltBech32M

/-- Modelled from the spec: the decoder of Address. It does not reject a stream
that sets both inner and alt_bech32m: the specification leaves that check to a
separate validation pass. -/
def Address.codec : Codec Address where
  zero := {}
  kind := fun n =>
    match n with
    | 1 => some .lengthDelimited
    | 2 => some .lengthDelimited
    | _ => none
  assign := fun acc n v =>
    match n, v with
    | 1, .bytes b => .ok { acc with Inner := b }
    | 2, .bytes b => .ok { acc with AltBech32M := b }
    | _, _ => .error .wireTypeMismatch

/-- Modelled from the spec: Decode for Address. -/
def Address.decode (bs : Bytes) : Except DecodeError Address :=
  Address.codec.decode bs

/-- Modelled from the spec: Encode for PayloadKey, field inner = 1 (bytes). -/
def PayloadKey.encode (m : PayloadKey) : Bytes :=
  encodeBytesField 1 m.Inner

/-- Modelled from the spec: the decoder of PayloadKey. -/
def PayloadKey.codec : Codec PayloadKey where
  zero := {}
  kind := fun n =>
    match n with
    | 1 => some .lengthDelimited
    | _ => none
  assign := fun acc n v =>
    match n, v with
    | 1, .bytes b => .ok { acc with Inner := b }
    | _, _ => .error .wireTypeMismatch

/-- Modelled from the spec: Decode for PayloadKey. -/
def PayloadKey.decode (bs : Bytes) : Except DecodeError PayloadKey :=
  PayloadKey.codec.decode bs

/-- Modelled from the spec: Encode for SpendKey, field inner = 1 (bytes). -/
def SpendKey.encode (m : SpendKey) : Bytes :=
  encodeBytesField 1 m.Inner

/-- Modelled from the spec: the decoder of SpendKey. -/
def SpendKey.codec : Codec SpendKey where
  zero := {}
  kind := fun n =>
    match n with
    | 1 => some .lengthDelimited
    | _ => none
  assign := fun acc n v =>
    match n, v with
    | 1, .bytes b => .ok { acc with Inner := b }
    | _, _ => .error .wireTypeMismatch

/-- Modelled from the spec: Decode for SpendKey. -/
def SpendKey.decode (bs : Bytes) : Except DecodeError SpendKey :=
  SpendKey.codec.decode bs

/-- Modelled from the spec: Encode for FullViewingKey, field inner = 1 (bytes). -/
def FullViewingKey.encode (m : FullViewingKey) : Bytes :=
  encodeBytesField 1 m.Inner

/-- Modelled from the spec: the decoder of FullViewingKey. -/
def FullViewingKey.codec : Codec FullViewingKey where
  zero := {}
  kind := fun n =>
    match n with
    | 1 => some .lengthDelimited
    | _ => none
  assign := fun acc n v =>
    match n, v with
    | 1, .bytes b => .ok { acc with Inner := b }
    | _, _ => .error .wireTypeMismatch

/-- Modelled from the spec: Decode for FullViewingKey. -/
def FullViewingKey.decode (bs : Bytes) : Except DecodeError FullViewingKey :=
  FullViewingKey.codec.decode bs

/-- Modelled from the spec: Encode for WalletId, field inner = 1 (bytes). -/
def WalletId.encode (m : WalletId) : Bytes :=
  encodeBytesField 1 m.Inner

/-- Modelled from the spec: the decoder of WalletId. -/
def WalletId.codec : Codec WalletId where
  zero := {}
  kind := fun n =>
    match n with
    | 1 => some .lengthDelimited
    | _ => none
  assign := fun acc n v =>
    match n, v with
    | 1, .bytes b => .ok { acc with Inner := b }
    | _, _ => .error .wireTypeMismatch

/-- Modelled from the spec: Decode for WalletId. -/
def WalletId.decode (bs : Bytes) : Except DecodeError WalletId :=
  WalletId.codec.decode bs

/-- Modelled from the spec: Encode for Diversifier, field inner = 1 (bytes). -/
def Diversifier.encode (m : Diversifier) : Bytes :=
  encodeBytesField 1 m.Inner

/-- Modelled from the spec: the decoder of Diversifier. -/
def Diversifier.codec : Codec Diversifier where
  zero := {}
  kind := fun n =>
    match n with
    | 1 => some .lengthDelimited
    | _ => none
  assign := fun acc n v =>
    match n, v with
    | 1, .bytes b => .ok { acc with Inner := b }
    | _, _ => .error .wireTypeMismatch

/-- Modelled from the spec: Decode for Diversifier. -/
def Diversifier.decode (bs : Bytes) : Except DecodeError Diversifier :=
  Diversifier.codec.decode bs

/-- Modelled from the spec: Encode for AddressIndex, account = 2 (uint32, a
variable-length integer) omitted when 0 and randomizer = 3 (bytes) omitted when
empty. -/
def AddressIndex.encode (m : AddressIndex) : Bytes :=
  encodeVarintField 2 m.Account ++ encodeBytesField 3 m.Randomizer

/-- Modelled from the spec: the decoder of AddressIndex; the integer read for
account is stored into an unsigned 32-bit field. -/
def AddressIndex.codec : Codec AddressIndex where
  zero := {}
  kind := fun n =>
    match n with
    | 2 => some .varint
    | 3 => some .lengthDelimited
    | _ => none
  assign := fun acc n v =>
    match n, v with
    | 2, .varint a => .ok { acc with Account := a % 2 ^ 32 }
    | 3, .bytes b => .ok { acc with Randomizer := b }
    | _, _ => .error .wireTypeMismatch

/-- Modelled from the spec: Decode for AddressIndex. -/
def AddressIndex.decode (bs : Bytes) : Except DecodeError AddressIndex :=
  AddressIndex.codec.decode bs

/-- Modelled from the spec: Encode for IdentityKey, field ik = 1 (bytes). -/
def IdentityKey.encode (m : IdentityKey) : Bytes :=
  encodeBytesField 1 m.Ik

/-- Modelled from the spec: the decoder of IdentityKey. -/
def IdentityKey.codec : Codec IdentityKey where
  zero := {}
  kind := fun n =>
    match n with
    | 1 => some .lengthDelimited
    | _ => none
  assign := fun acc n v =>
    match n, v with
    | 1, .bytes b => .ok { acc with Ik := b }
    | _, _ => .error .wireTypeMismatch

/-- Modelled from the spec: Decode for IdentityKey. -/
def IdentityKey.decode (bs : Bytes) : Except DecodeError IdentityKey :=
  IdentityKey.codec.decode bs

/-- Modelled from the spec: Encode for GovernanceKey, field gk = 1 (bytes). -/
def GovernanceKey.encode (m : GovernanceKey) : Bytes :=
  encodeBytesField 1 m.Gk

/-- Modelled from the spec: the decoder of GovernanceKey. -/
def GovernanceKey.codec : Codec GovernanceKey where
  zero := {}
  kind := fun n =>
    match n with
    | 1 => some .lengthDelimited
    | _ => none
  assign := fun acc n v =>
    match n, v with
    | 1, .bytes b => .ok { acc with Gk := b }
    | _, _ => .error .wireTypeMismatch

/-- Modelled from the spec: Decode for GovernanceKey. -/
def GovernanceKey.decode (bs : Bytes) : Except DecodeError GovernanceKey :=
  GovernanceKey.codec.decode bs

/-- Modelled from the spec: Encode for ConsensusKey, field inner = 1 (bytes). -/
def ConsensusKey.encode (m : ConsensusKey) : Bytes :=
  encodeBytesField 1 m.Inner

/-- Modelled from the spec: the decoder of ConsensusKey. -/
def ConsensusKey.codec : Codec ConsensusKey where
  zero := {}
  kind := fun n =>
    match n with
    | 1 => some .lengthDelimited
    | _ => none
  assign := fun acc n v =>
    match n, v with
    | 1, .bytes b => .ok { acc with Inner := b }
    | _, _ => .error .wireTypeMismatch

/-- Modelled from the spec: Decode for ConsensusKey. -/
def ConsensusKey.decode (bs : Bytes) : Except DecodeError ConsensusKey :=
  ConsensusKey.codec.decode bs

/-- Modelled from the spec: Encode for AddressView.Decoded, address = 1,
index = 2 and wallet_id = 3, each the recursively encoded nested message,
omitted when absent. -/
def AddressView_Decoded.encode (m : AddressView_Decoded) : Bytes :=
  encodeMessageField 1 (m.Address.map Address.encode)
    ++ encodeMessageField 2 (m.Index.map AddressIndex.encode)
    ++ encodeMessageField 3 (m.WalletId.map WalletId.encode)

/-- Modelled from the spec: the decoder of AddressView.Decoded; the payload of a
nested message field is decoded as that message, and its failure is the failure
of the whole. -/
def AddressView_Decoded.codec : Codec AddressView_Decoded where
  zero := {}
  kind := fun n =>
    match n with
    | 1 => some .lengthDelimited
    | 2 => some .lengthDelimited
    | 3 => some .lengthDelimited
    | _ => none
  assign := fun acc n v =>
    match n, v with
    | 1, .bytes b =>
      match Address.decode b with
      | .ok a => .ok { acc with Address := some a }
      | .error e => .error e
    | 2, .bytes b =>
      match AddressIndex.decode b with
      | .ok a => .ok { acc with Index := some a }
      | .error e => .error e
    | 3, .bytes b =>
      match WalletId.decode b with
      | .ok a => .ok { acc with WalletId := some a }
      | .error e => .error e
    | _, _ => .error .wireTypeMismatch

/-- Modelled from the spec: Decode for AddressView.Decoded. -/
def AddressView_Decoded.decode (bs : Bytes) : Except DecodeError AddressView_Decoded :=
  AddressView_Decoded.codec.decode bs

/-- Modelled from the spec: Encode for AddressView.Opaque, address = 1. -/
def AddressView_Opaque.encode (m : AddressView_Opaque) : Bytes :=
  encodeMessageField 1 (m.Address.map Address.encode)

/-- Modelled from the spec: the decoder of AddressView.Opaque. -/
def AddressView_Opaque.codec : Codec AddressView_Opaque where
  zero := {}
  kind := fun n =>
    match n with
    | 1 => some .lengthDelimited
    | _ => none
  assign := fun acc n v =>
    match n, v with
    | 1, .bytes b =>
      match Address.decode b with
      | .ok a => .ok { acc with Address := some a }
      | .error e => .error e
    | _, _ => .error .wireTypeMismatch

/-- Modelled from the spec: Decode for AddressView.Opaque. -/
def AddressView_Opaque.decode (bs : Bytes) : Except DecodeError AddressView_Opaque :=
  AddressView_Opaque.codec.decode bs

/-- Modelled from the spec: Encode for AddressView, exactly the populated variant
of the oneof, decoded = 1 or opaque = 2; nothing when no variant holds a
message. -/
def AddressView.encode (m : keysv1alpha1.AddressView) : Bytes :=
  match m.AddressView with
  | some (.Decoded_ (some ⟨some d⟩)) => encodeRecord 1 (.bytes d.encode)
  | some (.Opaque_ (some ⟨some o⟩)) => encodeRecord 2 (.bytes o.encode)
  | _ => []

/-- Modelled from the spec: the decoder of AddressView; a field of either variant
replaces whatever the oneof held. -/
def AddressView.codec : Codec keysv1alpha1.AddressView where
  zero := {}
  kind := fun n =>
    match n with
    | 1 => some .lengthDelimited
    | 2 => some .lengthDelimited
    | _ => none
  assign := fun acc n v =>
    match n, v with
    | 1, .bytes b =>
      match AddressView_Decoded.decode b with
      | .ok d => .ok { acc with AddressView := some (.Decoded_ (some ⟨some d⟩)) }
      | .error e => .error e
    | 2, .bytes b =>
      match AddressView_Opaque.decode b with
      | .ok o => .ok { acc with AddressView := some (.Opaque_ (some ⟨some o⟩)) }
      | .error e => .error e
    | _, _ => .error .wireTypeMismatch

/-- Modelled from the spec: Decode for AddressView. -/
def AddressView.decode (bs : Bytes) : Except DecodeError keysv1alpha1.AddressView :=
  AddressView.codec.decode bs

/-! ## All message types at once -/

/-- The message types of the file, in the order of
file_penumbra_core_keys_v1alpha1_keys_proto_goTypes. -/
inductive MessageType where
  | Address
  | AddressView
  | PayloadKey
  | SpendKey
  | FullViewingKey
  | WalletId
  | Diversifier
  | AddressIndex
  | IdentityKey
  | GovernanceKey
  | ConsensusKey
  | AddressView_Decoded
  | AddressView_Opaque
  deriving DecidableEq, Repr

/-- A message of any of the types of the file. -/
inductive Message where
  | Address (m : keysv1alpha1.Address)
  | AddressView (m : keysv1alpha1.AddressView)
  | PayloadKey (m : keysv1alpha1.PayloadKey)
  | SpendKey (m : keysv1alpha1.SpendKey)
  | FullViewingKey (m : keysv1alpha1.FullViewingKey)
  | WalletId (m : keysv1alpha1.WalletId)
  | Diversifier (m : keysv1alpha1.Diversifier)
  | AddressIndex (m : keysv1alpha1.AddressIndex)
  | IdentityKey (m : keysv1alpha1.IdentityKey)
  | GovernanceKey (m : keysv1alpha1.GovernanceKey)
  | ConsensusKey (m : keysv1alpha1.ConsensusKey)
  | AddressView_Decoded (m : keysv1alpha1.AddressView_Decoded)
  | AddressView_Opaque (m : keysv1alpha1.AddressView_Opaque)
  deriving DecidableEq, Repr

/-- The type of a message. -/
def Message.type : Message → MessageType
  | .Address _ => .Address
  | .AddressView _ => .AddressView
  | .PayloadKey _ => .PayloadKey
  | .SpendKey _ => .SpendKey
  | .FullViewingKey _ => .FullViewingKey
  | .WalletId _ => .WalletId
  | .Diversifier _ => .Diversifier
  | .AddressIndex _ => .AddressIndex
  | .IdentityKey _ => .IdentityKey
  | .GovernanceKey _ => .GovernanceKey
  | .ConsensusKey _ => .ConsensusKey
  | .AddressView_Decoded _ => .AddressView_Decoded
  | .AddressView_Opaque _ => .AddressView_Opaque

/-- Modelled from the spec: Encode(record) for a message of any type. -/
def Message.encode : Message → Bytes
  | .Address m => keysv1alpha1.Address.encode m
  | .AddressView m => keysv1alpha1.AddressView.encode m
  | .PayloadKey m => keysv1alpha1.PayloadKey.encode m
  | .SpendKey m => keysv1alpha1.SpendKey.encode m
  | .FullViewingKey m => keysv1alpha1.FullViewingKey.encode m
  | .WalletId m => keysv1alpha1.WalletId.encode m
  | .Diversifier m => keysv1alpha1.Diversifier.encode m
  | .AddressIndex m => keysv1alpha1.AddressIndex.encode m
  | .IdentityKey m => keysv1alpha1.IdentityKey.encode m
  | .GovernanceKey m => keysv1alpha1.GovernanceKey.encode m
  | .ConsensusKey m => keysv1alpha1.ConsensusKey.encode m
  | .AddressView_Decoded m => keysv1alpha1.AddressView_Decoded.encode m
  | .AddressView_Opaque m => keysv1alpha1.AddressView_Opaque.encode m

/-- The result of a decoder as a message of any type. -/
def asMessage {T : Type} (wrap : T → Message) (r : Except DecodeError T) :
    Except DecodeError Message :=
  match r with
  | .ok m => .ok (wrap m)
  | .error e => .error e

/-- Modelled from the spec: Decode(bytes) for a message type. -/
def decode (t : MessageType) (bs : Bytes) : Except DecodeError Message :=
  match t with
  | .Address => asMessage Message.Address (keysv1alpha1.Address.decode bs)
  | .AddressView => asMessage Message.AddressView (keysv1alpha1.AddressView.decode bs)
  | .PayloadKey => asMessage Message.PayloadKey (keysv1alpha1.PayloadKey.decode bs)
  | .SpendKey => asMessage Message.SpendKey (keysv1alpha1.SpendKey.decode bs)
  | .FullViewingKey => asMessage Message.FullViewingKey (keysv1alpha1.FullViewingKey.decode bs)
  | .WalletId => asMessage Message.WalletId (keysv1alpha1.WalletId.decode bs)
  | .Diversifier => asMessage Message.Diversifier (keysv1alpha1.Diversifier.decode bs)
  | .AddressIndex => asMessage Message.AddressIndex (keysv1alpha1.AddressIndex.decode bs)
  | .IdentityKey => asMessage Message.IdentityKey (keysv1alpha1.IdentityKey.decode bs)
  | .GovernanceKey => asMessage Message.GovernanceKey (keysv1alpha1.GovernanceKey.decode bs)
  | .ConsensusKey => asMessage Message.ConsensusKey (keysv1alpha1.ConsensusKey.decode bs)
  | .AddressView_Decoded => asMessage Message.AddressView_Decoded (keysv1alpha1.AddressView_Decoded.decode bs)
  | .AddressView_Opaque => asMessage Message.AddressView_Opaque (keysv1alpha1.AddressView_Opaque.decode bs)

/-- Modelled from the spec: the wire type the schema of a message type declares
for a field number, none for a number not in the schema. -/
def schemaKind (t : MessageType) (num : Nat) : Option WireType :=
  match t with
  | .Address => keysv1alpha1.Address.codec.kind num
  | .AddressView => keysv1alpha1.AddressView.codec.kind num
  | .PayloadKey => keysv1alpha1.PayloadKey.codec.kind num
  | .SpendKey => keysv1alpha1.SpendKey.codec.kind num
  | .FullViewingKey => keysv1alpha1.FullViewingKey.codec.kind num
  | .WalletId => keysv1alpha1.WalletId.codec.kind num
  | .Diversifier => keysv1alpha1.Diversifier.codec.kind num
  | .AddressIndex => keysv1alpha1.AddressIndex.codec.kind num
  | .IdentityKey => keysv1alpha1.IdentityKey.codec.kind num
  | .GovernanceKey => keysv1alpha1.GovernanceKey.codec.kind num
  | .ConsensusKey => keysv1alpha1.ConsensusKey.codec.kind num
  | .AddressView_Decoded => keysv1alpha1.AddressView_Decoded.codec.kind num
  | .AddressView_Opaque => keysv1alpha1.AddressView_Opaque.codec.kind num

/-- The all-default message of a type: the zero value of the Go struct. -/
def zeroMessage : MessageType → Message
  | .Address => .Address {}
  | .AddressView => .AddressView {}
  | .PayloadKey => .PayloadKey {}
  | .SpendKey => .SpendKey {}
  | .FullViewingKey => .FullViewingKey {}
  | .WalletId => .WalletId {}
  | .Diversifier => .Diversifier {}
  | .AddressIndex => .AddressIndex {}
  | .IdentityKey => .IdentityKey {}
  | .GovernanceKey => .GovernanceKey {}
  | .ConsensusKey => .ConsensusKey {}
  | .AddressView_Decoded => .AddressView_Decoded {}
  | .AddressView_Opaque => .AddressView_Opaque {}

/-! ## Well-formed messages

The messages a producer builds from field contents: the bookkeeping fields are at
their zero value, a byte sequence or string is shorter than 2 ^ 63 (the largest
Go length), account fits 32 bits, and a oneof wrapper held by an AddressView is a
non-nil pointer holding a message.
-/

/-- The bound on the length of a byte sequence or string. -/
def maxLen : Nat := 2 ^ 63

/-- Well-formed Address. -/
def Address.WellFormed (m : Address) : Prop :=
  m.state = none ∧ m.sizeCache = 0 ∧ m.unknownFields = [] ∧ m.Inner.length < maxLen
    ∧ m.AltBech32M.length < maxLen

/-- Well-formed PayloadKey. -/
def PayloadKey.WellFormed (m : PayloadKey) : Prop :=
  m.state = none ∧ m.sizeCache = 0 ∧ m.unknownFields = [] ∧ m.Inner.length < maxLen

/-- Well-formed SpendKey. -/
def SpendKey.WellFormed (m : SpendKey) : Prop :=
  m.state = none ∧ m.sizeCache = 0 ∧ m.unknownFields = [] ∧ m.Inner.length < maxLen

/-- Well-formed FullViewingKey. -/
def FullViewingKey.WellFormed (m : FullViewingKey) : Prop :=
  m.state = none ∧ m.sizeCache = 0 ∧ m.unknownFields = [] ∧ m.Inner.length < maxLen

/-- Well-formed WalletId. -/
def WalletId.WellFormed (m : WalletId) : Prop :=
  m.state = none ∧ m.sizeCache = 0 ∧ m.unknownFields = [] ∧ m.Inner.length < maxLen

/-- Well-formed Diversifier. -/
def Diversifier.WellFormed (m : Diversifier) : Prop :=
  m.state = none ∧ m.sizeCache = 0 ∧ m.unknownFields = [] ∧ m.Inner.length < maxLen

/-- Well-formed AddressIndex. -/
def AddressIndex.WellFormed (m : AddressIndex) : Prop :=
  m.state = none ∧ m.sizeCache = 0 ∧ m.unknownFields = [] ∧ m.Account < 2 ^ 32
    ∧ m.Randomizer.length < maxLen

/-- Well-formed IdentityKey. -/
def IdentityKey.WellFormed (m : IdentityKey) : Prop :=
  m.state = none ∧ m.sizeCache = 0 ∧ m.unknownFields = [] ∧ m.Ik.length < maxLen

/-- Well-formed GovernanceKey. -/
def GovernanceKey.WellFormed (m : GovernanceKey) : Prop :=
  m.state = none ∧ m.sizeCache = 0 ∧ m.unknownFields = [] ∧ m.Gk.length < maxLen

/-- Well-formed ConsensusKey. -/
def ConsensusKey.WellFormed (m : ConsensusKey) : Prop :=
  m.state = none ∧ m.sizeCache = 0 ∧ m.unknownFields = [] ∧ m.Inner.length < maxLen

/-- Well-formed AddressView_Decoded: every nested message present is. -/
def AddressView_Decoded.WellFormed (m : AddressView_Decoded) : Prop :=
  m.state = none ∧ m.sizeCache = 0 ∧ m.unknownFields = []
    ∧ (∀ a, m.Address = some a → keysv1alpha1.Address.WellFormed a)
    ∧ (∀ a, m.Index = some a → keysv1alpha1.AddressIndex.WellFormed a)
    ∧ (∀ a, m.WalletId = some a → keysv1alpha1.WalletId.WellFormed a)

/-- Well-formed AddressView_Opaque. -/
def AddressView_Opaque.WellFormed (m : AddressView_Opaque) : Prop :=
  m.state = none ∧ m.sizeCache = 0 ∧ m.unknownFields = []
    ∧ (∀ a, m.Address = some a → keysv1alpha1.Address.WellFormed a)

/-- Well-formed oneof: unset, or a non-nil wrapper holding a well-formed
message. -/
def isAddressView_AddressView.WellFormed : Option isAddressView_AddressView → Prop
  | none => True
  | some (.Decoded_ (some ⟨some d⟩)) => d.WellFormed
  | some (.Opaque_ (some ⟨some o⟩)) => o.WellFormed
  | _ => False

/-- Well-formed AddressView. -/
def AddressView.WellFormed (m : keysv1alpha1.AddressView) : Prop :=
  m.state = none ∧ m.sizeCache = 0 ∧ m.unknownFields = []
    ∧ isAddressView_AddressView.WellFormed m.AddressView

/-- Well-formed message of any type. -/
def Message.WellFormed : Message → Prop
  | .Address m => keysv1alpha1.Address.WellFormed m
  | .AddressView m => keysv1alpha1.AddressView.WellFormed m
  | .PayloadKey m => keysv1alpha1.PayloadKey.WellFormed m
  | .SpendKey m => keysv1alpha1.SpendKey.WellFormed m
  | .FullViewingKey m => keysv1alpha1.FullViewingKey.WellFormed m
  | .WalletId m => keysv1alpha1.WalletId.WellFormed m
  | .Diversifier m => keysv1alpha1.Diversifier.WellFormed m
  | .AddressIndex m => keysv1alpha1.AddressIndex.WellFormed m
  | .IdentityKey m => keysv1alpha1.IdentityKey.WellFormed m
  | .GovernanceKey m => keysv1alpha1.GovernanceKey.WellFormed m
  | .ConsensusKey m => keysv1alpha1.ConsensusKey.WellFormed m
  | .AddressView_Decoded m => keysv1alpha1.AddressView_Decoded.WellFormed m
  | .AddressView_Opaque m => keysv1alpha1.AddressView_Opaque.WellFormed m

/-! ## Descriptor wiring

The tables of the file and the methods that use them. protoimpl.UnsafeEnabled is
a constant of the runtime and protoimpl.X.CompressGZIP a function of it; both are
parameters here.
-/

/-- The byte table file_penumbra_core_keys_v1alpha1_keys_proto_rawDesc. -/
def file_penumbra_core_keys_v1alpha1_keys_proto_rawDesc : Bytes :=
  [ 0x0a, 0x26, 0x70, 0x65, 0x6e, 0x75, 0x6d, 0x62, 0x72, 0x61, 0x2f, 0x63, 0x6f, 0x72, 0x65, 0x2f,
    0x6b, 0x65, 0x79, 0x73, 0x2f, 0x76, 0x31, 0x61, 0x6c, 0x70, 0x68, 0x61, 0x31, 0x2f, 0x6b, 0x65,
    0x79, 0x73, 0x2e, 0x70, 0x72, 0x6f, 0x74, 0x6f, 0x12, 0x1b, 0x70, 0x65, 0x6e, 0x75, 0x6d, 0x62,
    0x72, 0x61, 0x2e, 0x63, 0x6f, 0x72, 0x65, 0x2e, 0x6b, 0x65, 0x79, 0x73, 0x2e, 0x76, 0x31, 0x61,
    0x6c, 0x70, 0x68, 0x61, 0x31, 0x22, 0x40, 0x0a, 0x07, 0x41, 0x64, 0x64, 0x72, 0x65, 0x73, 0x73,
    0x12, 0x14, 0x0a, 0x05, 0x69, 0x6e, 0x6e, 0x65, 0x72, 0x18, 0x01, 0x20, 0x01, 0x28, 0x0c, 0x52,
    0x05, 0x69, 0x6e, 0x6e, 0x65, 0x72, 0x12, 0x1f, 0x0a, 0x0b, 0x61, 0x6c, 0x74, 0x5f, 0x62, 0x65,
    0x63, 0x68, 0x33, 0x32, 0x6d, 0x18, 0x02, 0x20, 0x01, 0x28, 0x09, 0x52, 0x0a, 0x61, 0x6c, 0x74,
    0x42, 0x65, 0x63, 0x68, 0x33, 0x32, 0x6d, 0x22, 0xd1, 0x03, 0x0a, 0x0b, 0x41, 0x64, 0x64, 0x72,
    0x65, 0x73, 0x73, 0x56, 0x69, 0x65, 0x77, 0x12, 0x4c, 0x0a, 0x07, 0x64, 0x65, 0x63, 0x6f, 0x64,
    0x65, 0x64, 0x18, 0x01, 0x20, 0x01, 0x28, 0x0b, 0x32, 0x30, 0x2e, 0x70, 0x65, 0x6e, 0x75, 0x6d,
    0x62, 0x72, 0x61, 0x2e, 0x63, 0x6f, 0x72, 0x65, 0x2e, 0x6b, 0x65, 0x79, 0x73, 0x2e, 0x76, 0x31,
    0x61, 0x6c, 0x70, 0x68, 0x61, 0x31, 0x2e, 0x41, 0x64, 0x64, 0x72, 0x65, 0x73, 0x73, 0x56, 0x69,
    0x65, 0x77, 0x2e, 0x44, 0x65, 0x63, 0x6f, 0x64, 0x65, 0x64, 0x48, 0x00, 0x52, 0x07, 0x64, 0x65,
    0x63, 0x6f, 0x64, 0x65, 0x64, 0x12, 0x49, 0x0a, 0x06, 0x6f, 0x70, 0x61, 0x71, 0x75, 0x65, 0x18,
    0x02, 0x20, 0x01, 0x28, 0x0b, 0x32, 0x2f, 0x2e, 0x70, 0x65, 0x6e, 0x75, 0x6d, 0x62, 0x72, 0x61,
    0x2e, 0x63, 0x6f, 0x72, 0x65, 0x2e, 0x6b, 0x65, 0x79, 0x73, 0x2e, 0x76, 0x31, 0x61, 0x6c, 0x70,
    0x68, 0x61, 0x31, 0x2e, 0x41, 0x64, 0x64, 0x72, 0x65, 0x73, 0x73, 0x56, 0x69, 0x65, 0x77, 0x2e,
    0x4f, 0x70, 0x61, 0x71, 0x75, 0x65, 0x48, 0x00, 0x52, 0x06, 0x6f, 0x70, 0x61, 0x71, 0x75, 0x65,
    0x1a, 0xce, 0x01, 0x0a, 0x07, 0x44, 0x65, 0x63, 0x6f, 0x64, 0x65, 0x64, 0x12, 0x3e, 0x0a, 0x07,
    0x61, 0x64, 0x64, 0x72, 0x65, 0x73, 0x73, 0x18, 0x01, 0x20, 0x01, 0x28, 0x0b, 0x32, 0x24, 0x2e,
    0x70, 0x65, 0x6e, 0x75, 0x6d, 0x62, 0x72, 0x61, 0x2e, 0x63, 0x6f, 0x72, 0x65, 0x2e, 0x6b, 0x65,
    0x79, 0x73, 0x2e, 0x76, 0x31, 0x61, 0x6c, 0x70, 0x68, 0x61, 0x31, 0x2e, 0x41, 0x64, 0x64, 0x72,
    0x65, 0x73, 0x73, 0x52, 0x07, 0x61, 0x64, 0x64, 0x72, 0x65, 0x73, 0x73, 0x12, 0x3f, 0x0a, 0x05,
    0x69, 0x6e, 0x64, 0x65, 0x78, 0x18, 0x02, 0x20, 0x01, 0x28, 0x0b, 0x32, 0x29, 0x2e, 0x70, 0x65,
    0x6e, 0x75, 0x6d, 0x62, 0x72, 0x61, 0x2e, 0x63, 0x6f, 0x72, 0x65, 0x2e, 0x6b, 0x65, 0x79, 0x73,
    0x2e, 0x76, 0x31, 0x61, 0x6c, 0x70, 0x68, 0x61, 0x31, 0x2e, 0x41, 0x64, 0x64, 0x72, 0x65, 0x73,
    0x73, 0x49, 0x6e, 0x64, 0x65, 0x78, 0x52, 0x05, 0x69, 0x6e, 0x64, 0x65, 0x78, 0x12, 0x42, 0x0a,
    0x09, 0x77, 0x61, 0x6c, 0x6c, 0x65, 0x74, 0x5f, 0x69, 0x64, 0x18, 0x03, 0x20, 0x01, 0x28, 0x0b,
    0x32, 0x25, 0x2e, 0x70, 0x65, 0x6e, 0x75, 0x6d, 0x62, 0x72, 0x61, 0x2e, 0x63, 0x6f, 0x72, 0x65,
    0x2e, 0x6b, 0x65, 0x79, 0x73, 0x2e, 0x76, 0x31, 0x61, 0x6c, 0x70, 0x68, 0x61, 0x31, 0x2e, 0x57,
    0x61, 0x6c, 0x6c, 0x65, 0x74, 0x49, 0x64, 0x52, 0x08, 0x77, 0x61, 0x6c, 0x6c, 0x65, 0x74, 0x49,
    0x64, 0x1a, 0x48, 0x0a, 0x06, 0x4f, 0x70, 0x61, 0x71, 0x75, 0x65, 0x12, 0x3e, 0x0a, 0x07, 0x61,
    0x64, 0x64, 0x72, 0x65, 0x73, 0x73, 0x18, 0x01, 0x20, 0x01, 0x28, 0x0b, 0x32, 0x24, 0x2e, 0x70,
    0x65, 0x6e, 0x75, 0x6d, 0x62, 0x72, 0x61, 0x2e, 0x63, 0x6f, 0x72, 0x65, 0x2e, 0x6b, 0x65, 0x79,
    0x73, 0x2e, 0x76, 0x31, 0x61, 0x6c, 0x70, 0x68, 0x61, 0x31, 0x2e, 0x41, 0x64, 0x64, 0x72, 0x65,
    0x73, 0x73, 0x52, 0x07, 0x61, 0x64, 0x64, 0x72, 0x65, 0x73, 0x73, 0x42, 0x0e, 0x0a, 0x0c, 0x61,
    0x64, 0x64, 0x72, 0x65, 0x73, 0x73, 0x5f, 0x76, 0x69, 0x65, 0x77, 0x22, 0x22, 0x0a, 0x0a, 0x50,
    0x61, 0x79, 0x6c, 0x6f, 0x61, 0x64, 0x4b, 0x65, 0x79, 0x12, 0x14, 0x0a, 0x05, 0x69, 0x6e, 0x6e,
    0x65, 0x72, 0x18, 0x01, 0x20, 0x01, 0x28, 0x0c, 0x52, 0x05, 0x69, 0x6e, 0x6e, 0x65, 0x72, 0x22,
    0x20, 0x0a, 0x08, 0x53, 0x70, 0x65, 0x6e, 0x64, 0x4b, 0x65, 0x79, 0x12, 0x14, 0x0a, 0x05, 0x69,
    0x6e, 0x6e, 0x65, 0x72, 0x18, 0x01, 0x20, 0x01, 0x28, 0x0c, 0x52, 0x05, 0x69, 0x6e, 0x6e, 0x65,
    0x72, 0x22, 0x26, 0x0a, 0x0e, 0x46, 0x75, 0x6c, 0x6c, 0x56, 0x69, 0x65, 0x77, 0x69, 0x6e, 0x67,
    0x4b, 0x65, 0x79, 0x12, 0x14, 0x0a, 0x05, 0x69, 0x6e, 0x6e, 0x65, 0x72, 0x18, 0x01, 0x20, 0x01,
    0x28, 0x0c, 0x52, 0x05, 0x69, 0x6e, 0x6e, 0x65, 0x72, 0x22, 0x20, 0x0a, 0x08, 0x57, 0x61, 0x6c,
    0x6c, 0x65, 0x74, 0x49, 0x64, 0x12, 0x14, 0x0a, 0x05, 0x69, 0x6e, 0x6e, 0x65, 0x72, 0x18, 0x01,
    0x20, 0x01, 0x28, 0x0c, 0x52, 0x05, 0x69, 0x6e, 0x6e, 0x65, 0x72, 0x22, 0x23, 0x0a, 0x0b, 0x44,
    0x69, 0x76, 0x65, 0x72, 0x73, 0x69, 0x66, 0x69, 0x65, 0x72, 0x12, 0x14, 0x0a, 0x05, 0x69, 0x6e,
    0x6e, 0x65, 0x72, 0x18, 0x01, 0x20, 0x01, 0x28, 0x0c, 0x52, 0x05, 0x69, 0x6e, 0x6e, 0x65, 0x72,
    0x22, 0x48, 0x0a, 0x0c, 0x41, 0x64, 0x64, 0x72, 0x65, 0x73, 0x73, 0x49, 0x6e, 0x64, 0x65, 0x78,
    0x12, 0x18, 0x0a, 0x07, 0x61, 0x63, 0x63, 0x6f, 0x75, 0x6e, 0x74, 0x18, 0x02, 0x20, 0x01, 0x28,
    0x0d, 0x52, 0x07, 0x61, 0x63, 0x63, 0x6f, 0x75, 0x6e, 0x74, 0x12, 0x1e, 0x0a, 0x0a, 0x72, 0x61,
    0x6e, 0x64, 0x6f, 0x6d, 0x69, 0x7a, 0x65, 0x72, 0x18, 0x03, 0x20, 0x01, 0x28, 0x0c, 0x52, 0x0a,
    0x72, 0x61, 0x6e, 0x64, 0x6f, 0x6d, 0x69, 0x7a, 0x65, 0x72, 0x22, 0x1d, 0x0a, 0x0b, 0x49, 0x64,
    0x65, 0x6e, 0x74, 0x69, 0x74, 0x79, 0x4b, 0x65, 0x79, 0x12, 0x0e, 0x0a, 0x02, 0x69, 0x6b, 0x18,
    0x01, 0x20, 0x01, 0x28, 0x0c, 0x52, 0x02, 0x69, 0x6b, 0x22, 0x1f, 0x0a, 0x0d, 0x47, 0x6f, 0x76,
    0x65, 0x72, 0x6e, 0x61, 0x6e, 0x63, 0x65, 0x4b, 0x65, 0x79, 0x12, 0x0e, 0x0a, 0x02, 0x67, 0x6b,
    0x18, 0x01, 0x20, 0x01, 0x28, 0x0c, 0x52, 0x02, 0x67, 0x6b, 0x22, 0x24, 0x0a, 0x0c, 0x43, 0x6f,
    0x6e, 0x73, 0x65, 0x6e, 0x73, 0x75, 0x73, 0x4b, 0x65, 0x79, 0x12, 0x14, 0x0a, 0x05, 0x69, 0x6e,
    0x6e, 0x65, 0x72, 0x18, 0x01, 0x20, 0x01, 0x28, 0x0c, 0x52, 0x05, 0x69, 0x6e, 0x6e, 0x65, 0x72,
    0x42, 0x94, 0x02, 0x0a, 0x1f, 0x63, 0x6f, 0x6d, 0x2e, 0x70, 0x65, 0x6e, 0x75, 0x6d, 0x62, 0x72,
    0x61, 0x2e, 0x63, 0x6f, 0x72, 0x65, 0x2e, 0x6b, 0x65, 0x79, 0x73, 0x2e, 0x76, 0x31, 0x61, 0x6c,
    0x70, 0x68, 0x61, 0x31, 0x42, 0x09, 0x4b, 0x65, 0x79, 0x73, 0x50, 0x72, 0x6f, 0x74, 0x6f, 0x50,
    0x01, 0x5a, 0x57, 0x67, 0x69, 0x74, 0x68, 0x75, 0x62, 0x2e, 0x63, 0x6f, 0x6d, 0x2f, 0x70, 0x65,
    0x6e, 0x75, 0x6d, 0x62, 0x72, 0x61, 0x2d, 0x7a, 0x6f, 0x6e, 0x65, 0x2f, 0x70, 0x65, 0x6e, 0x75,
    0x6d, 0x62, 0x72, 0x61, 0x2f, 0x70, 0x72, 0x6f, 0x74, 0x6f, 0x2f, 0x67, 0x6f, 0x2f, 0x67, 0x65,
    0x6e, 0x2f, 0x70, 0x65, 0x6e, 0x75, 0x6d, 0x62, 0x72, 0x61, 0x2f, 0x63, 0x6f, 0x72, 0x65, 0x2f,
    0x6b, 0x65, 0x79, 0x73, 0x2f, 0x76, 0x31, 0x61, 0x6c, 0x70, 0x68, 0x61, 0x31, 0x3b, 0x6b, 0x65,
    0x79, 0x73, 0x76, 0x31, 0x61, 0x6c, 0x70, 0x68, 0x61, 0x31, 0xa2, 0x02, 0x03, 0x50, 0x43, 0x4b,
    0xaa, 0x02, 0x1b, 0x50, 0x65, 0x6e, 0x75, 0x6d, 0x62, 0x72, 0x61, 0x2e, 0x43, 0x6f, 0x72, 0x65,
    0x2e, 0x4b, 0x65, 0x79, 0x73, 0x2e, 0x56, 0x31, 0x61, 0x6c, 0x70, 0x68, 0x61, 0x31, 0xca, 0x02,
    0x1b, 0x50, 0x65, 0x6e, 0x75, 0x6d, 0x62, 0x72, 0x61, 0x5c, 0x43, 0x6f, 0x72, 0x65, 0x5c, 0x4b,
    0x65, 0x79, 0x73, 0x5c, 0x56, 0x31, 0x61, 0x6c, 0x70, 0x68, 0x61, 0x31, 0xe2, 0x02, 0x27, 0x50,
    0x65, 0x6e, 0x75, 0x6d, 0x62, 0x72, 0x61, 0x5c, 0x43, 0x6f, 0x72, 0x65, 0x5c, 0x4b, 0x65, 0x79,
    0x73, 0x5c, 0x56, 0x31, 0x61, 0x6c, 0x70, 0x68, 0x61, 0x31, 0x5c, 0x47, 0x50, 0x42, 0x4d, 0x65,
    0x74, 0x61, 0x64, 0x61, 0x74, 0x61, 0xea, 0x02, 0x1e, 0x50, 0x65, 0x6e, 0x75, 0x6d, 0x62, 0x72,
    0x61, 0x3a, 0x3a, 0x43, 0x6f, 0x72, 0x65, 0x3a, 0x3a, 0x4b, 0x65, 0x79, 0x73, 0x3a, 0x3a, 0x56,
    0x31, 0x61, 0x6c, 0x70, 0x68, 0x61, 0x31, 0x62, 0x06, 0x70, 0x72, 0x6f, 0x74, 0x6f, 0x33 ]

/-- The function file_penumbra_core_keys_v1alpha1_keys_proto_rawDescGZIP: the
descriptor data, compressed on the first call and kept; every call returns the
compressed bytes. -/
def file_penumbra_core_keys_v1alpha1_keys_proto_rawDescGZIP (CompressGZIP : Bytes → Bytes) :
    Bytes :=
  CompressGZIP file_penumbra_core_keys_v1alpha1_keys_proto_rawDesc

/-- The length of file_penumbra_core_keys_v1alpha1_keys_proto_msgTypes, made with
make([]protoimpl.MessageInfo, 13). -/
def file_penumbra_core_keys_v1alpha1_keys_proto_msgTypes_len : Nat := 13

/-- The table file_penumbra_core_keys_v1alpha1_keys_proto_goTypes: the Go type of
each entry, by name. -/
def file_penumbra_core_keys_v1alpha1_keys_proto_goTypes : List String :=
  [ "Address", "AddressView", "PayloadKey", "SpendKey", "FullViewingKey", "WalletId",
    "Diversifier", "AddressIndex", "IdentityKey", "GovernanceKey", "ConsensusKey",
    "AddressView_Decoded", "AddressView_Opaque" ]

/-- The table file_penumbra_core_keys_v1alpha1_keys_proto_depIdxs. -/
def file_penumbra_core_keys_v1alpha1_keys_proto_depIdxs : List Nat :=
  [ 11, 12, 0, 7, 5, 0, 6, 6, 6, 6, 0 ]

/-- The counts handed to protoimpl.DescBuilder in
file_penumbra_core_keys_v1alpha1_keys_proto_init. -/
structure DescBuilderCounts where
  NumEnums : Nat
  NumMessages : Nat
  NumExtensions : Nat
  NumServices : Nat
  deriving DecidableEq, Repr

/-- The counts of the DescBuilder literal of the init function. -/
def descBuilderCounts : DescBuilderCounts :=
  { NumEnums := 0, NumMessages := 13, NumExtensions := 0, NumServices := 0 }

/-- The Go type name of a message type. -/
def MessageType.goName : MessageType → String
  | .Address => "Address"
  | .AddressView => "AddressView"
  | .PayloadKey => "PayloadKey"
  | .SpendKey => "SpendKey"
  | .FullViewingKey => "FullViewingKey"
  | .WalletId => "WalletId"
  | .Diversifier => "Diversifier"
  | .AddressIndex => "AddressIndex"
  | .IdentityKey => "IdentityKey"
  | .GovernanceKey => "GovernanceKey"
  | .ConsensusKey => "ConsensusKey"
  | .AddressView_Decoded => "AddressView_Decoded"
  | .AddressView_Opaque => "AddressView_Opaque"

/-- Address.Reset: the struct is overwritten with its zero value and, when
UnsafeEnabled, the MessageInfo msgTypes[0] is stored in its state. The
assignment through a nil receiver panics. -/
def Address.Reset (UnsafeEnabled : Bool) (x : Option keysv1alpha1.Address) : Except GoPanic keysv1alpha1.Address :=
  match x with
  | none => .error .nilDereference
  | some _ =>
    let zero : keysv1alpha1.Address := {}
    if UnsafeEnabled then .ok { zero with state := some 0 } else .ok zero

/-- Address.ProtoReflect: the receiver after the call and the index in msgTypes of
the MessageInfo of the reflection it returns. With UnsafeEnabled and a non-nil
receiver that is the MessageInfo of the state of the receiver, msgTypes[0]
being stored first when the state holds none; otherwise it is msgTypes[0]. -/
def Address.ProtoReflect (UnsafeEnabled : Bool) (x : Option keysv1alpha1.Address) : Option keysv1alpha1.Address × Nat :=
  let mi := 0
  match UnsafeEnabled, x with
  | true, some x =>
    match x.state with
    | none => (some { x with state := some mi }, mi)
    | some loaded => (some x, loaded)
  | _, _ => (x, mi)

/-- Address.Descriptor: the compressed raw descriptor and the index path of the
message in it. -/
def Address.Descriptor (CompressGZIP : Bytes → Bytes) : Bytes × List Nat :=
  (file_penumbra_core_keys_v1alpha1_keys_proto_rawDescGZIP CompressGZIP, [0])

/-- AddressView.Reset: the struct is overwritten with its zero value and, when
UnsafeEnabled, the MessageInfo msgTypes[1] is stored in its state. The
assignment through a nil receiver panics. -/
def AddressView.Reset (UnsafeEnabled : Bool) (x : Option keysv1alpha1.AddressView) : Except GoPanic keysv1alpha1.AddressView :=
  match x with
  | none => .error .nilDereference
  | some _ =>
    let zero : keysv1alpha1.AddressView := {}
    if UnsafeEnabled then .ok { zero with state := some 1 } else .ok zero

/-- AddressView.ProtoReflect: the receiver after the call and the index in msgTypes of
the MessageInfo of the reflection it returns. With UnsafeEnabled and a non-nil
receiver that is the MessageInfo of the state of the receiver, msgTypes[1]
being stored first when the state holds none; otherwise it is msgTypes[1]. -/
def AddressView.ProtoReflect (UnsafeEnabled : Bool) (x : Option keysv1alpha1.AddressView) : Option keysv1alpha1.AddressView × Nat :=
  let mi := 1
  match UnsafeEnabled, x with
  | true, some x =>
    match x.state with
    | none => (some { x with state := some mi }, mi)
    | some loaded => (some x, loaded)
  | _, _ => (x, mi)

/-- AddressView.Descriptor: the compressed raw descriptor and the index path of the
message in it. -/
def AddressView.Descriptor (CompressGZIP : Bytes → Bytes) : Bytes × List Nat :=
  (file_penumbra_core_keys_v1alpha1_keys_proto_rawDescGZIP CompressGZIP, [1])

/-- PayloadKey.Reset: the struct is overwritten with its zero value and, when
UnsafeEnabled, the MessageInfo msgTypes[2] is stored in its state. The
assignment through a nil receiver panics. -/
def PayloadKey.Reset (UnsafeEnabled : Bool) (x : Option keysv1alpha1.PayloadKey) : Except GoPanic keysv1alpha1.PayloadKey :=
  match x with
  | none => .error .nilDereference
  | some _ =>
    let zero : keysv1alpha1.PayloadKey := {}
    if UnsafeEnabled then .ok { zero with state := some 2 } else .ok zero

/-- PayloadKey.ProtoReflect: the receiver after the call and the index in msgTypes of
the MessageInfo of the reflection it returns. With UnsafeEnabled and a non-nil
receiver that is the MessageInfo of the state of the receiver, msgTypes[2]
being stored first when the state holds none; otherwise it is msgTypes[2]. -/
def PayloadKey.ProtoReflect (UnsafeEnabled : Bool) (x : Option keysv1alpha1.PayloadKey) : Option keysv1alpha1.PayloadKey × Nat :=
  let mi := 2
  match UnsafeEnabled, x with
  | true, some x =>
    match x.state with
    | none => (some { x with state := some mi }, mi)
    | some loaded => (some x, loaded)
  | _, _ => (x, mi)

/-- PayloadKey.Descriptor: the compressed raw descriptor and the index path of the
message in it. -/
def PayloadKey.Descriptor (CompressGZIP : Bytes → Bytes) : Bytes × List Nat :=
  (file_penumbra_core_keys_v1alpha1_keys_proto_rawDescGZIP CompressGZIP, [2])

/-- SpendKey.Reset: the struct is overwritten with its zero value and, when
UnsafeEnabled, the MessageInfo msgTypes[3] is stored in its state. The
assignment through a nil receiver panics. -/
def SpendKey.Reset (UnsafeEnabled : Bool) (x : Option keysv1alpha1.SpendKey) : Except GoPanic keysv1alpha1.SpendKey :=
  match x with
  | none => .error .nilDereference
  | some _ =>
    let zero : keysv1alpha1.SpendKey := {}
    if UnsafeEnabled then .ok { zero with state := some 3 } else .ok zero

/-- SpendKey.ProtoReflect: the receiver after the call and the index in msgTypes of
the MessageInfo of the reflection it returns. With UnsafeEnabled and a non-nil
receiver that is the MessageInfo of the state of the receiver, msgTypes[3]
being stored first when the state holds none; otherwise it is msgTypes[3]. -/
def SpendKey.ProtoReflect (UnsafeEnabled : Bool) (x : Option keysv1alpha1.SpendKey) : Option keysv1alpha1.SpendKey × Nat :=
  let mi := 3
  match UnsafeEnabled, x with
  | true, some x =>
    match x.state with
    | none => (some { x with state := some mi }, mi)
    | some loaded => (some x, loaded)
  | _, _ => (x, mi)

/-- SpendKey.Descriptor: the compressed raw descriptor and the index path of the
message in it. -/
def SpendKey.Descriptor (CompressGZIP : Bytes → Bytes) : Bytes × List Nat :=
  (file_penumbra_core_keys_v1alpha1_keys_proto_rawDescGZIP CompressGZIP, [3])

/-- FullViewingKey.Reset: the struct is overwritten with its zero value and, when
UnsafeEnabled, the MessageInfo msgTypes[4] is stored in its state. The
assignment through a nil receiver panics. -/
def FullViewingKey.Reset (UnsafeEnabled : Bool) (x : Option keysv1alpha1.FullViewingKey) : Except GoPanic keysv1alpha1.FullViewingKey :=
  match x with
  | none => .error .nilDereference
  | some _ =>
    let zero : keysv1alpha1.FullViewingKey := {}
    if UnsafeEnabled then .ok { zero with state := some 4 } else .ok zero

/-- FullViewingKey.ProtoReflect: the receiver after the call and the index in msgTypes of
the MessageInfo of the reflection it returns. With UnsafeEnabled and a non-nil
receiver that is the MessageInfo of the state of the receiver, msgTypes[4]
being stored first when the state holds none; otherwise it is msgTypes[4]. -/
def FullViewingKey.ProtoReflect (UnsafeEnabled : Bool) (x : Option keysv1alpha1.FullViewingKey) : Option keysv1alpha1.FullViewingKey × Nat :=
  let mi := 4
  match UnsafeEnabled, x with
  | true, some x =>
    match x.state with
    | none => (some { x with state := some mi }, mi)
    | some loaded => (some x, loaded)
  | _, _ => (x, mi)

/-- FullViewingKey.Descriptor: the compressed raw descriptor and the index path of the
message in it. -/
def FullViewingKey.Descriptor (CompressGZIP : Bytes → Bytes) : Bytes × List Nat :=
  (file_penumbra_core_keys_v1alpha1_keys_proto_rawDescGZIP CompressGZIP, [4])

/-- WalletId.Reset: the struct is overwritten with its zero value and, when
UnsafeEnabled, the MessageInfo msgTypes[5] is stored in its state. The
assignment through a nil receiver panics. -/
def WalletId.Reset (UnsafeEnabled : Bool) (x : Option keysv1alpha1.WalletId) : Except GoPanic keysv1alpha1.WalletId :=
  match x with
  | none => .error .nilDereference
  | some _ =>
    let zero : keysv1alpha1.WalletId := {}
    if UnsafeEnabled then .ok { zero with state := some 5 } else .ok zero

/-- WalletId.ProtoReflect: the receiver after the call and the index in msgTypes of
the MessageInfo of the reflection it returns. With UnsafeEnabled and a non-nil
receiver that is the MessageInfo of the state of the receiver, msgTypes[5]
being stored first when the state holds none; otherwise it is msgTypes[5]. -/
def WalletId.ProtoReflect (UnsafeEnabled : Bool) (x : Option keysv1alpha1.WalletId) : Option keysv1alpha1.WalletId × Nat :=
  let mi := 5
  match UnsafeEnabled, x with
  | true, some x =>
    match x.state with
    | none => (some { x with state := some mi }, mi)
    | some loaded => (some x, loaded)
  | _, _ => (x, mi)

/-- WalletId.Descriptor: the compressed raw descriptor and the index path of the
message in it. -/
def WalletId.Descriptor (CompressGZIP : Bytes → Bytes) : Bytes × List Nat :=
  (file_penumbra_core_keys_v1alpha1_keys_proto_rawDescGZIP CompressGZIP, [5])

/-- Diversifier.Reset: the struct is overwritten with its zero value and, when
UnsafeEnabled, the MessageInfo msgTypes[6] is stored in its state. The
assignment through a nil receiver panics. -/
def Diversifier.Reset (UnsafeEnabled : Bool) (x : Option keysv1alpha1.Diversifier) : Except GoPanic keysv1alpha1.Diversifier :=
  match x with
  | none => .error .nilDereference
  | some _ =>
    let zero : keysv1alpha1.Diversifier := {}
    if UnsafeEnabled then .ok { zero with state := some 6 } else .ok zero

/-- Diversifier.ProtoReflect: the receiver after the call and the index in msgTypes of
the MessageInfo of the reflection it returns. With UnsafeEnabled and a non-nil
receiver that is the MessageInfo of the state of the receiver, msgTypes[6]
being stored first when the state holds none; otherwise it is msgTypes[6]. -/
def Diversifier.ProtoReflect (UnsafeEnabled : Bool) (x : Option keysv1alpha1.Diversifier) : Option keysv1alpha1.Diversifier × Nat :=
  let mi := 6
  match UnsafeEnabled, x with
  | true, some x =>
    match x.state with
    | none => (some { x with state := some mi }, mi)
    | some loaded => (some x, loaded)
  | _, _ => (x, mi)

/-- Diversifier.Descriptor: the compressed raw descriptor and the index path of the
message in it. -/
def Diversifier.Descriptor (CompressGZIP : Bytes → Bytes) : Bytes × List Nat :=
  (file_penumbra_core_keys_v1alpha1_keys_proto_rawDescGZIP CompressGZIP, [6])

/-- AddressIndex.Reset: the struct is overwritten with its zero value and, when
UnsafeEnabled, the MessageInfo msgTypes[7] is stored in its state. The
assignment through a nil receiver panics. -/
def AddressIndex.Reset (UnsafeEnabled : Bool) (x : Option keysv1alpha1.AddressIndex) : Except GoPanic keysv1alpha1.AddressIndex :=
  match x with
  | none => .error .nilDereference
  | some _ =>
    let zero : keysv1alpha1.AddressIndex := {}
    if UnsafeEnabled then .ok { zero with state := some 7 } else .ok zero

/-- AddressIndex.ProtoReflect: the receiver after the call and the index in msgTypes of
the MessageInfo of the reflection it returns. With UnsafeEnabled and a non-nil
receiver that is the MessageInfo of the state of the receiver, msgTypes[7]
being stored first when the state holds none; otherwise it is msgTypes[7]. -/
def AddressIndex.ProtoReflect (UnsafeEnabled : Bool) (x : Option keysv1alpha1.AddressIndex) : Option keysv1alpha1.AddressIndex × Nat :=
  let mi := 7
  match UnsafeEnabled, x with
  | true, some x =>
    match x.state with
    | none => (some { x with state := some mi }, mi)
    | some loaded => (some x, loaded)
  | _, _ => (x, mi)

/-- AddressIndex.Descriptor: the compressed raw descriptor and the index path of the
message in it. -/
def AddressIndex.Descriptor (CompressGZIP : Bytes → Bytes) : Bytes × List Nat :=
  (file_penumbra_core_keys_v1alpha1_keys_proto_rawDescGZIP CompressGZIP, [7])

/-- IdentityKey.Reset: the struct is overwritten with its zero value and, when
UnsafeEnabled, the MessageInfo msgTypes[8] is stored in its state. The
assignment through a nil receiver panics. -/
def IdentityKey.Reset (UnsafeEnabled : Bool) (x : Option keysv1alpha1.IdentityKey) : Except GoPanic keysv1alpha1.IdentityKey :=
  match x with
  | none => .error .nilDereference
  | some _ =>
    let zero : keysv1alpha1.IdentityKey := {}
    if UnsafeEnabled then .ok { zero with state := some 8 } else .ok zero

/-- IdentityKey.ProtoReflect: the receiver after the call and the index in msgTypes of
the MessageInfo of the reflection it returns. With UnsafeEnabled and a non-nil
receiver that is the MessageInfo of the state of the receiver, msgTypes[8]
being stored first when the state holds none; otherwise it is msgTypes[8]. -/
def IdentityKey.ProtoReflect (UnsafeEnabled : Bool) (x : Option keysv1alpha1.IdentityKey) : Option keysv1alpha1.IdentityKey × Nat :=
  let mi := 8
  match UnsafeEnabled, x with
  | true, some x =>
    match x.state with
    | none => (some { x with state := some mi }, mi)
    | some loaded => (some x, loaded)
  | _, _ => (x, mi)

/-- IdentityKey.Descriptor: the compressed raw descriptor and the index path of the
message in it. -/
def IdentityKey.Descriptor (CompressGZIP : Bytes → Bytes) : Bytes × List Nat :=
  (file_penumbra_core_keys_v1alpha1_keys_proto_rawDescGZIP CompressGZIP, [8])

/-- GovernanceKey.Reset: the struct is overwritten with its zero value and, when
UnsafeEnabled, the MessageInfo msgTypes[9] is stored in its state. The
assignment through a nil receiver panics. -/
def GovernanceKey.Reset (UnsafeEnabled : Bool) (x : Option keysv1alpha1.GovernanceKey) : Except GoPanic keysv1alpha1.GovernanceKey :=
  match x with
  | none => .error .nilDereference
  | some _ =>
    let zero : keysv1alpha1.GovernanceKey := {}
    if UnsafeEnabled then .ok { zero with state := some 9 } else .ok zero

/-- GovernanceKey.ProtoReflect: the receiver after the call and the index in msgTypes of
the MessageInfo of the reflection it returns. With UnsafeEnabled and a non-nil
receiver that is the MessageInfo of the state of the receiver, msgTypes[9]
being stored first when the state holds none; otherwise it is msgTypes[9]. -/
def GovernanceKey.ProtoReflect (UnsafeEnabled : Bool) (x : Option keysv1alpha1.GovernanceKey) : Option keysv1alpha1.GovernanceKey × Nat :=
  let mi := 9
  match UnsafeEnabled, x with
  | true, some x =>
    match x.state with
    | none => (some { x with state := some mi }, mi)
    | some loaded => (some x, loaded)
  | _, _ => (x, mi)

/-- GovernanceKey.Descriptor: the compressed raw descriptor and the index path of the
message in it. -/
def GovernanceKey.Descriptor (CompressGZIP : Bytes → Bytes) : Bytes × List Nat :=
  (file_penumbra_core_keys_v1alpha1_keys_proto_rawDescGZIP CompressGZIP, [9])

/-- ConsensusKey.Reset: the struct is overwritten with its zero value and, when
UnsafeEnabled, the MessageInfo msgTypes[10] is stored in its state. The
assignment through a nil receiver panics. -/
def ConsensusKey.Reset (UnsafeEnabled : Bool) (x : Option keysv1alpha1.ConsensusKey) : Except GoPanic keysv1alpha1.ConsensusKey :=
  match x with
  | none => .error .nilDereference
  | some _ =>
    let zero : keysv1alpha1.ConsensusKey := {}
    if UnsafeEnabled then .ok { zero with state := some 10 } else .ok zero

/-- ConsensusKey.ProtoReflect: the receiver after the call and the index in msgTypes of
the MessageInfo of the reflection it returns. With UnsafeEnabled and a non-nil
receiver that is the MessageInfo of the state of the receiver, msgTypes[10]
being stored first when the state holds none; otherwise it is msgTypes[10]. -/
def ConsensusKey.ProtoReflect (UnsafeEnabled : Bool) (x : Option keysv1alpha1.ConsensusKey) : Option keysv1alpha1.ConsensusKey × Nat :=
  let mi := 10
  match UnsafeEnabled, x with
  | true, some x =>
    match x.state with
    | none => (some { x with state := some mi }, mi)
    | some loaded => (some x, loaded)
  | _, _ => (x, mi)

/-- ConsensusKey.Descriptor: the compressed raw descriptor and the index path of the
message in it. -/
def ConsensusKey.Descriptor (CompressGZIP : Bytes → Bytes) : Bytes × List Nat :=
  (file_penumbra_core_keys_v1alpha1_keys_proto_rawDescGZIP CompressGZIP, [10])

/-- AddressView_Decoded.Reset: the struct is overwritten with its zero value and, when
UnsafeEnabled, the MessageInfo msgTypes[11] is stored in its state. The
assignment through a nil receiver panics. -/
def AddressView_Decoded.Reset (UnsafeEnabled : Bool) (x : Option keysv1alpha1.AddressView_Decoded) : Except GoPanic keysv1alpha1.AddressView_Decoded :=
  match x with
  | none => .error .nilDereference
  | some _ =>
    let zero : keysv1alpha1.AddressView_Decoded := {}
    if UnsafeEnabled then .ok { zero with state := some 11 } else .ok zero

/-- AddressView_Decoded.ProtoReflect: the receiver after the call and the index in msgTypes of
the MessageInfo of the reflection it returns. With UnsafeEnabled and a non-nil
receiver that is the MessageInfo of the state of the receiver, msgTypes[11]
being stored first when the state holds none; otherwise it is msgTypes[11]. -/
def AddressView_Decoded.ProtoReflect (UnsafeEnabled : Bool) (x : Option keysv1alpha1.AddressView_Decoded) : Option keysv1alpha1.AddressView_Decoded × Nat :=
  let mi := 11
  match UnsafeEnabled, x with
  | true, some x =>
    match x.state with
    | none => (some { x with state := some mi }, mi)
    | some loaded => (some x, loaded)
  | _, _ => (x, mi)

/-- AddressView_Decoded.Descriptor: the compressed raw descriptor and the index path of the
message in it. -/
def AddressView_Decoded.Descriptor (CompressGZIP : Bytes → Bytes) : Bytes × List Nat :=
  (file_penumbra_core_keys_v1alpha1_keys_proto_rawDescGZIP CompressGZIP, [1, 0])

/-- AddressView_Opaque.Reset: the struct is overwritten with its zero value and, when
UnsafeEnabled, the MessageInfo msgTypes[12] is stored in its state. The
assignment through a nil receiver panics. -/
def AddressView_Opaque.Reset (UnsafeEnabled : Bool) (x : Option keysv1alpha1.AddressView_Opaque) : Except GoPanic keysv1alpha1.AddressView_Opaque :=
  match x with
  | none => .error .nilDereference
  | some _ =>
    let zero : keysv1alpha1.AddressView_Opaque := {}
    if UnsafeEnabled then .ok { zero with state := some 12 } else .ok zero

/-- AddressView_Opaque.ProtoReflect: the receiver after the call and the index in msgTypes of
the MessageInfo of the reflection it returns. With UnsafeEnabled and a non-nil
receiver that is the MessageInfo of the state of the receiver, msgTypes[12]
being stored first when the state holds none; otherwise it is msgTypes[12]. -/
def AddressView_Opaque.ProtoReflect (UnsafeEnabled : Bool) (x : Option keysv1alpha1.AddressView_Opaque) : Option keysv1alpha1.AddressView_Opaque × Nat :=
  let mi := 12
  match UnsafeEnabled, x with
  | true, some x =>
    match x.state with
    | none => (some { x with state := some mi }, mi)
    | some loaded => (some x, loaded)
  | _, _ => (x, mi)

/-- AddressView_Opaque.Descriptor: the compressed raw descriptor and the index path of the
message in it. -/
def AddressView_Opaque.Descriptor (CompressGZIP : Bytes → Bytes) : Bytes × List Nat :=
  (file_penumbra_core_keys_v1alpha1_keys_proto_rawDescGZIP CompressGZIP, [1, 1])

/-- The state of a message of any type. -/
def Message.state : Message → MessageState
  | .Address m => m.state
  | .AddressView m => m.state
  | .PayloadKey m => m.state
  | .SpendKey m => m.state
  | .FullViewingKey m => m.state
  | .WalletId m => m.state
  | .Diversifier m => m.state
  | .AddressIndex m => m.state
  | .IdentityKey m => m.state
  | .GovernanceKey m => m.state
  | .ConsensusKey m => m.state
  | .AddressView_Decoded m => m.state
  | .AddressView_Opaque m => m.state

/-- Reset on a message of any type, the receiver being non-nil. -/
def Message.Reset (UnsafeEnabled : Bool) : Message → Except GoPanic Message
  | .Address m =>
    match keysv1alpha1.Address.Reset UnsafeEnabled (some m) with
    | .ok y => .ok (.Address y)
    | .error e => .error e
  | .AddressView m =>
    match keysv1alpha1.AddressView.Reset UnsafeEnabled (some m) with
    | .ok y => .ok (.AddressView y)
    | .error e => .error e
  | .PayloadKey m =>
    match keysv1alpha1.PayloadKey.Reset UnsafeEnabled (some m) with
    | .ok y => .ok (.PayloadKey y)
    | .error e => .error e
  | .SpendKey m =>
    match keysv1alpha1.SpendKey.Reset UnsafeEnabled (some m) with
    | .ok y => .ok (.SpendKey y)
    | .error e => .error e
  | .FullViewingKey m =>
    match keysv1alpha1.FullViewingKey.Reset UnsafeEnabled (some m) with
    | .ok y => .ok (.FullViewingKey y)
    | .error e => .error e
  | .WalletId m =>
    match keysv1alpha1.WalletId.Reset UnsafeEnabled (some m) with
    | .ok y => .ok (.WalletId y)
    | .error e => .error e
  | .Diversifier m =>
    match keysv1alpha1.Diversifier.Reset UnsafeEnabled (some m) with
    | .ok y => .ok (.Diversifier y)
    | .error e => .error e
  | .AddressIndex m =>
    match keysv1alpha1.AddressIndex.Reset UnsafeEnabled (some m) with
    | .ok y => .ok (.AddressIndex y)
    | .error e => .error e
  | .IdentityKey m =>
    match keysv1alpha1.IdentityKey.Reset UnsafeEnabled (some m) with
    | .ok y => .ok (.IdentityKey y)
    | .error e => .error e
  | .GovernanceKey m =>
    match keysv1alpha1.GovernanceKey.Reset UnsafeEnabled (some m) with
    | .ok y => .ok (.GovernanceKey y)
    | .error e => .error e
  | .ConsensusKey m =>
    match keysv1alpha1.ConsensusKey.Reset UnsafeEnabled (some m) with
    | .ok y => .ok (.ConsensusKey y)
    | .error e => .error e
  | .AddressView_Decoded m =>
    match keysv1alpha1.AddressView_Decoded.Reset UnsafeEnabled (some m) with
    | .ok y => .ok (.AddressView_Decoded y)
    | .error e => .error e
  | .AddressView_Opaque m =>
    match keysv1alpha1.AddressView_Opaque.Reset UnsafeEnabled (some m) with
    | .ok y => .ok (.AddressView_Opaque y)
    | .error e => .error e

/-- ProtoReflect on a message of any type, the receiver being non-nil: the index
of the MessageInfo of the reflection. -/
def Message.ProtoReflect (UnsafeEnabled : Bool) : Message → Nat
  | .Address m => (keysv1alpha1.Address.ProtoReflect UnsafeEnabled (some m)).2
  | .AddressView m => (keysv1alpha1.AddressView.ProtoReflect UnsafeEnabled (some m)).2
  | .PayloadKey m => (keysv1alpha1.PayloadKey.ProtoReflect UnsafeEnabled (some m)).2
  | .SpendKey m => (keysv1alpha1.SpendKey.ProtoReflect UnsafeEnabled (some m)).2
  | .FullViewingKey m => (keysv1alpha1.FullViewingKey.ProtoReflect UnsafeEnabled (some m)).2
  | .WalletId m => (keysv1alpha1.WalletId.ProtoReflect UnsafeEnabled (some m)).2
  | .Diversifier m => (keysv1alpha1.Diversifier.ProtoReflect UnsafeEnabled (some m)).2
  | .AddressIndex m => (keysv1alpha1.AddressIndex.ProtoReflect UnsafeEnabled (some m)).2
  | .IdentityKey m => (keysv1alpha1.IdentityKey.ProtoReflect UnsafeEnabled (some m)).2
  | .GovernanceKey m => (keysv1alpha1.GovernanceKey.ProtoReflect UnsafeEnabled (some m)).2
  | .ConsensusKey m => (keysv1alpha1.ConsensusKey.ProtoReflect UnsafeEnabled (some m)).2
  | .AddressView_Decoded m => (keysv1alpha1.AddressView_Decoded.ProtoReflect UnsafeEnabled (some m)).2
  | .AddressView_Opaque m => (keysv1alpha1.AddressView_Opaque.ProtoReflect UnsafeEnabled (some m)).2

/-- ProtoReflect on the nil receiver of a message type: the index of the
MessageInfo of the reflection. -/
def MessageType.ProtoReflectNil (UnsafeEnabled : Bool) : MessageType → Nat
  | .Address => (keysv1alpha1.Address.ProtoReflect UnsafeEnabled none).2
  | .AddressView => (keysv1alpha1.AddressView.ProtoReflect UnsafeEnabled none).2
  | .PayloadKey => (keysv1alpha1.PayloadKey.ProtoReflect UnsafeEnabled none).2
  | .SpendKey => (keysv1alpha1.SpendKey.ProtoReflect UnsafeEnabled none).2
  | .FullViewingKey => (keysv1alpha1.FullViewingKey.ProtoReflect UnsafeEnabled none).2
  | .WalletId => (keysv1alpha1.WalletId.ProtoReflect UnsafeEnabled none).2
  | .Diversifier => (keysv1alpha1.Diversifier.ProtoReflect UnsafeEnabled none).2
  | .AddressIndex => (keysv1alpha1.AddressIndex.ProtoReflect UnsafeEnabled none).2
  | .IdentityKey => (keysv1alpha1.IdentityKey.ProtoReflect UnsafeEnabled none).2
  | .GovernanceKey => (keysv1alpha1.GovernanceKey.ProtoReflect UnsafeEnabled none).2
  | .ConsensusKey => (keysv1alpha1.ConsensusKey.ProtoReflect UnsafeEnabled none).2
  | .AddressView_Decoded => (keysv1alpha1.AddressView_Decoded.ProtoReflect UnsafeEnabled none).2
  | .AddressView_Opaque => (keysv1alpha1.AddressView_Opaque.ProtoReflect UnsafeEnabled none).2

/-- The index path Descriptor returns for a message type. -/
def MessageType.descriptorPath (CompressGZIP : Bytes → Bytes) : MessageType → List Nat
  | .Address => (keysv1alpha1.Address.Descriptor CompressGZIP).2
  | .AddressView => (keysv1alpha1.AddressView.Descriptor CompressGZIP).2
  | .PayloadKey => (keysv1alpha1.PayloadKey.Descriptor CompressGZIP).2
  | .SpendKey => (keysv1alpha1.SpendKey.Descriptor CompressGZIP).2
  | .FullViewingKey => (keysv1alpha1.FullViewingKey.Descriptor CompressGZIP).2
  | .WalletId => (keysv1alpha1.WalletId.Descriptor CompressGZIP).2
  | .Diversifier => (keysv1alpha1.Diversifier.Descriptor CompressGZIP).2
  | .AddressIndex => (keysv1alpha1.AddressIndex.Descriptor CompressGZIP).2
  | .IdentityKey => (keysv1alpha1.IdentityKey.Descriptor CompressGZIP).2
  | .GovernanceKey => (keysv1alpha1.GovernanceKey.Descriptor CompressGZIP).2
  | .ConsensusKey => (keysv1alpha1.ConsensusKey.Descriptor CompressGZIP).2
  | .AddressView_Decoded => (keysv1alpha1.AddressView_Decoded.Descriptor CompressGZIP).2
  | .AddressView_Opaque => (keysv1alpha1.AddressView_Opaque.Descriptor CompressGZIP).2

/-! ## Reading the raw descriptor

The raw descriptor is a FileDescriptorProto in the wire format above. The field
numbers used to read it are those of descriptor.proto of protobuf, which is not
part of this repository: in a file 1 is name, 2 package, 4 message_type and 12
syntax; in a message 1 is name, 2 field, 3 nested_type and 8 oneof_decl; in a
field 1 is name, 3 number, 4 label, 5 type, 6 type_name, 9 oneof_index and 10
json_name; in a oneof 1 is name.
-/

/-- Modelled from the spec: read a whole stream as field records, number and
payload, in order (the reader of descriptors is missing from the sources); none
when a record is malformed or truncated. The first argument bounds the number of
records. -/
def readRecords : Nat → Bytes → Option (List (Nat × FieldValue))
  | _, [] => some []
  | 0, _ :: _ => none
  | fuel + 1, b :: bs =>
    match decodeVarint (b :: bs) with
    | .error _ => none
    | .ok (tag, rest) =>
      match WireType.ofCode (tag % 8) with
      | none => none
      | some wt =>
        match readValue wt rest with
        | .error _ => none
        | .ok (v, rest1) =>
          match readRecords fuel rest1 with
          | none => none
          | some rs => some ((tag / 8, v) :: rs)

/-- The length-delimited payloads of the records of a field number, in order. -/
def allBytes (rs : List (Nat × FieldValue)) (num : Nat) : List Bytes :=
  rs.filterMap (fun r =>
    match r.2 with
    | .bytes b => if r.1 = num then some b else none
    | .varint _ => none)

/-- The integers of the records of a field number, in order. -/
def allVarints (rs : List (Nat × FieldValue)) (num : Nat) : List Nat :=
  rs.filterMap (fun r =>
    match r.2 with
    | .varint v => if r.1 = num then some v else none
    | .bytes _ => none)

/-- The list of the values when every element is one, none otherwise. -/
def allSome {α : Type} : List (Option α) → Option (List α)
  | [] => some []
  | none :: _ => none
  | some a :: rest =>
    match allSome rest with
    | none => none
    | some as => some (a :: as)

/-- Modelled from the spec: a FieldDescriptorProto as far as this development
reads it (the descriptor schema is missing from the sources). -/
structure FieldDescriptor where
  name : Bytes
  number : Nat
  label : Nat
  type : Nat
  typeName : Bytes
  oneofIndex : Option Nat
  jsonName : Bytes
  deriving DecidableEq, Repr

/-- Modelled from the spec: read a FieldDescriptorProto (the descriptor schema is
missing from the sources); a singular field takes its last occurrence, and its
default when it does not occur. -/
def parseFieldDescriptor (b : Bytes) : Option FieldDescriptor :=
  match readRecords b.length b with
  | none => none
  | some rs =>
    some
      { name := ((allBytes rs 1).getLast?).getD []
        number := ((allVarints rs 3).getLast?).getD 0
        label := ((allVarints rs 4).getLast?).getD 0
        type := ((allVarints rs 5).getLast?).getD 0
        typeName := ((allBytes rs 6).getLast?).getD []
        oneofIndex := (allVarints rs 9).getLast?
        jsonName := ((allBytes rs 10).getLast?).getD [] }

/-- Modelled from the spec: read the name of a OneofDescriptorProto (the
descriptor schema is missing from the sources). -/
def parseOneofDescriptor (b : Bytes) : Option Bytes :=
  match readRecords b.length b with
  | none => none
  | some rs => some (((allBytes rs 1).getLast?).getD [])

/-- Modelled from the spec: a DescriptorProto as far as this development reads
it, name, fields, nested messages and oneof names (the descriptor schema is
missing from the sources). -/
inductive MessageDescriptor where
  | mk (name : Bytes) (fields : List FieldDescriptor) (nested : List MessageDescriptor)
      (oneofs : List Bytes)

/-- The name of a message declaration. -/
def MessageDescriptor.name : MessageDescriptor → Bytes
  | .mk n _ _ _ => n

/-- The fields of a message declaration. -/
def MessageDescriptor.fields : MessageDescriptor → List FieldDescriptor
  | .mk _ fs _ _ => fs

/-- The nested messages of a message declaration. -/
def MessageDescriptor.nested : MessageDescriptor → List MessageDescriptor
  | .mk _ _ ns _ => ns

/-- The oneof names of a message declaration. -/
def MessageDescriptor.oneofs : MessageDescriptor → List Bytes
  | .mk _ _ _ os => os

/-- Modelled from the spec: read a DescriptorProto (the descriptor schema is
missing from the sources); the first argument bounds the nesting depth. -/
def parseMessageDescriptor : Nat → Bytes → Option MessageDescriptor
  | 0, _ => none
  | depth + 1, b =>
    match readRecords b.length b with
    | none => none
    | some rs =>
      match allSome ((allBytes rs 2).map parseFieldDescriptor),
        allSome ((allBytes rs 3).map (fun n => parseMessageDescriptor depth n)),
        allSome ((allBytes rs 8).map parseOneofDescriptor) with
      | some fs, some ns, some os => some (.mk (((allBytes rs 1).getLast?).getD []) fs ns os)
      | _, _, _ => none

/-- Modelled from the spec: a FileDescriptorProto as far as this development
reads it (the descriptor schema is missing from the sources); records holds the
field number of every top-level record and whether it is length-delimited. -/
structure FileDescriptor where
  records : List (Nat × Bool)
  name : Bytes
  package : Bytes
  syntaxName : Bytes
  messages : List MessageDescriptor

/-- Modelled from the spec: read a FileDescriptorProto (the descriptor schema is
missing from the sources). -/
def parseFileDescriptor (b : Bytes) : Option FileDescriptor :=
  match readRecords b.length b with
  | none => none
  | some rs =>
    match allSome ((allBytes rs 4).map (fun m => parseMessageDescriptor b.length m)) with
    | none => none
    | some ms =>
      some
        { records := rs.map (fun r => (r.1, decide (r.2.wireType = .lengthDelimited)))
          name := ((allBytes rs 1).getLast?).getD []
          package := ((allBytes rs 2).getLast?).getD []
          syntaxName := ((allBytes rs 12).getLast?).getD []
          messages := ms }

/-- The bytes of a string of the source, one per character; all the strings this
is used on are ASCII. -/
def asciiBytes (s : String) : Bytes := s.data.map Char.toNat

/-- What a message declares for a field, in the terms both the descriptor and the
struct tags can be read in: name, number, type, type_name and oneof_index. -/
structure DeclaredField where
  name : Bytes
  number : Nat
  type : Nat
  typeName : Bytes
  oneofIndex : Option Nat
  deriving DecidableEq, Repr

/-- A message declaration: its name qualified by the names of the messages around
it, its fields and the names of its oneofs. -/
structure DeclaredMessage where
  name : Bytes
  fields : List DeclaredField
  oneofs : List Bytes
  deriving DecidableEq, Repr

/-- The part of a field of the descriptor that is compared with the struct tag. -/
def FieldDescriptor.declared (f : FieldDescriptor) : DeclaredField :=
  { name := f.name, number := f.number, type := f.type, typeName := f.typeName,
    oneofIndex := f.oneofIndex }

/-- The message declarations of a list with all those nested in them, each with
its name qualified by the names of the messages around it; the first argument
bounds the nesting depth. -/
def flattenMessages : Nat → Bytes → List MessageDescriptor → List DeclaredMessage
  | 0, _, _ => []
  | depth + 1, scope, ms =>
    ms.flatMap (fun m =>
      { name := scope ++ m.name, fields := m.fields.map FieldDescriptor.declared,
        oneofs := m.oneofs }
        :: flattenMessages depth (scope ++ m.name ++ asciiBytes ".") m.nested)

/-- Every message declaration of the raw descriptor, nested ones included, a
nested message right after the message that holds it; none when the raw
descriptor does not parse. -/
def declaredMessages : Option (List DeclaredMessage) :=
  match parseFileDescriptor file_penumbra_core_keys_v1alpha1_keys_proto_rawDesc with
  | none => none
  | some f => some (flattenMessages 3 [] f.messages)

/-- The Go type name with every underscore turned into a dot: the name of the
message it is generated from, relative to the package. -/
def protoNameOfGoType (goType : String) : String :=
  String.mk (goType.data.map (fun c => if c = '_' then '.' else c))

/-- What the descriptor must hold for a tagged struct field: name, number, type
(12 bytes, 9 string, 13 uint32, 11 message), type_name (the full name of the
message for a struct pointer, empty otherwise) and oneof_index (0 for a oneof
member); none when the tag does not parse or does not fit the Go type. -/
def expectedDescriptorField (f : StructField) : Option DeclaredField :=
  match parseTag f.protobuf with
  | none => none
  | some t =>
    match specTypeOf t.wireKind f.goType, f.goType with
    | some .bytes, _ =>
      some { name := asciiBytes t.name, number := t.number, type := 12, typeName := [],
             oneofIndex := none }
    | some .string, _ =>
      some { name := asciiBytes t.name, number := t.number, type := 9, typeName := [],
             oneofIndex := none }
    | some .uint32, _ =>
      some { name := asciiBytes t.name, number := t.number, type := 13, typeName := [],
             oneofIndex := none }
    | some .message, .pointer s =>
      some { name := asciiBytes t.name, number := t.number, type := 11,
             typeName := asciiBytes (".penumbra.core.keys.v1alpha1." ++ protoNameOfGoType s),
             oneofIndex := if t.oneof then some 0 else none }
    | _, _ => none

/-- The message declarations the Go structs stand for: for every message its
name, the fields its struct tags declare and the oneofs its struct declares;
none when a tag does not parse or does not fit the Go type of its field. -/
def taggedMessages : Option (List DeclaredMessage) :=
  allSome (messageStructs.map (fun m =>
    match allSome ((messageFields m.1).map expectedDescriptorField) with
    | none => none
    | some fs =>
      some { name := asciiBytes m.1, fields := fs,
             oneofs := (structOneofs.filter (fun o => o.1 = m.1)).map
               (fun o => asciiBytes o.2.2) }))

/-- The message-valued tagged fields of the structs, in the order of the
messages, each as the name of the Go struct it points to. -/
def messageFieldTargets : List String :=
  messageStructs.flatMap (fun m =>
    (messageFields m.1).filterMap (fun f =>
      match f.goType with
      | .pointer s => some s
      | _ => none))

/-- The start offsets of the five sub-lists of depIdxs, which its last five
entries hold in reverse order; in order they are the sub-lists for field
type_name, extension extendee, extension type_name, method input_type and method
output_type. -/
def depIdxsStarts : List Nat :=
  (file_penumbra_core_keys_v1alpha1_keys_proto_depIdxs.drop
    (file_penumbra_core_keys_v1alpha1_keys_proto_depIdxs.length - 5)).reverse

/-- The sub-list of depIdxs of a given rank, 0 to 4: from its start offset to the
start offset of the next one, the last one ending where the offsets begin. -/
def depIdxsSubList (i : Nat) : List Nat :=
  let starts := depIdxsStarts ++ [file_penumbra_core_keys_v1alpha1_keys_proto_depIdxs.length - 5]
  match starts[i]?, starts[i + 1]? with
  | some a, some b => (file_penumbra_core_keys_v1alpha1_keys_proto_depIdxs.take b).drop a
  | _, _ => []

/-! ## Sample inputs -/

/-- The message used to instantiate the round trip: an AddressView whose oneof
holds a Decoded with all three nested messages. -/
def sampleView : Message :=
  .AddressView { AddressView := some (.Decoded_ (some ⟨some
    { Address := some { Inner := [1, 2, 3] },
      Index := some { Account := 300, Randomizer := [9] },
      WalletId := some { Inner := [4, 5] } }⟩)) }

/-- The encoding of an AddressView.Decoded used to instantiate C8: address with
inner = [7]. -/
def sampleDecodedBytes : Bytes := [0x0a, 0x03, 0x0a, 0x01, 0x07]

/-- The encoding of an AddressView.Opaque used to instantiate C8: address with
inner = [9]. -/
def sampleOpaqueBytes : Bytes := [0x0a, 0x03, 0x0a, 0x01, 0x09]

/-! # Theorems -/

/-! ## Variable-length integers -/

theorem encodeVarintAux_length_le (k v : Nat) : (encodeVarintAux k v).length ≤ k := by
  induction k generalizing v with
  | zero => simp [encodeVarintAux]
  | succ k ih =>
    unfold encodeVarintAux
    split
    · simp
    · have := ih (v / 128)
      simp only [List.length_cons]
      omega

theorem encodeVarint_length_le (v : Nat) : (encodeVarint v).length ≤ 10 :=
  encodeVarintAux_length_le 10 v

theorem decodeVarintAux_encodeVarintAux (k v : Nat) (tl : Bytes) (h : v < 128 ^ (k + 1)) :
    decodeVarintAux (k + 1) (encodeVarintAux (k + 1) v ++ tl) = .ok (v, tl) := by
  induction k generalizing v with
  | zero =>
    have hv : v < 128 := by simpa using h
    simp [encodeVarintAux, decodeVarintAux, hv]
  | succ k ih =>
    unfold encodeVarintAux
    by_cases hv : v < 128
    · simp [decodeVarintAux, hv]
    · have hdiv : v / 128 < 128 ^ (k + 1) := by
        rw [Nat.div_lt_iff_lt_mul (by norm_num)]
        calc v < 128 ^ (k + 1 + 1) := h
          _ = 128 ^ (k + 1) * 128 := by ring
      have hb : ¬ (v % 128 + 128 < 128) := by omega
      simp only [hv, if_false, List.cons_append]
      unfold decodeVarintAux
      simp only [hb, if_false]
      rw [ih (v / 128) hdiv]
      have : v % 128 + 128 * (v / 128) = v := by omega
      simp [this]

/-- The largest value of a variable-length integer of ten bytes. -/
theorem decodeVarint_encodeVarint (v : Nat) (tl : Bytes) (h : v < 2 ^ 70) :
    decodeVarint (encodeVarint v ++ tl) = .ok (v, tl) := by
  have h2 : v < 128 ^ (9 + 1) := by
    have : (128 : Nat) ^ (9 + 1) = 2 ^ 70 := by norm_num
    omega
  exact decodeVarintAux_encodeVarintAux 9 v tl h2

theorem decodeVarintAux_append (k : Nat) (bs tl : Bytes) (v : Nat) (rest : Bytes)
    (h : decodeVarintAux k bs = .ok (v, rest)) :
    decodeVarintAux k (bs ++ tl) = .ok (v, rest ++ tl) ∧ rest.length < bs.length := by
  induction k generalizing bs v rest with
  | zero => simp [decodeVarintAux] at h
  | succ k ih =>
    cases bs with
    | nil => simp [decodeVarintAux] at h
    | cons b bs =>
      simp only [decodeVarintAux] at h
      simp only [List.cons_append, decodeVarintAux]
      by_cases hb : b < 128
      · simp only [hb, if_true, Except.ok.injEq, Prod.mk.injEq] at h
        obtain ⟨h1, h2⟩ := h
        subst h1 h2
        simp [hb]
      · simp only [hb, if_false] at h ⊢
        cases hr : decodeVarintAux k bs with
        | error e => simp [hr] at h
        | ok p =>
          obtain ⟨v1, r1⟩ := p
          simp only [hr, Except.ok.injEq, Prod.mk.injEq] at h
          obtain ⟨h1, h2⟩ := h
          obtain ⟨ih1, ih2⟩ := ih bs v1 r1 hr
          subst h1 h2
          refine ⟨by simp [ih1], ?_⟩
          simp only [List.length_cons]
          omega

theorem decodeVarint_append (bs tl : Bytes) (v : Nat) (rest : Bytes)
    (h : decodeVarint bs = .ok (v, rest)) :
    decodeVarint (bs ++ tl) = .ok (v, rest ++ tl) ∧ rest.length < bs.length :=
  decodeVarintAux_append maxVarintLen bs tl v rest h

/-! ## Field records -/

theorem readValue_append (wt : WireType) (bs tl : Bytes) (v : FieldValue) (rest : Bytes)
    (h : readValue wt bs = .ok (v, rest)) :
    readValue wt (bs ++ tl) = .ok (v, rest ++ tl) ∧ rest.length < bs.length := by
  cases wt with
  | varint =>
    simp only [readValue] at h ⊢
    cases hd : decodeVarint bs with
    | error e => simp [hd] at h
    | ok p =>
      obtain ⟨n, r⟩ := p
      obtain ⟨h1, h2⟩ := decodeVarint_append bs tl n r hd
      simp only [hd, Except.ok.injEq, Prod.mk.injEq] at h
      obtain ⟨hv, hr⟩ := h
      subst hv hr
      exact ⟨by simp [h1], h2⟩
  | lengthDelimited =>
    simp only [readValue] at h ⊢
    cases hd : decodeVarint bs with
    | error e => simp [hd] at h
    | ok p =>
      obtain ⟨n, r⟩ := p
      obtain ⟨h1, h2⟩ := decodeVarint_append bs tl n r hd
      simp only [hd] at h
      by_cases hn : n ≤ r.length
      · simp only [hn, if_true, Except.ok.injEq, Prod.mk.injEq] at h
        obtain ⟨hv, hr⟩ := h
        subst hv hr
        have hn2 : n ≤ (r ++ tl).length := by simp only [List.length_append]; omega
        refine ⟨?_, ?_⟩
        · simp only [h1, hn2, if_true]
          rw [List.take_append_of_le_length hn, List.drop_append_of_le_length hn]
        · simp only [List.length_drop]
          omega
      · simp [hn] at h

theorem decodeField_append {T : Type} (C : Codec T) (acc : T) (bs tl : Bytes) (a : T)
    (rest : Bytes) (h : decodeField C acc bs = .ok (a, rest)) :
    decodeField C acc (bs ++ tl) = .ok (a, rest ++ tl) ∧ rest.length < bs.length := by
  unfold decodeField at h ⊢
  cases hd : decodeVarint bs with
  | error e => simp [hd] at h
  | ok p =>
    obtain ⟨tag, r⟩ := p
    obtain ⟨h1, h2⟩ := decodeVarint_append bs tl tag r hd
    simp only [hd] at h
    simp only [h1]
    cases hw : WireType.ofCode (tag % 8) with
    | none => simp [hw] at h
    | some wt =>
      simp only [hw] at h ⊢
      cases hk : C.kind (tag / 8) with
      | none =>
        simp only [hk] at h ⊢
        cases hv : readValue wt r with
        | error e => simp [hv] at h
        | ok q =>
          obtain ⟨v, r1⟩ := q
          obtain ⟨h3, h4⟩ := readValue_append wt r tl v r1 hv
          simp only [hv, Except.ok.injEq, Prod.mk.injEq] at h
          obtain ⟨ha, hr⟩ := h
          subst ha hr
          exact ⟨by simp [h3], by omega⟩
      | some k =>
        simp only [hk] at h ⊢
        by_cases hkw : k = wt
        · simp only [hkw, if_true] at h ⊢
          cases hv : readValue wt r with
          | error e => simp [hv] at h
          | ok q =>
            obtain ⟨v, r1⟩ := q
            obtain ⟨h3, h4⟩ := readValue_append wt r tl v r1 hv
            simp only [hv] at h
            simp only [h3]
            cases hs : C.assign acc (tag / 8) v with
            | error e => simp [hs] at h
            | ok a1 =>
              simp only [hs, Except.ok.injEq, Prod.mk.injEq] at h
              obtain ⟨ha, hr⟩ := h
              subst ha hr
              exact ⟨rfl, by omega⟩
        · simp [hkw] at h

/-! ## The decoding loop -/

theorem decodeLoop_fuel {T : Type} (C : Codec T) (f1 f2 : Nat) (acc : T) (bs : Bytes)
    (h1 : bs.length ≤ f1) (h2 : bs.length ≤ f2) :
    decodeLoop C f1 acc bs = decodeLoop C f2 acc bs := by
  induction f1 generalizing f2 acc bs with
  | zero =>
    cases bs with
    | nil => cases f2 <;> simp [decodeLoop]
    | cons b bs => simp at h1
  | succ f1 ih =>
    cases bs with
    | nil => cases f2 <;> simp [decodeLoop]
    | cons b bs =>
      cases f2 with
      | zero => simp at h2
      | succ f2 =>
        simp only [decodeLoop]
        cases hd : decodeField C acc (b :: bs) with
        | error e => rfl
        | ok p =>
          obtain ⟨a, rest⟩ := p
          have hlt := (decodeField_append C acc (b :: bs) [] a rest hd).2
          simp only [List.length_cons] at hlt h1 h2
          exact ih f2 a rest (by omega) (by omega)

theorem resume_nil {T : Type} (C : Codec T) (acc : T) : C.resume acc [] = .ok acc := by
  simp [Codec.resume, decodeLoop]

theorem resume_step {T : Type} (C : Codec T) (acc : T) (bs : Bytes) (a : T) (rest : Bytes)
    (h : decodeField C acc bs = .ok (a, rest)) : C.resume acc bs = C.resume a rest := by
  have hlt := (decodeField_append C acc bs [] a rest h).2
  cases bs with
  | nil => simp at hlt
  | cons b bs =>
    simp only [Codec.resume, List.length_cons, decodeLoop, h]
    simp only [List.length_cons] at hlt
    exact decodeLoop_fuel C _ _ a rest (by omega) (le_refl _)

theorem resume_step_error {T : Type} (C : Codec T) (acc : T) (bs : Bytes) (e : DecodeError)
    (h : decodeField C acc bs = .error e) (hne : bs ≠ []) : C.resume acc bs = .error e := by
  cases bs with
  | nil => exact absurd rfl hne
  | cons b bs => simp only [Codec.resume, List.length_cons, decodeLoop, h]

theorem resume_append {T : Type} (C : Codec T) (acc : T) (pre tl : Bytes) (a : T)
    (h : C.resume acc pre = .ok a) : C.resume acc (pre ++ tl) = C.resume a tl := by
  generalize hn : pre.length = n
  induction n using Nat.strong_induction_on generalizing acc pre with
  | _ n ih =>
    cases pre with
    | nil =>
      rw [resume_nil] at h
      cases h
      rfl
    | cons b bs =>
      cases hd : decodeField C acc (b :: bs) with
      | error e =>
        rw [resume_step_error C acc (b :: bs) e hd (by simp)] at h
        cases h
      | ok p =>
        obtain ⟨a1, rest⟩ := p
        rw [resume_step C acc (b :: bs) a1 rest hd] at h
        obtain ⟨h1, h2⟩ := decodeField_append C acc (b :: bs) tl a1 rest hd
        rw [resume_step C acc (b :: bs ++ tl) a1 (rest ++ tl) h1]
        exact ih rest.length (by omega) a1 rest h rfl

theorem varintLimit_eq : varintLimit = 2 ^ 70 := by
  simp only [varintLimit, maxVarintLen]
  norm_num

theorem encodeVarint_ne_nil (v : Nat) : encodeVarint v ≠ [] := by
  simp only [encodeVarint, maxVarintLen, encodeVarintAux]
  split <;> simp

theorem wireType_ofCode_code (wt : WireType) : WireType.ofCode wt.code = some wt := by
  cases wt <;> rfl

theorem decodeVarint_encodeTag (num : Nat) (wt : WireType) (tl : Bytes)
    (h : EncodableFieldNumber num) :
    decodeVarint (encodeTag num wt ++ tl) = .ok (num * 8 + wt.code, tl) := by
  apply decodeVarint_encodeVarint
  have := varintLimit_eq
  unfold EncodableFieldNumber at h
  have hc : wt.code ≤ 2 := by cases wt <;> simp [WireType.code]
  omega

theorem tag_split (num : Nat) (wt : WireType) :
    WireType.ofCode ((num * 8 + wt.code) % 8) = some wt ∧ (num * 8 + wt.code) / 8 = num := by
  have hc : wt.code ≤ 2 := by cases wt <;> simp [WireType.code]
  have h1 : (num * 8 + wt.code) % 8 = wt.code := by omega
  have h2 : (num * 8 + wt.code) / 8 = num := by omega
  rw [h1, h2]
  exact ⟨wireType_ofCode_code wt, rfl⟩

theorem readValue_encodeValue (v : FieldValue) (tl : Bytes) (h : v.Encodable) :
    readValue v.wireType (encodeValue v ++ tl) = .ok (v, tl) := by
  have hl := varintLimit_eq
  cases v with
  | varint n =>
    simp only [FieldValue.Encodable] at h
    simp only [FieldValue.wireType, encodeValue, readValue]
    rw [decodeVarint_encodeVarint n tl (by omega)]
  | bytes b =>
    simp only [FieldValue.Encodable] at h
    simp only [FieldValue.wireType, encodeValue, readValue, List.append_assoc]
    rw [decodeVarint_encodeVarint b.length (b ++ tl) (by omega)]
    simp

theorem decodeField_encodeRecord {T : Type} (C : Codec T) (acc : T) (num : Nat)
    (v : FieldValue) (tl : Bytes) (hn : EncodableFieldNumber num) (hv : v.Encodable) :
    decodeField C acc (encodeRecord num v ++ tl) =
      match C.kind num with
      | none => .ok (acc, tl)
      | some k =>
        if k = v.wireType then
          match C.assign acc num v with
          | .error e => .error e
          | .ok a => .ok (a, tl)
        else .error .wireTypeMismatch := by
  unfold decodeField
  simp only [encodeRecord, List.append_assoc]
  rw [decodeVarint_encodeTag num v.wireType _ hn]
  obtain ⟨h1, h2⟩ := tag_split num v.wireType
  simp only [h1, h2, readValue_encodeValue v tl hv]

theorem encodeRecord_ne_nil (num : Nat) (v : FieldValue) : encodeRecord num v ≠ [] := by
  simp only [encodeRecord, encodeTag, ne_eq, List.append_eq_nil, not_and]
  intro h
  exact absurd h (encodeVarint_ne_nil _)

theorem resume_record_unknown {T : Type} (C : Codec T) (acc : T) (num : Nat) (v : FieldValue)
    (tl : Bytes) (hn : EncodableFieldNumber num) (hv : v.Encodable) (hk : C.kind num = none) :
    C.resume acc (encodeRecord num v ++ tl) = C.resume acc tl := by
  apply resume_step
  rw [decodeField_encodeRecord C acc num v tl hn hv, hk]

theorem resume_record_assign {T : Type} (C : Codec T) (acc : T) (num : Nat) (v : FieldValue)
    (tl : Bytes) (a : T) (hn : EncodableFieldNumber num) (hv : v.Encodable)
    (hk : C.kind num = some v.wireType) (ha : C.assign acc num v = .ok a) :
    C.resume acc (encodeRecord num v ++ tl) = C.resume a tl := by
  apply resume_step
  rw [decodeField_encodeRecord C acc num v tl hn hv, hk]
  simp [ha]

theorem decodeVarint_append_error_free (n : Nat) (tl : Bytes) (h : n < varintLimit) :
    decodeVarint (encodeVarint n ++ tl) = .ok (n, tl) :=
  decodeVarint_encodeVarint n tl (by have := varintLimit_eq; omega)

theorem readValue_truncated (n : Nat) (tail : Bytes) (hn : n < varintLimit)
    (ht : tail.length < n) :
    readValue .lengthDelimited (encodeVarint n ++ tail) = .error .truncatedInput := by
  simp only [readValue, decodeVarint_append_error_free n tail hn]
  have : ¬ n ≤ tail.length := by omega
  simp [this]

theorem decodeField_truncated {T : Type} (C : Codec T) (acc : T) (num n : Nat) (tail : Bytes)
    (hnum : EncodableFieldNumber num) (hk : C.kind num ≠ some .varint) (hn : n < varintLimit)
    (ht : tail.length < n) :
    decodeField C acc (encodeTag num .lengthDelimited ++ encodeVarint n ++ tail)
      = .error .truncatedInput := by
  unfold decodeField
  simp only [List.append_assoc]
  rw [decodeVarint_encodeTag num .lengthDelimited _ hnum]
  obtain ⟨h1, h2⟩ := tag_split num .lengthDelimited
  simp only [h1, h2, readValue_truncated n tail hn ht]
  cases hk2 : C.kind num with
  | none => rfl
  | some k =>
    cases k with
    | varint => exact absurd hk2 hk
    | lengthDelimited => simp

theorem resume_truncated {T : Type} (C : Codec T) (acc : T) (num n : Nat) (tail : Bytes)
    (hnum : EncodableFieldNumber num) (hk : C.kind num ≠ some .varint) (hn : n < varintLimit)
    (ht : tail.length < n) :
    C.resume acc (encodeTag num .lengthDelimited ++ encodeVarint n ++ tail)
      = .error .truncatedInput := by
  apply resume_step_error _ _ _ _ (decodeField_truncated C acc num n tail hnum hk hn ht)
  simp only [encodeTag, ne_eq, List.append_eq_nil, not_and]
  intro h
  exact absurd h.1 (encodeVarint_ne_nil _)

theorem encodeRecord_length_le (num : Nat) (v : FieldValue) :
    (encodeRecord num v).length ≤
      match v with
      | .varint _ => 20
      | .bytes b => 20 + b.length := by
  have h1 := encodeVarint_length_le (num * 8 + v.wireType.code)
  cases v with
  | varint n =>
    have h2 := encodeVarint_length_le n
    simp only [encodeRecord, encodeTag, encodeValue, List.length_append]
    omega
  | bytes b =>
    have h2 := encodeVarint_length_le b.length
    simp only [encodeRecord, encodeTag, encodeValue, List.length_append]
    omega

/-! ## Fields of a message -/

theorem encodableFieldNumber_small (num : Nat) (h : num < 4) : EncodableFieldNumber num := by
  have := varintLimit_eq
  unfold EncodableFieldNumber
  omega

theorem resume_encodeBytesField {T : Type} (C : Codec T) (num : Nat) (set : T → Bytes → T)
    (acc : T) (b tl : Bytes) (hnum : EncodableFieldNumber num)
    (hk : C.kind num = some .lengthDelimited)
    (ha : ∀ a x, C.assign a num (.bytes x) = .ok (set a x)) (hb : b.length < varintLimit) :
    C.resume acc (encodeBytesField num b ++ tl)
      = C.resume (if b = [] then acc else set acc b) tl := by
  unfold encodeBytesField
  by_cases h : b = []
  · simp [h]
  · simp only [h, if_false]
    exact resume_record_assign C acc num (.bytes b) tl (set acc b) hnum hb hk (ha acc b)

theorem resume_encodeVarintField {T : Type} (C : Codec T) (num : Nat) (set : T → Nat → T)
    (acc : T) (v : Nat) (tl : Bytes) (hnum : EncodableFieldNumber num)
    (hk : C.kind num = some .varint)
    (ha : ∀ a x, C.assign a num (.varint x) = .ok (set a x)) (hv : v < varintLimit) :
    C.resume acc (encodeVarintField num v ++ tl)
      = C.resume (if v = 0 then acc else set acc v) tl := by
  unfold encodeVarintField
  by_cases h : v = 0
  · simp [h]
  · simp only [h, if_false]
    exact resume_record_assign C acc num (.varint v) tl (set acc v) hnum hv hk (ha acc v)

theorem resume_encodeMessageField {T M : Type} (C : Codec T) (num : Nat) (set : T → M → T)
    (enc : M → Bytes) (dec : Bytes → Except DecodeError M) (acc : T) (o : Option M) (tl : Bytes)
    (hnum : EncodableFieldNumber num) (hk : C.kind num = some .lengthDelimited)
    (ha : ∀ a p, C.assign a num (.bytes p) =
      match dec p with
      | .ok y => .ok (set a y)
      | .error e => .error e)
    (hrt : ∀ x, o = some x → dec (enc x) = .ok x ∧ (enc x).length < varintLimit) :
    C.resume acc (encodeMessageField num (o.map enc) ++ tl)
      = C.resume (match o with
          | none => acc
          | some x => set acc x) tl := by
  cases o with
  | none => simp [encodeMessageField]
  | some x =>
    obtain ⟨h1, h2⟩ := hrt x rfl
    simp only [Option.map_some', encodeMessageField]
    apply resume_record_assign C acc num (.bytes (enc x)) tl (set acc x) hnum h2 hk
    rw [ha, h1]

theorem encodeBytesField_length_le (num : Nat) (b : Bytes) :
    (encodeBytesField num b).length ≤ 20 + b.length := by
  unfold encodeBytesField
  split
  · simp
  · exact encodeRecord_length_le num (.bytes b)

theorem encodeVarintField_length_le (num v : Nat) : (encodeVarintField num v).length ≤ 20 := by
  unfold encodeVarintField
  split
  · simp
  · exact encodeRecord_length_le num (.varint v)

theorem encodeMessageField_length_le {M : Type} (num : Nat) (enc : M → Bytes) (o : Option M)
    (bound : Nat) (h : ∀ x, o = some x → (enc x).length ≤ bound) :
    (encodeMessageField num (o.map enc)).length ≤ 20 + bound := by
  cases o with
  | none => simp [encodeMessageField]
  | some x =>
    have h1 := h x rfl
    have h2 := encodeRecord_length_le num (.bytes (enc x))
    simp only [Option.map_some', encodeMessageField]
    simp only at h2
    omega

/-! ## Round trip, message by message -/

theorem maxLen_eq : maxLen = 2 ^ 63 := rfl

theorem Address_decode_encode (m : Address) (h : m.WellFormed) :
    Address.decode m.encode = .ok m := by
  obtain ⟨s, c, u, i, a⟩ := m
  simp only [Address.WellFormed] at h
  obtain ⟨rfl, rfl, rfl, hi, ha⟩ := h
  have hl := varintLimit_eq
  have hm := maxLen_eq
  simp only [Address.decode, Codec.decode, Address.encode]
  rw [resume_encodeBytesField Address.codec 1 (fun a x => { a with Inner := x }) _ i _
    (encodableFieldNumber_small 1 (by omega)) rfl (fun _ _ => rfl) (by omega)]
  rw [← List.append_nil (encodeBytesField 2 a)]
  rw [resume_encodeBytesField Address.codec 2 (fun a x => { a with AltBech32M := x }) _ a _
    (encodableFieldNumber_small 2 (by omega)) rfl (fun _ _ => rfl) (by omega)]
  rw [resume_nil]
  by_cases h1 : i = [] <;> by_cases h2 : a = [] <;> simp [h1, h2, Address.codec]

theorem Address_encode_length_le (m : Address) (h : m.WellFormed) :
    m.encode.length ≤ 40 + 2 * maxLen := by
  simp only [Address.WellFormed] at h
  obtain ⟨_, _, _, hi, ha⟩ := h
  have h1 := encodeBytesField_length_le 1 m.Inner
  have h2 := encodeBytesField_length_le 2 m.AltBech32M
  simp only [Address.encode, List.length_append]
  omega

theorem PayloadKey_decode_encode (m : PayloadKey) (h : m.WellFormed) :
    PayloadKey.decode m.encode = .ok m := by
  obtain ⟨s, c, u, i⟩ := m
  simp only [PayloadKey.WellFormed] at h
  obtain ⟨rfl, rfl, rfl, hi⟩ := h
  have hl := varintLimit_eq
  have hm := maxLen_eq
  simp only [PayloadKey.decode, Codec.decode, PayloadKey.encode]
  rw [← List.append_nil (encodeBytesField 1 i)]
  rw [resume_encodeBytesField PayloadKey.codec 1 (fun a x => { a with Inner := x }) _ i _
    (encodableFieldNumber_small 1 (by omega)) rfl (fun _ _ => rfl) (by omega), resume_nil]
  by_cases h1 : i = [] <;> simp [h1, PayloadKey.codec]

theorem SpendKey_decode_encode (m : SpendKey) (h : m.WellFormed) :
    SpendKey.decode m.encode = .ok m := by
  obtain ⟨s, c, u, i⟩ := m
  simp only [SpendKey.WellFormed] at h
  obtain ⟨rfl, rfl, rfl, hi⟩ := h
  have hl := varintLimit_eq
  have hm := maxLen_eq
  simp only [SpendKey.decode, Codec.decode, SpendKey.encode]
  rw [← List.append_nil (encodeBytesField 1 i)]
  rw [resume_encodeBytesField SpendKey.codec 1 (fun a x => { a with Inner := x }) _ i _
    (encodableFieldNumber_small 1 (by omega)) rfl (fun _ _ => rfl) (by omega), resume_nil]
  by_cases h1 : i = [] <;> simp [h1, SpendKey.codec]

theorem FullViewingKey_decode_encode (m : FullViewingKey) (h : m.WellFormed) :
    FullViewingKey.decode m.encode = .ok m := by
  obtain ⟨s, c, u, i⟩ := m
  simp only [FullViewingKey.WellFormed] at h
  obtain ⟨rfl, rfl, rfl, hi⟩ := h
  have hl := varintLimit_eq
  have hm := maxLen_eq
  simp only [FullViewingKey.decode, Codec.decode, FullViewingKey.encode]
  rw [← List.append_nil (encodeBytesField 1 i)]
  rw [resume_encodeBytesField FullViewingKey.codec 1 (fun a x => { a with Inner := x }) _ i _
    (encodableFieldNumber_small 1 (by omega)) rfl (fun _ _ => rfl) (by omega), resume_nil]
  by_cases h1 : i = [] <;> simp [h1, FullViewingKey.codec]

theorem WalletId_decode_encode (m : WalletId) (h : m.WellFormed) :
    WalletId.decode m.encode = .ok m := by
  obtain ⟨s, c, u, i⟩ := m
  simp only [WalletId.WellFormed] at h
  obtain ⟨rfl, rfl, rfl, hi⟩ := h
  have hl := varintLimit_eq
  have hm := maxLen_eq
  simp only [WalletId.decode, Codec.decode, WalletId.encode]
  rw [← List.append_nil (encodeBytesField 1 i)]
  rw [resume_encodeBytesField WalletId.codec 1 (fun a x => { a with Inner := x }) _ i _
    (encodableFieldNumber_small 1 (by omega)) rfl (fun _ _ => rfl) (by omega), resume_nil]
  by_cases h1 : i = [] <;> simp [h1, WalletId.codec]

theorem Diversifier_decode_encode (m : Diversifier) (h : m.WellFormed) :
    Diversifier.decode m.encode = .ok m := by
  obtain ⟨s, c, u, i⟩ := m
  simp only [Diversifier.WellFormed] at h
  obtain ⟨rfl, rfl, rfl, hi⟩ := h
  have hl := varintLimit_eq
  have hm := maxLen_eq
  simp only [Diversifier.decode, Codec.decode, Diversifier.encode]
  rw [← List.append_nil (encodeBytesField 1 i)]
  rw [resume_encodeBytesField Diversifier.codec 1 (fun a x => { a with Inner := x }) _ i _
    (encodableFieldNumber_small 1 (by omega)) rfl (fun _ _ => rfl) (by omega), resume_nil]
  by_cases h1 : i = [] <;> simp [h1, Diversifier.codec]

theorem IdentityKey_decode_encode (m : IdentityKey) (h : m.WellFormed) :
    IdentityKey.decode m.encode = .ok m := by
  obtain ⟨s, c, u, i⟩ := m
  simp only [IdentityKey.WellFormed] at h
  obtain ⟨rfl, rfl, rfl, hi⟩ := h
  have hl := varintLimit_eq
  have hm := maxLen_eq
  simp only [IdentityKey.decode, Codec.decode, IdentityKey.encode]
  rw [← List.append_nil (encodeBytesField 1 i)]
  rw [resume_encodeBytesField IdentityKey.codec 1 (fun a x => { a with Ik := x }) _ i _
    (encodableFieldNumber_small 1 (by omega)) rfl (fun _ _ => rfl) (by omega), resume_nil]
  by_cases h1 : i = [] <;> simp [h1, IdentityKey.codec]

theorem GovernanceKey_decode_encode (m : GovernanceKey) (h : m.WellFormed) :
    GovernanceKey.decode m.encode = .ok m := by
  obtain ⟨s, c, u, i⟩ := m
  simp only [GovernanceKey.WellFormed] at h
  obtain ⟨rfl, rfl, rfl, hi⟩ := h
  have hl := varintLimit_eq
  have hm := maxLen_eq
  simp only [GovernanceKey.decode, Codec.decode, GovernanceKey.encode]
  rw [← List.append_nil (encodeBytesField 1 i)]
  rw [resume_encodeBytesField GovernanceKey.codec 1 (fun a x => { a with Gk := x }) _ i _
    (encodableFieldNumber_small 1 (by omega)) rfl (fun _ _ => rfl) (by omega), resume_nil]
  by_cases h1 : i = [] <;> simp [h1, GovernanceKey.codec]

theorem ConsensusKey_decode_encode (m : ConsensusKey) (h : m.WellFormed) :
    ConsensusKey.decode m.encode = .ok m := by
  obtain ⟨s, c, u, i⟩ := m
  simp only [ConsensusKey.WellFormed] at h
  obtain ⟨rfl, rfl, rfl, hi⟩ := h
  have hl := varintLimit_eq
  have hm := maxLen_eq
  simp only [ConsensusKey.decode, Codec.decode, ConsensusKey.encode]
  rw [← List.append_nil (encodeBytesField 1 i)]
  rw [resume_encodeBytesField ConsensusKey.codec 1 (fun a x => { a with Inner := x }) _ i _
    (encodableFieldNumber_small 1 (by omega)) rfl (fun _ _ => rfl) (by omega), resume_nil]
  by_cases h1 : i = [] <;> simp [h1, ConsensusKey.codec]

theorem WalletId_encode_length_le (m : WalletId) (h : m.WellFormed) :
    m.encode.length ≤ 20 + maxLen := by
  simp only [WalletId.WellFormed] at h
  obtain ⟨_, _, _, hi⟩ := h
  have h1 := encodeBytesField_length_le 1 m.Inner
  simp only [WalletId.encode]
  omega

theorem AddressIndex_decode_encode (m : AddressIndex) (h : m.WellFormed) :
    AddressIndex.decode m.encode = .ok m := by
  obtain ⟨s, c, u, v, r⟩ := m
  simp only [AddressIndex.WellFormed] at h
  obtain ⟨rfl, rfl, rfl, hv, hr⟩ := h
  have hl := varintLimit_eq
  have hm := maxLen_eq
  simp only [AddressIndex.decode, Codec.decode, AddressIndex.encode]
  rw [resume_encodeVarintField AddressIndex.codec 2 (fun a x => { a with Account := x % 2 ^ 32 })
    _ v _ (encodableFieldNumber_small 2 (by omega)) rfl (fun _ _ => rfl) (by omega)]
  rw [← List.append_nil (encodeBytesField 3 r)]
  rw [resume_encodeBytesField AddressIndex.codec 3 (fun a x => { a with Randomizer := x }) _ r _
    (encodableFieldNumber_small 3 (by omega)) rfl (fun _ _ => rfl) (by omega), resume_nil]
  have hv2 : v < 4294967296 := by omega
  by_cases h1 : v = 0 <;> by_cases h2 : r = [] <;> simp [h1, h2, hv2, AddressIndex.codec]

theorem AddressIndex_encode_length_le (m : AddressIndex) (h : m.WellFormed) :
    m.encode.length ≤ 40 + maxLen := by
  simp only [AddressIndex.WellFormed] at h
  obtain ⟨_, _, _, _, hr⟩ := h
  have h1 := encodeVarintField_length_le 2 m.Account
  have h2 := encodeBytesField_length_le 3 m.Randomizer
  simp only [AddressIndex.encode, List.length_append]
  omega

theorem AddressView_Decoded_encode_length_le (m : AddressView_Decoded) (h : m.WellFormed) :
    m.encode.length ≤ 160 + 4 * maxLen := by
  simp only [AddressView_Decoded.WellFormed] at h
  obtain ⟨_, _, _, ha, hi, hw⟩ := h
  have h1 := encodeMessageField_length_le 1 Address.encode m.Address (40 + 2 * maxLen)
    (fun x hx => Address_encode_length_le x (ha x hx))
  have h2 := encodeMessageField_length_le 2 AddressIndex.encode m.Index (40 + maxLen)
    (fun x hx => AddressIndex_encode_length_le x (hi x hx))
  have h3 := encodeMessageField_length_le 3 WalletId.encode m.WalletId (20 + maxLen)
    (fun x hx => WalletId_encode_length_le x (hw x hx))
  simp only [AddressView_Decoded.encode, List.length_append]
  omega

theorem AddressView_Opaque_encode_length_le (m : AddressView_Opaque) (h : m.WellFormed) :
    m.encode.length ≤ 60 + 2 * maxLen := by
  simp only [AddressView_Opaque.WellFormed] at h
  obtain ⟨_, _, _, ha⟩ := h
  have h1 := encodeMessageField_length_le 1 Address.encode m.Address (40 + 2 * maxLen)
    (fun x hx => Address_encode_length_le x (ha x hx))
  simp only [AddressView_Opaque.encode]
  omega

theorem AddressView_Decoded_decode_encode (m : AddressView_Decoded) (h : m.WellFormed) :
    AddressView_Decoded.decode m.encode = .ok m := by
  obtain ⟨s, c, u, a, i, w⟩ := m
  simp only [AddressView_Decoded.WellFormed] at h
  obtain ⟨rfl, rfl, rfl, ha, hi, hw⟩ := h
  have hl := varintLimit_eq
  have hm := maxLen_eq
  simp only [AddressView_Decoded.decode, Codec.decode, AddressView_Decoded.encode,
    List.append_assoc]
  rw [resume_encodeMessageField AddressView_Decoded.codec 1
    (fun acc x => { acc with Address := some x }) Address.encode Address.decode _ a _
    (encodableFieldNumber_small 1 (by omega)) rfl
    (fun _ p => by cases hd : Address.decode p <;> simp [AddressView_Decoded.codec, hd])
    (fun x hx => ⟨Address_decode_encode x (ha x hx), by
      have := Address_encode_length_le x (ha x hx)
      omega⟩)]
  rw [resume_encodeMessageField AddressView_Decoded.codec 2
    (fun acc x => { acc with Index := some x }) AddressIndex.encode AddressIndex.decode _ i _
    (encodableFieldNumber_small 2 (by omega)) rfl
    (fun _ p => by cases hd : AddressIndex.decode p <;> simp [AddressView_Decoded.codec, hd])
    (fun x hx => ⟨AddressIndex_decode_encode x (hi x hx), by
      have := AddressIndex_encode_length_le x (hi x hx)
      omega⟩)]
  rw [← List.append_nil (encodeMessageField 3 _)]
  rw [resume_encodeMessageField AddressView_Decoded.codec 3
    (fun acc x => { acc with WalletId := some x }) WalletId.encode WalletId.decode _ w _
    (encodableFieldNumber_small 3 (by omega)) rfl
    (fun _ p => by cases hd : WalletId.decode p <;> simp [AddressView_Decoded.codec, hd])
    (fun x hx => ⟨WalletId_decode_encode x (hw x hx), by
      have := WalletId_encode_length_le x (hw x hx)
      omega⟩), resume_nil]
  cases a <;> cases i <;> cases w <;> rfl

theorem AddressView_Opaque_decode_encode (m : AddressView_Opaque) (h : m.WellFormed) :
    AddressView_Opaque.decode m.encode = .ok m := by
  obtain ⟨s, c, u, a⟩ := m
  simp only [AddressView_Opaque.WellFormed] at h
  obtain ⟨rfl, rfl, rfl, ha⟩ := h
  have hl := varintLimit_eq
  have hm := maxLen_eq
  simp only [AddressView_Opaque.decode, Codec.decode, AddressView_Opaque.encode]
  rw [← List.append_nil (encodeMessageField 1 _)]
  rw [resume_encodeMessageField AddressView_Opaque.codec 1
    (fun acc x => { acc with Address := some x }) Address.encode Address.decode _ a _
    (encodableFieldNumber_small 1 (by omega)) rfl
    (fun _ p => by cases hd : Address.decode p <;> simp [AddressView_Opaque.codec, hd])
    (fun x hx => ⟨Address_decode_encode x (ha x hx), by
      have := Address_encode_length_le x (ha x hx)
      omega⟩), resume_nil]
  cases a <;> rfl

theorem AddressView_assign_field1 (acc : keysv1alpha1.AddressView) (p : Bytes)
    (d : AddressView_Decoded) (h : AddressView_Decoded.decode p = .ok d) :
    AddressView.codec.assign acc 1 (.bytes p)
      = .ok { acc with AddressView := some (.Decoded_ (some ⟨some d⟩)) } := by
  simp only [AddressView.codec, h]

theorem AddressView_assign_field2 (acc : keysv1alpha1.AddressView) (p : Bytes)
    (o : AddressView_Opaque) (h : AddressView_Opaque.decode p = .ok o) :
    AddressView.codec.assign acc 2 (.bytes p)
      = .ok { acc with AddressView := some (.Opaque_ (some ⟨some o⟩)) } := by
  simp only [AddressView.codec, h]

theorem AddressView_decode_encode (m : keysv1alpha1.AddressView) (h : m.WellFormed) :
    AddressView.decode m.encode = .ok m := by
  obtain ⟨s, c, u, v⟩ := m
  simp only [AddressView.WellFormed] at h
  obtain ⟨rfl, rfl, rfl, hv⟩ := h
  have hl := varintLimit_eq
  have hm := maxLen_eq
  simp only [AddressView.decode, Codec.decode, AddressView.encode]
  match v, hv with
  | none, _ => simp [resume_nil, AddressView.codec]
  | some (.Decoded_ (some ⟨some d⟩)), hv =>
    simp only [isAddressView_AddressView.WellFormed] at hv
    have hlen := AddressView_Decoded_encode_length_le d hv
    simp only
    rw [← List.append_nil (encodeRecord 1 _)]
    rw [resume_record_assign AddressView.codec _ 1 (.bytes d.encode) [] _
      (encodableFieldNumber_small 1 (by omega))
      (by simp only [FieldValue.Encodable]; omega) rfl
      (AddressView_assign_field1 _ _ d (AddressView_Decoded_decode_encode d hv)), resume_nil]
    rfl
  | some (.Opaque_ (some ⟨some o⟩)), hv =>
    simp only [isAddressView_AddressView.WellFormed] at hv
    have hlen := AddressView_Opaque_encode_length_le o hv
    simp only
    rw [← List.append_nil (encodeRecord 2 _)]
    rw [resume_record_assign AddressView.codec _ 2 (.bytes o.encode) [] _
      (encodableFieldNumber_small 2 (by omega))
      (by simp only [FieldValue.Encodable]; omega) rfl
      (AddressView_assign_field2 _ _ o (AddressView_Opaque_decode_encode o hv)), resume_nil]
    rfl
  | some (.Decoded_ none), hv => simp [isAddressView_AddressView.WellFormed] at hv
  | some (.Decoded_ (some ⟨none⟩)), hv => simp [isAddressView_AddressView.WellFormed] at hv
  | some (.Opaque_ none), hv => simp [isAddressView_AddressView.WellFormed] at hv
  | some (.Opaque_ (some ⟨none⟩)), hv => simp [isAddressView_AddressView.WellFormed] at hv

/-! ## Decoders of all message types -/

theorem asMessage_ok {T : Type} (wrap : T → Message) (r : Except DecodeError T) (m : Message)
    (h : asMessage wrap r = .ok m) : ∃ x, r = .ok x := by
  cases r with
  | error e => simp [asMessage] at h
  | ok x => exact ⟨x, rfl⟩

theorem Codec.decode_unknown {T : Type} (C : Codec T) (pre post : Bytes) (num : Nat)
    (v : FieldValue) (x : T) (hpre : C.decode pre = .ok x) (hnum : EncodableFieldNumber num)
    (hv : v.Encodable) (hk : C.kind num = none) :
    C.decode (pre ++ encodeRecord num v ++ post) = C.decode (pre ++ post) := by
  simp only [Codec.decode] at hpre ⊢
  rw [List.append_assoc, resume_append C C.zero pre _ x hpre,
    resume_append C C.zero pre _ x hpre, resume_record_unknown C x num v post hnum hv hk]

theorem Codec.decode_truncated {T : Type} (C : Codec T) (pre tail : Bytes) (num n : Nat)
    (x : T) (hpre : C.decode pre = .ok x) (hnum : EncodableFieldNumber num)
    (hk : C.kind num ≠ some .varint) (hn : n < varintLimit) (ht : tail.length < n) :
    C.decode (pre ++ (encodeTag num .lengthDelimited ++ encodeVarint n ++ tail))
      = .error .truncatedInput := by
  simp only [Codec.decode] at hpre ⊢
  rw [resume_append C C.zero pre _ x hpre, resume_truncated C x num n tail hnum hk hn ht]

theorem asMessage_decode_unknown {T : Type} (wrap : T → Message) (C : Codec T)
    (pre post : Bytes) (num : Nat) (v : FieldValue) (m : Message)
    (hpre : asMessage wrap (C.decode pre) = .ok m) (hnum : EncodableFieldNumber num)
    (hv : v.Encodable) (hk : C.kind num = none) :
    asMessage wrap (C.decode (pre ++ encodeRecord num v ++ post))
      = asMessage wrap (C.decode (pre ++ post)) := by
  obtain ⟨x, hx⟩ := asMessage_ok wrap _ m hpre
  rw [Codec.decode_unknown C pre post num v x hx hnum hv hk]

theorem asMessage_decode_truncated {T : Type} (wrap : T → Message) (C : Codec T)
    (pre tail : Bytes) (num n : Nat) (m : Message)
    (hpre : asMessage wrap (C.decode pre) = .ok m) (hnum : EncodableFieldNumber num)
    (hk : C.kind num ≠ some .varint) (hn : n < varintLimit) (ht : tail.length < n) :
    asMessage wrap (C.decode (pre ++ (encodeTag num .lengthDelimited ++ encodeVarint n ++ tail)))
      = .error .truncatedInput := by
  obtain ⟨x, hx⟩ := asMessage_ok wrap _ m hpre
  rw [Codec.decode_truncated C pre tail num n x hx hnum hk hn ht]
  rfl

theorem decodeField_lengthDelimited_mismatch {T : Type} (C : Codec T) (acc : T) (num : Nat)
    (rest : Bytes) (hnum : EncodableFieldNumber num) (hk : C.kind num = some .varint) :
    decodeField C acc (encodeTag num .lengthDelimited ++ rest) = .error .wireTypeMismatch := by
  unfold decodeField
  rw [decodeVarint_encodeTag num .lengthDelimited _ hnum]
  obtain ⟨h1, h2⟩ := tag_split num .lengthDelimited
  simp [h1, h2, hk]

theorem Codec.decode_lengthDelimited_mismatch {T : Type} (C : Codec T) (pre rest : Bytes)
    (num : Nat) (x : T) (hpre : C.decode pre = .ok x) (hnum : EncodableFieldNumber num)
    (hk : C.kind num = some .varint) :
    C.decode (pre ++ (encodeTag num .lengthDelimited ++ rest)) = .error .wireTypeMismatch := by
  simp only [Codec.decode] at hpre ⊢
  rw [resume_append C C.zero pre _ x hpre]
  apply resume_step_error _ _ _ _
    (decodeField_lengthDelimited_mismatch C x num rest hnum hk)
  simp only [encodeTag, ne_eq, List.append_eq_nil, not_and]
  intro h
  exact absurd h (encodeVarint_ne_nil _)

theorem asMessage_decode_mismatch {T : Type} (wrap : T → Message) (C : Codec T)
    (pre rest : Bytes) (num : Nat) (m : Message)
    (hpre : asMessage wrap (C.decode pre) = .ok m) (hnum : EncodableFieldNumber num)
    (hk : C.kind num = some .varint) :
    asMessage wrap (C.decode (pre ++ (encodeTag num .lengthDelimited ++ rest)))
      = .error .wireTypeMismatch := by
  obtain ⟨x, hx⟩ := asMessage_ok wrap _ m hpre
  rw [Codec.decode_lengthDelimited_mismatch C pre rest num x hx hnum hk]
  rfl

theorem decodeField_lengthDelimited_fails {T : Type} (C : Codec T) (acc : T) (num n : Nat)
    (tail : Bytes) (hnum : EncodableFieldNumber num) (hn : n < varintLimit)
    (ht : tail.length < n) :
    ∃ e, decodeField C acc (encodeTag num .lengthDelimited ++ encodeVarint n ++ tail)
      = .error e := by
  by_cases hk : C.kind num = some .varint
  · refine ⟨.wireTypeMismatch, ?_⟩
    unfold decodeField
    simp only [List.append_assoc]
    rw [decodeVarint_encodeTag num .lengthDelimited _ hnum]
    obtain ⟨h1, h2⟩ := tag_split num .lengthDelimited
    simp [h1, h2, hk]
  · exact ⟨.truncatedInput, decodeField_truncated C acc num n tail hnum hk hn ht⟩

theorem Codec.decode_lengthDelimited_fails {T : Type} (C : Codec T) (pre tail : Bytes)
    (num n : Nat) (x : T) (hpre : C.decode pre = .ok x) (hnum : EncodableFieldNumber num)
    (hn : n < varintLimit) (ht : tail.length < n) :
    ∃ e, C.decode (pre ++ (encodeTag num .lengthDelimited ++ encodeVarint n ++ tail))
      = .error e := by
  obtain ⟨e, he⟩ := decodeField_lengthDelimited_fails C x num n tail hnum hn ht
  refine ⟨e, ?_⟩
  simp only [Codec.decode] at hpre ⊢
  rw [resume_append C C.zero pre _ x hpre]
  apply resume_step_error _ _ _ _ he
  simp only [encodeTag, ne_eq, List.append_eq_nil, not_and]
  intro h
  exact absurd h.1 (encodeVarint_ne_nil _)

theorem asMessage_decode_fails {T : Type} (wrap : T → Message) (C : Codec T)
    (pre tail : Bytes) (num n : Nat) (m : Message)
    (hpre : asMessage wrap (C.decode pre) = .ok m) (hnum : EncodableFieldNumber num)
    (hn : n < varintLimit) (ht : tail.length < n) :
    ∃ e, asMessage wrap
      (C.decode (pre ++ (encodeTag num .lengthDelimited ++ encodeVarint n ++ tail)))
      = .error e := by
  obtain ⟨x, hx⟩ := asMessage_ok wrap _ m hpre
  obtain ⟨e, he⟩ := Codec.decode_lengthDelimited_fails C pre tail num n x hx hnum hn ht
  exact ⟨e, by rw [he]; rfl⟩

/-! ## The decoder always ends with a result of the codec -/

theorem decodeVarintAux_ne_fuelExhausted (k : Nat) (bs : Bytes) :
    decodeVarintAux k bs ≠ .error .fuelExhausted := by
  induction k generalizing bs with
  | zero => simp [decodeVarintAux]
  | succ k ih =>
    cases bs with
    | nil => simp [decodeVarintAux]
    | cons b bs =>
      simp only [decodeVarintAux]
      split
      · simp
      · have := ih bs
        cases hd : decodeVarintAux k bs with
        | ok p => simp
        | error e =>
          rw [hd] at this
          simpa using this

theorem readValue_ne_fuelExhausted (wt : WireType) (bs : Bytes) :
    readValue wt bs ≠ .error .fuelExhausted := by
  have h := decodeVarintAux_ne_fuelExhausted maxVarintLen bs
  cases wt with
  | varint =>
    simp only [readValue, decodeVarint]
    cases hd : decodeVarintAux maxVarintLen bs with
    | ok p => simp
    | error e =>
      rw [hd] at h
      simpa using h
  | lengthDelimited =>
    simp only [readValue, decodeVarint]
    cases hd : decodeVarintAux maxVarintLen bs with
    | ok p =>
      simp only
      split <;> simp
    | error e =>
      rw [hd] at h
      simpa using h

theorem decodeField_ne_fuelExhausted {T : Type} (C : Codec T) (acc : T) (bs : Bytes)
    (hC : ∀ a n v, C.assign a n v ≠ .error .fuelExhausted) :
    decodeField C acc bs ≠ .error .fuelExhausted := by
  unfold decodeField
  have h := decodeVarintAux_ne_fuelExhausted maxVarintLen bs
  cases hd : decodeVarint bs with
  | error e =>
    simp only [decodeVarint] at hd
    rw [hd] at h
    simpa using h
  | ok p =>
    obtain ⟨tag, rest⟩ := p
    simp only
    cases WireType.ofCode (tag % 8) with
    | none => simp
    | some wt =>
      simp only
      have hr := readValue_ne_fuelExhausted wt rest
      cases C.kind (tag / 8) with
      | none =>
        simp only
        cases hv : readValue wt rest with
        | error e =>
          rw [hv] at hr
          simpa using hr
        | ok q => simp
      | some k =>
        simp only
        split
        · cases hv : readValue wt rest with
          | error e =>
            rw [hv] at hr
            simpa using hr
          | ok q =>
            simp only
            have ha := hC acc (tag / 8) q.1
            cases hs : C.assign acc (tag / 8) q.1 with
            | error e =>
              rw [hs] at ha
              simpa using ha
            | ok a => simp
        · simp

theorem resume_ne_fuelExhausted {T : Type} (C : Codec T) (acc : T) (bs : Bytes)
    (hC : ∀ a n v, C.assign a n v ≠ .error .fuelExhausted) :
    C.resume acc bs ≠ .error .fuelExhausted := by
  generalize hn : bs.length = n
  induction n using Nat.strong_induction_on generalizing acc bs with
  | _ n ih =>
    cases bs with
    | nil => simp [resume_nil]
    | cons b bs =>
      cases hd : decodeField C acc (b :: bs) with
      | error e =>
        rw [resume_step_error C acc (b :: bs) e hd (by simp)]
        have := decodeField_ne_fuelExhausted C acc (b :: bs) hC
        rw [hd] at this
        intro h
        apply this
        cases h
        rfl
      | ok p =>
        obtain ⟨a1, rest⟩ := p
        rw [resume_step C acc (b :: bs) a1 rest hd]
        have hlt := (decodeField_append C acc (b :: bs) [] a1 rest hd).2
        exact ih rest.length (by omega) a1 rest rfl

theorem Address_decode_ne_fuelExhausted (bs : Bytes) :
    Address.decode bs ≠ .error .fuelExhausted := by
  apply resume_ne_fuelExhausted
  intro a n v
  simp only [Address.codec]
  split <;> simp

theorem PayloadKey_decode_ne_fuelExhausted (bs : Bytes) :
    PayloadKey.decode bs ≠ .error .fuelExhausted := by
  apply resume_ne_fuelExhausted
  intro a n v
  simp only [PayloadKey.codec]
  split <;> simp

theorem SpendKey_decode_ne_fuelExhausted (bs : Bytes) :
    SpendKey.decode bs ≠ .error .fuelExhausted := by
  apply resume_ne_fuelExhausted
  intro a n v
  simp only [SpendKey.codec]
  split <;> simp

theorem FullViewingKey_decode_ne_fuelExhausted (bs : Bytes) :
    FullViewingKey.decode bs ≠ .error .fuelExhausted := by
  apply resume_ne_fuelExhausted
  intro a n v
  simp only [FullViewingKey.codec]
  split <;> simp

theorem WalletId_decode_ne_fuelExhausted (bs : Bytes) :
    WalletId.decode bs ≠ .error .fuelExhausted := by
  apply resume_ne_fuelExhausted
  intro a n v
  simp only [WalletId.codec]
  split <;> simp

theorem Diversifier_decode_ne_fuelExhausted (bs : Bytes) :
    Diversifier.decode bs ≠ .error .fuelExhausted := by
  apply resume_ne_fuelExhausted
  intro a n v
  simp only [Diversifier.codec]
  split <;> simp

theorem AddressIndex_decode_ne_fuelExhausted (bs : Bytes) :
    AddressIndex.decode bs ≠ .error .fuelExhausted := by
  apply resume_ne_fuelExhausted
  intro a n v
  simp only [AddressIndex.codec]
  split <;> simp

theorem IdentityKey_decode_ne_fuelExhausted (bs : Bytes) :
    IdentityKey.decode bs ≠ .error .fuelExhausted := by
  apply resume_ne_fuelExhausted
  intro a n v
  simp only [IdentityKey.codec]
  split <;> simp

theorem GovernanceKey_decode_ne_fuelExhausted (bs : Bytes) :
    GovernanceKey.decode bs ≠ .error .fuelExhausted := by
  apply resume_ne_fuelExhausted
  intro a n v
  simp only [GovernanceKey.codec]
  split <;> simp

theorem ConsensusKey_decode_ne_fuelExhausted (bs : Bytes) :
    ConsensusKey.decode bs ≠ .error .fuelExhausted := by
  apply resume_ne_fuelExhausted
  intro a n v
  simp only [ConsensusKey.codec]
  split <;> simp

theorem AddressView_Decoded_decode_ne_fuelExhausted (bs : Bytes) :
    AddressView_Decoded.decode bs ≠ .error .fuelExhausted := by
  apply resume_ne_fuelExhausted
  intro a n v
  simp only [AddressView_Decoded.codec]
  split
  · rename_i b
    have h := Address_decode_ne_fuelExhausted b
    cases hd : Address.decode b with
    | ok x => simp
    | error e =>
      rw [hd] at h
      simpa using h
  · rename_i b
    have h := AddressIndex_decode_ne_fuelExhausted b
    cases hd : AddressIndex.decode b with
    | ok x => simp
    | error e =>
      rw [hd] at h
      simpa using h
  · rename_i b
    have h := WalletId_decode_ne_fuelExhausted b
    cases hd : WalletId.decode b with
    | ok x => simp
    | error e =>
      rw [hd] at h
      simpa using h
  · simp

theorem AddressView_Opaque_decode_ne_fuelExhausted (bs : Bytes) :
    AddressView_Opaque.decode bs ≠ .error .fuelExhausted := by
  apply resume_ne_fuelExhausted
  intro a n v
  simp only [AddressView_Opaque.codec]
  split
  · rename_i b
    have h := Address_decode_ne_fuelExhausted b
    cases hd : Address.decode b with
    | ok x => simp
    | error e =>
      rw [hd] at h
      simpa using h
  · simp

theorem AddressView_decode_ne_fuelExhausted (bs : Bytes) :
    AddressView.decode bs ≠ .error .fuelExhausted := by
  apply resume_ne_fuelExhausted
  intro a n v
  simp only [AddressView.codec]
  split
  · rename_i b
    have h := AddressView_Decoded_decode_ne_fuelExhausted b
    cases hd : AddressView_Decoded.decode b with
    | ok x => simp
    | error e =>
      rw [hd] at h
      simpa using h
  · rename_i b
    have h := AddressView_Opaque_decode_ne_fuelExhausted b
    cases hd : AddressView_Opaque.decode b with
    | ok x => simp
    | error e =>
      rw [hd] at h
      simpa using h
  · simp

theorem asMessage_ne_fuelExhausted {T : Type} (wrap : T → Message) (r : Except DecodeError T)
    (h : r ≠ .error .fuelExhausted) : asMessage wrap r ≠ .error .fuelExhausted := by
  cases r with
  | ok x => simp [asMessage]
  | error e =>
    simp only [asMessage, ne_eq, Except.error.injEq]
    simpa using h

/-- The decoder of every message type ends with a message or with an error of the
codec: the bound on the number of records it reads is never reached. -/
theorem decode_ne_fuelExhausted (t : MessageType) (bs : Bytes) :
    decode t bs ≠ .error .fuelExhausted := by
  cases t
  · exact asMessage_ne_fuelExhausted _ _ (Address_decode_ne_fuelExhausted bs)
  · exact asMessage_ne_fuelExhausted _ _ (AddressView_decode_ne_fuelExhausted bs)
  · exact asMessage_ne_fuelExhausted _ _ (PayloadKey_decode_ne_fuelExhausted bs)
  · exact asMessage_ne_fuelExhausted _ _ (SpendKey_decode_ne_fuelExhausted bs)
  · exact asMessage_ne_fuelExhausted _ _ (FullViewingKey_decode_ne_fuelExhausted bs)
  · exact asMessage_ne_fuelExhausted _ _ (WalletId_decode_ne_fuelExhausted bs)
  · exact asMessage_ne_fuelExhausted _ _ (Diversifier_decode_ne_fuelExhausted bs)
  · exact asMessage_ne_fuelExhausted _ _ (AddressIndex_decode_ne_fuelExhausted bs)
  · exact asMessage_ne_fuelExhausted _ _ (IdentityKey_decode_ne_fuelExhausted bs)
  · exact asMessage_ne_fuelExhausted _ _ (GovernanceKey_decode_ne_fuelExhausted bs)
  · exact asMessage_ne_fuelExhausted _ _ (ConsensusKey_decode_ne_fuelExhausted bs)
  · exact asMessage_ne_fuelExhausted _ _ (AddressView_Decoded_decode_ne_fuelExhausted bs)
  · exact asMessage_ne_fuelExhausted _ _ (AddressView_Opaque_decode_ne_fuelExhausted bs)

/-! ## The claims -/

/-- C1: round trip. For a well-formed message m of any message type of the file
(the eleven top-level types and the two nested in AddressView), decoding the
encoding of m succeeds and yields m. -/
theorem decode_encode_roundtrip (m : Message) (h : m.WellFormed) :
    decode m.type m.encode = .ok m := by
  cases m with
  | Address x => simp only [Message.type, Message.encode, decode, asMessage, Address_decode_encode x h]
  | AddressView x =>
    simp only [Message.type, Message.encode, decode, asMessage, AddressView_decode_encode x h]
  | PayloadKey x =>
    simp only [Message.type, Message.encode, decode, asMessage, PayloadKey_decode_encode x h]
  | SpendKey x =>
    simp only [Message.type, Message.encode, decode, asMessage, SpendKey_decode_encode x h]
  | FullViewingKey x =>
    simp only [Message.type, Message.encode, decode, asMessage, FullViewingKey_decode_encode x h]
  | WalletId x =>
    simp only [Message.type, Message.encode, decode, asMessage, WalletId_decode_encode x h]
  | Diversifier x =>
    simp only [Message.type, Message.encode, decode, asMessage, Diversifier_decode_encode x h]
  | AddressIndex x =>
    simp only [Message.type, Message.encode, decode, asMessage, AddressIndex_decode_encode x h]
  | IdentityKey x =>
    simp only [Message.type, Message.encode, decode, asMessage, IdentityKey_decode_encode x h]
  | GovernanceKey x =>
    simp only [Message.type, Message.encode, decode, asMessage, GovernanceKey_decode_encode x h]
  | ConsensusKey x =>
    simp only [Message.type, Message.encode, decode, asMessage, ConsensusKey_decode_encode x h]
  | AddressView_Decoded x =>
    simp only [Message.type, Message.encode, decode, asMessage,
      AddressView_Decoded_decode_encode x h]
  | AddressView_Opaque x =>
    simp only [Message.type, Message.encode, decode, asMessage,
      AddressView_Opaque_decode_encode x h]

theorem sampleView_wellFormed : sampleView.WellFormed := by
  simp [sampleView, Message.WellFormed, AddressView.WellFormed,
    isAddressView_AddressView.WellFormed, AddressView_Decoded.WellFormed, Address.WellFormed,
    AddressIndex.WellFormed, WalletId.WellFormed, maxLen]

/-- Witness of C1 at sampleView. -/
theorem decode_encode_roundtrip_witness :
    sampleView.WellFormed ∧ decode sampleView.type sampleView.encode = .ok sampleView :=
  ⟨sampleView_wellFormed, decode_encode_roundtrip sampleView sampleView_wellFormed⟩

/-- C2: the struct tags declare the field numbers and kinds of the field table of
the specification. For every row of the table the message of that row has exactly
one tagged field of that name, whose tag carries the number of the row, whose
wire kind and Go type make up the type of the row (bytes and string are the wire
kind bytes on a byte slice and on a string, message is the wire kind bytes on a
struct pointer, uint32 is the wire kind varint on a uint32), and which is a oneof
member exactly when the row says so; the tags hold as many fields as the table
has rows; AddressIndex declares the numbers 2 and 3 and no field 1; within every
message the declared field numbers are pairwise distinct and every tag parses;
and the only oneof members are decoded and opaque, held by the oneof field of
AddressView, whose tag names the oneof address_view. -/
theorem struct_tags_agree_with_field_table :
    (∀ r ∈ specFieldTable, declaredField r.1 r.2.1 = some (r.2.2.1, r.2.2.2.1, r.2.2.2.2))
    ∧ (messageStructs.map (fun m => (messageFields m.1).length)).sum = specFieldTable.length
    ∧ declaredNumbers "AddressIndex" = some [2, 3]
    ∧ (∀ m ∈ messageStructs, ∀ ns, declaredNumbers m.1 = some ns → ns.Nodup)
    ∧ (∀ m ∈ messageStructs, (declaredNumbers m.1).isSome = true)
    ∧ (∀ m ∈ messageStructs,
        oneofMembers m.1 = if m.1 = "AddressView" then ["decoded", "opaque"] else [])
    ∧ structOneofs.lookup "AddressView" = some ("AddressView", "address_view") := by
  refine ⟨by decide, by decide, by decide, ?_, by decide, by decide, by decide⟩
  have h : ∀ m ∈ messageStructs,
      (match declaredNumbers m.1 with
        | some ns => decide ns.Nodup
        | none => false) = true := by decide
  intro m hm ns hns
  have h2 := h m hm
  rw [hns] at h2
  simpa using h2

/-- C3: oneof exclusivity of the getters. For every AddressView receiver, nil or
not, whatever its oneof holds, at least one of GetDecoded and GetOpaque returns
nil; so when GetDecoded returns a message GetOpaque returns nil, when GetOpaque
returns a message GetDecoded returns nil, and never do both return a message. -/
theorem oneof_getters_exclusive (x : Option keysv1alpha1.AddressView) :
    (AddressView.GetDecoded x = .ok none ∨ AddressView.GetOpaque x = .ok none)
    ∧ (∀ d, AddressView.GetDecoded x = .ok (some d) → AddressView.GetOpaque x = .ok none)
    ∧ (∀ o, AddressView.GetOpaque x = .ok (some o) → AddressView.GetDecoded x = .ok none)
    ∧ ¬ (∃ d o, AddressView.GetDecoded x = .ok (some d)
          ∧ AddressView.GetOpaque x = .ok (some o)) := by
  have key : AddressView.GetDecoded x = .ok none ∨ AddressView.GetOpaque x = .ok none := by
    unfold AddressView.GetDecoded AddressView.GetOpaque
    rcases AddressView.GetAddressView x with _ | ⟨_ | _⟩ | ⟨_ | _⟩ <;> simp
  refine ⟨key, ?_, ?_, ?_⟩
  · intro d hd
    rcases key with h | h
    · rw [h] at hd
      cases hd
    · exact h
  · intro o ho
    rcases key with h | h
    · exact h
    · rw [h] at ho
      cases ho
  · rintro ⟨d, o, hd, ho⟩
    rcases key with h | h
    · rw [h] at hd
      cases hd
    · rw [h] at ho
      cases ho

/-- C4: the code at the failing input. The Address with Inner = [1] and
AltBech32M = "p" is a value of the struct, GetInner and GetAltBech32M return
both fields non-empty, and Reset is the only other operation on it: no function
of the package rejects a message that sets both, which the comment on the field
AltBech32M says implementations must do. -/
theorem address_both_set_representable :
    Address.GetInner (some { Inner := [1], AltBech32M := [112] }) = [1]
    ∧ Address.GetAltBech32M (some { Inner := [1], AltBech32M := [112] }) = [112]
    ∧ Address.GetInner (some { Inner := [1], AltBech32M := [112] }) ≠ []
    ∧ Address.GetAltBech32M (some { Inner := [1], AltBech32M := [112] }) ≠ [] := by
  decide

/-- The getters of Address do not look at the other field: for every Address
value GetInner returns its Inner and GetAltBech32M returns its AltBech32M, and
for all byte sequences b and strings s the value with Inner = b and
AltBech32M = s is returned unchanged by both getters. -/
theorem address_getters_independent (a : Address) (b s : Bytes) :
    Address.GetInner (some a) = a.Inner
    ∧ Address.GetAltBech32M (some a) = a.AltBech32M
    ∧ Address.GetInner (some { a with Inner := b, AltBech32M := s }) = b
    ∧ Address.GetAltBech32M (some { a with Inner := b, AltBech32M := s }) = s :=
  ⟨rfl, rfl, rfl, rfl⟩

/-- C5: absent equals default. Every getter on a nil receiver returns the default
of its field (the empty byte sequence, the empty string, 0, nil), without
panicking, and this is what the getter returns on the zero value of the
struct. -/
theorem getters_nil_receiver_default :
    (Address.GetInner none = [] ∧ Address.GetInner (some {}) = [])
    ∧ (Address.GetAltBech32M none = [] ∧ Address.GetAltBech32M (some {}) = [])
    ∧ (PayloadKey.GetInner none = [] ∧ PayloadKey.GetInner (some {}) = [])
    ∧ (SpendKey.GetInner none = [] ∧ SpendKey.GetInner (some {}) = [])
    ∧ (FullViewingKey.GetInner none = [] ∧ FullViewingKey.GetInner (some {}) = [])
    ∧ (WalletId.GetInner none = [] ∧ WalletId.GetInner (some {}) = [])
    ∧ (Diversifier.GetInner none = [] ∧ Diversifier.GetInner (some {}) = [])
    ∧ (ConsensusKey.GetInner none = [] ∧ ConsensusKey.GetInner (some {}) = [])
    ∧ (AddressIndex.GetRandomizer none = [] ∧ AddressIndex.GetRandomizer (some {}) = [])
    ∧ (IdentityKey.GetIk none = [] ∧ IdentityKey.GetIk (some {}) = [])
    ∧ (GovernanceKey.GetGk none = [] ∧ GovernanceKey.GetGk (some {}) = [])
    ∧ (AddressIndex.GetAccount none = 0 ∧ AddressIndex.GetAccount (some {}) = 0)
    ∧ (AddressView_Decoded.GetAddress none = none
        ∧ AddressView_Decoded.GetAddress (some {}) = none)
    ∧ (AddressView_Decoded.GetIndex none = none
        ∧ AddressView_Decoded.GetIndex (some {}) = none)
    ∧ (AddressView_Decoded.GetWalletId none = none
        ∧ AddressView_Decoded.GetWalletId (some {}) = none)
    ∧ (AddressView_Opaque.GetAddress none = none
        ∧ AddressView_Opaque.GetAddress (some {}) = none)
    ∧ (AddressView.GetAddressView none = none ∧ AddressView.GetAddressView (some {}) = none)
    ∧ (AddressView.GetDecoded none = .ok none ∧ AddressView.GetDecoded (some {}) = .ok none)
    ∧ (AddressView.GetOpaque none = .ok none ∧ AddressView.GetOpaque (some {}) = .ok none) := by
  refine ⟨⟨rfl, rfl⟩, ⟨rfl, rfl⟩, ⟨rfl, rfl⟩, ⟨rfl, rfl⟩, ⟨rfl, rfl⟩, ⟨rfl, rfl⟩, ⟨rfl, rfl⟩,
    ⟨rfl, rfl⟩, ⟨rfl, rfl⟩, ⟨rfl, rfl⟩, ⟨rfl, rfl⟩, ⟨rfl, rfl⟩, ⟨rfl, rfl⟩, ⟨rfl, rfl⟩,
    ⟨rfl, rfl⟩, ⟨rfl, rfl⟩, ⟨rfl, rfl⟩, ⟨rfl, rfl⟩, ⟨rfl, rfl⟩⟩

/-- C6: empty-default omission. For every message type, the all-default message
encodes to the empty byte sequence, and decoding the empty byte sequence succeeds
and yields the all-default message. -/
theorem empty_default_omission (t : MessageType) :
    (zeroMessage t).encode = [] ∧ decode t [] = .ok (zeroMessage t) := by
  cases t <;> exact ⟨rfl, rfl⟩

/-- C7: the encoding of AddressIndex. AddressIndex with account 7 and an empty
randomizer encodes to the two bytes 0x10 0x07, the tag of field 2 with the
variable-length wire type and the integer 7, which decode to that message; and
for every account a other than 0 that fits 32 bits, with an empty randomizer, the
encoding is the byte 0x10 followed by the variable-length integer a, and decodes
to the same message. -/
theorem addressIndex_encoding (a : Nat) (h0 : a ≠ 0) (h32 : a < 2 ^ 32) :
    AddressIndex.encode { Account := 7, Randomizer := [] } = [0x10, 0x07]
    ∧ encodeTag 2 .varint = [2 * 8 + 0]
    ∧ encodeVarint 7 = [7]
    ∧ AddressIndex.decode [0x10, 0x07] = .ok { Account := 7, Randomizer := [] }
    ∧ AddressIndex.encode { Account := a, Randomizer := [] } = 0x10 :: encodeVarint a
    ∧ AddressIndex.decode (0x10 :: encodeVarint a) = .ok { Account := a, Randomizer := [] } := by
  have henc : AddressIndex.encode { Account := a, Randomizer := [] } = 0x10 :: encodeVarint a := by
    simp only [AddressIndex.encode, encodeVarintField, h0, if_false, encodeBytesField, if_true,
      List.append_nil, encodeRecord, FieldValue.wireType, encodeValue]
    rfl
  refine ⟨rfl, rfl, rfl, rfl, henc, ?_⟩
  rw [← henc]
  exact AddressIndex_decode_encode _ ⟨rfl, rfl, rfl, h32, by simp [maxLen]⟩

/-- Witness of C7 at account 300, whose variable-length integer is 0xac 0x02. -/
theorem addressIndex_encoding_witness :
    (300 ≠ 0 ∧ 300 < 2 ^ 32)
    ∧ AddressIndex.encode { Account := 300, Randomizer := [] } = [0x10, 0xac, 0x02]
    ∧ AddressIndex.decode [0x10, 0xac, 0x02] = .ok { Account := 300, Randomizer := [] } :=
  ⟨⟨by decide, by decide⟩,
    (addressIndex_encoding 300 (by decide) (by decide)).2.2.2.2.1,
    (addressIndex_encoding 300 (by decide) (by decide)).2.2.2.2.2⟩

/-- C8: the last variant of the oneof wins. In a stream for AddressView, after
any prefix that decodes, a field 1 record whose payload decodes as an
AddressView.Decoded followed by a field 2 record whose payload decodes as an
AddressView.Opaque: decoding succeeds and yields the AddressView whose oneof
holds that Opaque, for which GetOpaque returns it and GetDecoded returns nil; and
the two records in the other order yield the AddressView whose oneof holds that
Decoded, for which GetOpaque returns nil. -/
theorem oneof_last_wins (pre p1 p2 : Bytes) (m : keysv1alpha1.AddressView)
    (d : AddressView_Decoded) (o : AddressView_Opaque)
    (hpre : AddressView.decode pre = .ok m)
    (h1 : AddressView_Decoded.decode p1 = .ok d) (h2 : AddressView_Opaque.decode p2 = .ok o)
    (hl1 : p1.length < varintLimit) (hl2 : p2.length < varintLimit) :
    (AddressView.decode (pre ++ (encodeRecord 1 (.bytes p1) ++ encodeRecord 2 (.bytes p2)))
        = .ok { m with AddressView := some (.Opaque_ (some ⟨some o⟩)) }
      ∧ AddressView.GetOpaque (some { m with AddressView := some (.Opaque_ (some ⟨some o⟩)) })
          = .ok (some o)
      ∧ AddressView.GetDecoded (some { m with AddressView := some (.Opaque_ (some ⟨some o⟩)) })
          = .ok none)
    ∧ (AddressView.decode (pre ++ (encodeRecord 2 (.bytes p2) ++ encodeRecord 1 (.bytes p1)))
        = .ok { m with AddressView := some (.Decoded_ (some ⟨some d⟩)) }
      ∧ AddressView.GetDecoded (some { m with AddressView := some (.Decoded_ (some ⟨some d⟩)) })
          = .ok (some d)
      ∧ AddressView.GetOpaque (some { m with AddressView := some (.Decoded_ (some ⟨some d⟩)) })
          = .ok none) := by
  have hn1 := encodableFieldNumber_small 1 (by omega)
  have hn2 := encodableFieldNumber_small 2 (by omega)
  simp only [AddressView.decode, Codec.decode] at hpre
  refine ⟨⟨?_, rfl, rfl⟩, ⟨?_, rfl, rfl⟩⟩
  · simp only [AddressView.decode, Codec.decode]
    rw [resume_append AddressView.codec _ pre _ m hpre]
    rw [resume_record_assign AddressView.codec _ 1 (.bytes p1) _ _ hn1 hl1 rfl
      (AddressView_assign_field1 _ p1 d h1)]
    rw [← List.append_nil (encodeRecord 2 _)]
    rw [resume_record_assign AddressView.codec _ 2 (.bytes p2) _ _ hn2 hl2 rfl
      (AddressView_assign_field2 _ p2 o h2), resume_nil]
  · simp only [AddressView.decode, Codec.decode]
    rw [resume_append AddressView.codec _ pre _ m hpre]
    rw [resume_record_assign AddressView.codec _ 2 (.bytes p2) _ _ hn2 hl2 rfl
      (AddressView_assign_field2 _ p2 o h2)]
    rw [← List.append_nil (encodeRecord 1 _)]
    rw [resume_record_assign AddressView.codec _ 1 (.bytes p1) _ _ hn1 hl1 rfl
      (AddressView_assign_field1 _ p1 d h1), resume_nil]

/-- Witness of C8: the stream 0a 05 (a Decoded) 12 05 (an Opaque) decodes to the
Opaque variant. -/
theorem oneof_last_wins_witness :
    AddressView.decode [] = .ok {}
    ∧ AddressView_Decoded.decode sampleDecodedBytes = .ok { Address := some { Inner := [7] } }
    ∧ AddressView_Opaque.decode sampleOpaqueBytes = .ok { Address := some { Inner := [9] } }
    ∧ AddressView.decode
        ([] ++ (([0x0a, 0x05] ++ sampleDecodedBytes) ++ ([0x12, 0x05] ++ sampleOpaqueBytes)))
        = .ok { AddressView := some (.Opaque_ (some ⟨some { Address := some { Inner := [9] } }⟩)) } :=
  ⟨rfl, rfl, rfl,
    (oneof_last_wins [] sampleDecodedBytes sampleOpaqueBytes {}
      { Address := some { Inner := [7] } } { Address := some { Inner := [9] } } rfl rfl rfl
      (by simp [sampleDecodedBytes, varintLimit_eq])
      (by simp [sampleOpaqueBytes, varintLimit_eq])).1.1⟩

/-- C9: unknown fields are tolerated. For every message type, a stream pre that
decodes, a field number not in the schema of the type and a well-formed record of
that number (a variable-length integer or a length-delimited payload): the
stream with the record inserted after pre decodes to exactly what the stream
without it decodes to, whatever follows; so it succeeds whenever the stream
without the record does, with the same fields, and the record at the end of the
stream leaves the decoded message as it was. -/
theorem unknown_field_tolerance (t : MessageType) (pre post : Bytes) (num : Nat)
    (v : FieldValue) (m : Message) (hpre : decode t pre = .ok m)
    (hk : schemaKind t num = none) (hnum : EncodableFieldNumber num) (hv : v.Encodable) :
    decode t (pre ++ encodeRecord num v ++ post) = decode t (pre ++ post)
    ∧ decode t (pre ++ encodeRecord num v) = .ok m := by
  have key : ∀ post, decode t (pre ++ encodeRecord num v ++ post) = decode t (pre ++ post) := by
    intro post
    cases t <;> exact asMessage_decode_unknown _ _ pre post num v m hpre hnum hv hk
  refine ⟨key post, ?_⟩
  have h := key []
  simp only [List.append_nil] at h
  rw [h, hpre]

/-- Witness of C9: field 99 inserted between the two fields of an Address. -/
theorem unknown_field_tolerance_witness :
    decode .Address [0x0a, 0x01, 0x07] = .ok (.Address { Inner := [7] })
    ∧ schemaKind .Address 99 = none
    ∧ decode .Address ([0x0a, 0x01, 0x07] ++ [0x98, 0x06, 0x05] ++ [0x12, 0x01, 0x70])
        = .ok (.Address { Inner := [7], AltBech32M := [0x70] }) :=
  ⟨rfl, rfl,
    ((unknown_field_tolerance .Address [0x0a, 0x01, 0x07] [0x12, 0x01, 0x70] 99 (.varint 5)
      (.Address { Inner := [7] }) rfl rfl
      (by simp [EncodableFieldNumber, varintLimit_eq])
      (by simp [FieldValue.Encodable, varintLimit_eq])).1).trans rfl⟩

/-- C10, as stated, fails: the AddressIndex stream 12 05 01 02 ends with a
length-delimited record whose length prefix 5 is greater than the 2 bytes that
remain, and decoding it fails with wireTypeMismatch, not with truncatedInput:
field 2 is account, which the schema declares as a variable-length integer, and
the dispatch on the tag reports the wire type before the length is read. -/
theorem truncated_account_reports_wire_type :
    encodeTag 2 .lengthDelimited ++ encodeVarint 5 ++ [1, 2] = [0x12, 0x05, 0x01, 0x02]
    ∧ ([1, 2] : Bytes).length < 5
    ∧ decode .AddressIndex (encodeTag 2 .lengthDelimited ++ encodeVarint 5 ++ [1, 2])
        = .error .wireTypeMismatch
    ∧ decode .AddressIndex (encodeTag 2 .lengthDelimited ++ encodeVarint 5 ++ [1, 2])
        ≠ .error .truncatedInput := by
  decide

/-- C10, amended: truncation is rejected. For every message type, a stream pre
that decodes, followed by a last record of length-delimited wire type whose
length prefix n is greater than the number of bytes that remain after it:
decoding fails and returns no record; the error is truncatedInput when the field
number is one the schema declares length-delimited or does not declare at all,
and wireTypeMismatch when it is one the schema declares as a variable-length
integer (account of AddressIndex, the only such field). -/
theorem truncation_rejected (t : MessageType) (pre tail : Bytes) (num n : Nat) (m : Message)
    (hpre : decode t pre = .ok m) (hnum : EncodableFieldNumber num) (hn : n < varintLimit)
    (ht : tail.length < n) :
    (schemaKind t num ≠ some .varint →
      decode t (pre ++ (encodeTag num .lengthDelimited ++ encodeVarint n ++ tail))
        = .error .truncatedInput)
    ∧ (schemaKind t num = some .varint →
      decode t (pre ++ (encodeTag num .lengthDelimited ++ encodeVarint n ++ tail))
        = .error .wireTypeMismatch)
    ∧ (schemaKind t num = some .varint → t = .AddressIndex ∧ num = 2)
    ∧ (∃ e, decode t (pre ++ (encodeTag num .lengthDelimited ++ encodeVarint n ++ tail))
        = .error e)
    ∧ ∀ r, decode t (pre ++ (encodeTag num .lengthDelimited ++ encodeVarint n ++ tail))
        ≠ .ok r := by
  have key : ∃ e, decode t (pre ++ (encodeTag num .lengthDelimited ++ encodeVarint n ++ tail))
      = .error e := by
    cases t <;> exact asMessage_decode_fails _ _ pre tail num n m hpre hnum hn ht
  refine ⟨?_, ?_, ?_, key, ?_⟩
  · intro hk
    cases t <;> exact asMessage_decode_truncated _ _ pre tail num n m hpre hnum hk hn ht
  · intro hk
    rw [List.append_assoc]
    cases t <;> exact asMessage_decode_mismatch _ _ pre _ num m hpre hnum hk
  · intro hk
    cases t <;> simp only [schemaKind] at hk
    all_goals first
      | (simp only [AddressIndex.codec] at hk
         split at hk <;> simp_all)
      | (exfalso
         revert hk
         simp only [Address.codec, AddressView.codec, PayloadKey.codec, SpendKey.codec,
           FullViewingKey.codec, WalletId.codec, Diversifier.codec, IdentityKey.codec,
           GovernanceKey.codec, ConsensusKey.codec, AddressView_Decoded.codec,
           AddressView_Opaque.codec]
         split <;> simp)
  · intro r hr
    obtain ⟨e, he⟩ := key
    rw [he] at hr
    cases hr

/-- Witness of C10: an AddressIndex stream whose randomizer claims 5 bytes and
holds 2. -/
theorem truncation_rejected_witness :
    decode .AddressIndex [0x10, 0x07] = .ok (.AddressIndex { Account := 7 })
    ∧ schemaKind .AddressIndex 3 ≠ some .varint
    ∧ decode .AddressIndex ([0x10, 0x07] ++ ([0x1a] ++ [0x05] ++ [0x01, 0x02]))
        = .error .truncatedInput :=
  ⟨rfl, by decide,
    (truncation_rejected .AddressIndex [0x10, 0x07] [0x01, 0x02] 3 5
      (.AddressIndex { Account := 7 }) rfl
      (by simp [EncodableFieldNumber, varintLimit_eq]) (by simp [varintLimit_eq])
      (by decide)).1 (by decide)⟩

/-- C11: no length validation of opaque bytes. For every byte sequence b, of any
length, and every message holding b in a bytes field, the getter of that field
returns exactly b; in particular an Address whose Inner has 79 or 81 bytes is a
value of the type and GetInner returns all of them. -/
theorem bytes_getters_return_stored (b : Bytes) :
    (∀ x : Address, Address.GetInner (some { x with Inner := b }) = b)
    ∧ (∀ x : Address, Address.GetAltBech32M (some { x with AltBech32M := b }) = b)
    ∧ (∀ x : PayloadKey, PayloadKey.GetInner (some { x with Inner := b }) = b)
    ∧ (∀ x : SpendKey, SpendKey.GetInner (some { x with Inner := b }) = b)
    ∧ (∀ x : FullViewingKey, FullViewingKey.GetInner (some { x with Inner := b }) = b)
    ∧ (∀ x : WalletId, WalletId.GetInner (some { x with Inner := b }) = b)
    ∧ (∀ x : Diversifier, Diversifier.GetInner (some { x with Inner := b }) = b)
    ∧ (∀ x : ConsensusKey, ConsensusKey.GetInner (some { x with Inner := b }) = b)
    ∧ (∀ x : IdentityKey, IdentityKey.GetIk (some { x with Ik := b }) = b)
    ∧ (∀ x : GovernanceKey, GovernanceKey.GetGk (some { x with Gk := b }) = b)
    ∧ (∀ x : AddressIndex, AddressIndex.GetRandomizer (some { x with Randomizer := b }) = b)
    ∧ (Address.GetInner (some { Inner := List.replicate 79 0 })).length = 79
    ∧ (Address.GetInner (some { Inner := List.replicate 81 0 })).length = 81 :=
  ⟨fun _ => rfl, fun _ => rfl, fun _ => rfl, fun _ => rfl, fun _ => rfl, fun _ => rfl,
    fun _ => rfl, fun _ => rfl, fun _ => rfl, fun _ => rfl, fun _ => rfl, by decide, by decide⟩

/-- C12: the variant getters select by the dynamic type of the oneof. GetDecoded
returns the payload of the wrapper when the receiver is non-nil and its oneof
holds a non-nil Decoded wrapper, and nil when the receiver is nil, when the oneof
is unset and when the oneof holds an Opaque wrapper; GetOpaque does the same
with the two variants exchanged. Neither panics on a nil receiver or on an unset
oneof. -/
theorem variant_getters_select_by_tag (x : keysv1alpha1.AddressView)
    (d : Option AddressView_Decoded) (o : Option AddressView_Opaque)
    (wd : Option AddressView_Decoded_) (wo : Option AddressView_Opaque_) :
    AddressView.GetDecoded (some { x with AddressView := some (.Decoded_ (some ⟨d⟩)) }) = .ok d
    ∧ AddressView.GetDecoded none = .ok none
    ∧ AddressView.GetDecoded (some { x with AddressView := none }) = .ok none
    ∧ AddressView.GetDecoded (some { x with AddressView := some (.Opaque_ wo) }) = .ok none
    ∧ AddressView.GetOpaque (some { x with AddressView := some (.Opaque_ (some ⟨o⟩)) }) = .ok o
    ∧ AddressView.GetOpaque none = .ok none
    ∧ AddressView.GetOpaque (some { x with AddressView := none }) = .ok none
    ∧ AddressView.GetOpaque (some { x with AddressView := some (.Decoded_ wd) }) = .ok none :=
  ⟨rfl, rfl, rfl, rfl, rfl, rfl, rfl, rfl⟩

/-- C13: Reset yields the zero value whatever the prior state. For every message
type and every non-nil message x, Reset succeeds and leaves the zero value of
the struct: sizeCache 0, unknownFields empty and every field of the message at
its default (empty bytes, empty string, account 0, nil nested messages, oneof
unset), the state holding the MessageInfo of the type when UnsafeEnabled and
nothing otherwise; so every getter returns the default of its field, and Reset
on the result leaves it as it is. -/
theorem reset_yields_zero_value (UnsafeEnabled : Bool) :
    (∀ x : keysv1alpha1.Address, ∃ y, Address.Reset UnsafeEnabled (some x) = .ok y
        ∧ y =
          { state := if UnsafeEnabled then some 0 else none, sizeCache := 0,
            unknownFields := [], Inner := [], AltBech32M := [] }
        ∧ Address.GetInner (some y) = [] ∧ Address.GetAltBech32M (some y) = []
        ∧ Address.Reset UnsafeEnabled (some y) = .ok y)
    ∧ (∀ x : keysv1alpha1.AddressView, ∃ y, AddressView.Reset UnsafeEnabled (some x) = .ok y
        ∧ y =
          { state := if UnsafeEnabled then some 1 else none, sizeCache := 0,
            unknownFields := [], AddressView := none }
        ∧ AddressView.GetAddressView (some y) = none ∧ AddressView.GetDecoded (some y) = .ok none ∧ AddressView.GetOpaque (some y) = .ok none
        ∧ AddressView.Reset UnsafeEnabled (some y) = .ok y)
    ∧ (∀ x : keysv1alpha1.PayloadKey, ∃ y, PayloadKey.Reset UnsafeEnabled (some x) = .ok y
        ∧ y =
          { state := if UnsafeEnabled then some 2 else none, sizeCache := 0,
            unknownFields := [], Inner := [] }
        ∧ PayloadKey.GetInner (some y) = []
        ∧ PayloadKey.Reset UnsafeEnabled (some y) = .ok y)
    ∧ (∀ x : keysv1alpha1.SpendKey, ∃ y, SpendKey.Reset UnsafeEnabled (some x) = .ok y
        ∧ y =
          { state := if UnsafeEnabled then some 3 else none, sizeCache := 0,
            unknownFields := [], Inner := [] }
        ∧ SpendKey.GetInner (some y) = []
        ∧ SpendKey.Reset UnsafeEnabled (some y) = .ok y)
    ∧ (∀ x : keysv1alpha1.FullViewingKey, ∃ y, FullViewingKey.Reset UnsafeEnabled (some x) = .ok y
        ∧ y =
          { state := if UnsafeEnabled then some 4 else none, sizeCache := 0,
            unknownFields := [], Inner := [] }
        ∧ FullViewingKey.GetInner (some y) = []
        ∧ FullViewingKey.Reset UnsafeEnabled (some y) = .ok y)
    ∧ (∀ x : keysv1alpha1.WalletId, ∃ y, WalletId.Reset UnsafeEnabled (some x) = .ok y
        ∧ y =
          { state := if UnsafeEnabled then some 5 else none, sizeCache := 0,
            unknownFields := [], Inner := [] }
        ∧ WalletId.GetInner (some y) = []
        ∧ WalletId.Reset UnsafeEnabled (some y) = .ok y)
    ∧ (∀ x : keysv1alpha1.Diversifier, ∃ y, Diversifier.Reset UnsafeEnabled (some x) = .ok y
        ∧ y =
          { state := if UnsafeEnabled then some 6 else none, sizeCache := 0,
            unknownFields := [], Inner := [] }
        ∧ Diversifier.GetInner (some y) = []
        ∧ Diversifier.Reset UnsafeEnabled (some y) = .ok y)
    ∧ (∀ x : keysv1alpha1.AddressIndex, ∃ y, AddressIndex.Reset UnsafeEnabled (some x) = .ok y
        ∧ y =
          { state := if UnsafeEnabled then some 7 else none, sizeCache := 0,
            unknownFields := [], Account := 0, Randomizer := [] }
        ∧ AddressIndex.GetAccount (some y) = 0 ∧ AddressIndex.GetRandomizer (some y) = []
        ∧ AddressIndex.Reset UnsafeEnabled (some y) = .ok y)
    ∧ (∀ x : keysv1alpha1.IdentityKey, ∃ y, IdentityKey.Reset UnsafeEnabled (some x) = .ok y
        ∧ y =
          { state := if UnsafeEnabled then some 8 else none, sizeCache := 0,
            unknownFields := [], Ik := [] }
        ∧ IdentityKey.GetIk (some y) = []
        ∧ IdentityKey.Reset UnsafeEnabled (some y) = .ok y)
    ∧ (∀ x : keysv1alpha1.GovernanceKey, ∃ y, GovernanceKey.Reset UnsafeEnabled (some x) = .ok y
        ∧ y =
          { state := if UnsafeEnabled then some 9 else none, sizeCache := 0,
            unknownFields := [], Gk := [] }
        ∧ GovernanceKey.GetGk (some y) = []
        ∧ GovernanceKey.Reset UnsafeEnabled (some y) = .ok y)
    ∧ (∀ x : keysv1alpha1.ConsensusKey, ∃ y, ConsensusKey.Reset UnsafeEnabled (some x) = .ok y
        ∧ y =
          { state := if UnsafeEnabled then some 10 else none, sizeCache := 0,
            unknownFields := [], Inner := [] }
        ∧ ConsensusKey.GetInner (some y) = []
        ∧ ConsensusKey.Reset UnsafeEnabled (some y) = .ok y)
    ∧ (∀ x : keysv1alpha1.AddressView_Decoded, ∃ y, AddressView_Decoded.Reset UnsafeEnabled (some x) = .ok y
        ∧ y =
          { state := if UnsafeEnabled then some 11 else none, sizeCache := 0,
            unknownFields := [], Address := none, Index := none, WalletId := none }
        ∧ AddressView_Decoded.GetAddress (some y) = none ∧ AddressView_Decoded.GetIndex (some y) = none ∧ AddressView_Decoded.GetWalletId (some y) = none
        ∧ AddressView_Decoded.Reset UnsafeEnabled (some y) = .ok y)
    ∧ (∀ x : keysv1alpha1.AddressView_Opaque, ∃ y, AddressView_Opaque.Reset UnsafeEnabled (some x) = .ok y
        ∧ y =
          { state := if UnsafeEnabled then some 12 else none, sizeCache := 0,
            unknownFields := [], Address := none }
        ∧ AddressView_Opaque.GetAddress (some y) = none
        ∧ AddressView_Opaque.Reset UnsafeEnabled (some y) = .ok y) := by
  cases UnsafeEnabled
  · refine ⟨?_, ?_, ?_, ?_, ?_, ?_, ?_, ?_, ?_, ?_, ?_, ?_, ?_⟩ <;> intro x <;>
      refine ⟨_, rfl, rfl, ?_⟩ <;>
      first | exact ⟨rfl, rfl⟩ | exact ⟨rfl, rfl, rfl⟩ | exact ⟨rfl, rfl, rfl, rfl⟩
  · refine ⟨?_, ?_, ?_, ?_, ?_, ?_, ?_, ?_, ?_, ?_, ?_, ?_, ?_⟩ <;> intro x <;>
      refine ⟨_, rfl, rfl, ?_⟩ <;>
      first | exact ⟨rfl, rfl⟩ | exact ⟨rfl, rfl, rfl⟩ | exact ⟨rfl, rfl, rfl, rfl⟩

set_option maxRecDepth 100000 in
/-- C14: the raw descriptor agrees with the struct tags. The raw descriptor
parses, and its message declarations, nested ones included, are exactly the
messages the Go structs stand for: the same names in the same order, for every
message the same fields in the same order with the name, number, type (12 bytes,
9 string, 13 uint32, 11 message), type_name and oneof_index their struct tags
give, and the same oneofs; the only fields with a oneof_index are decoded and
opaque of AddressView, with index 0 of its single oneof address_view. -/
theorem rawDesc_agrees_with_struct_tags :
    declaredMessages = taggedMessages
    ∧ declaredMessages.isSome = true
    ∧ declaredMessages.map (fun ms => ms.flatMap (fun m =>
        (m.fields.filter (fun f => f.oneofIndex.isSome)).map
          (fun f => (m.name, f.name, f.oneofIndex))))
      = some [ (asciiBytes "AddressView", asciiBytes "decoded", some 0),
               (asciiBytes "AddressView", asciiBytes "opaque", some 0) ]
    ∧ declaredMessages.map (fun ms => (ms.filter (fun m => m.oneofs ≠ [])).map
        (fun m => (m.name, m.oneofs)))
      = some [ (asciiBytes "AddressView", [asciiBytes "address_view"]) ] := by
  decide

set_option maxRecDepth 100000 in
/-- C15: the raw descriptor is well formed and declares exactly the registered
messages. Its 1247 bytes read as 15 length-delimited records with nothing left
over; the package is penumbra.core.keys.v1alpha1 and the syntax proto3; the
top-level messages are, in order, those of goTypes entries 0 to 10; AddressView
holds exactly the two nested messages of goTypes entries 11 and 12, and no other
message holds any; so the messages declared are 13, which is NumMessages, the
length of goTypes and the length of msgTypes. -/
theorem rawDesc_declares_registered_messages :
    file_penumbra_core_keys_v1alpha1_keys_proto_rawDesc.length = 1247
    ∧ (readRecords 1247 file_penumbra_core_keys_v1alpha1_keys_proto_rawDesc).map
        (List.map (fun r => (r.1, r.2.wireType)))
      = some ([(1, .lengthDelimited), (2, .lengthDelimited)]
          ++ List.replicate 11 (4, .lengthDelimited)
          ++ [(8, .lengthDelimited), (12, .lengthDelimited)])
    ∧ (parseFileDescriptor file_penumbra_core_keys_v1alpha1_keys_proto_rawDesc).map
        (fun f => (f.package, f.syntaxName))
      = some (asciiBytes "penumbra.core.keys.v1alpha1", asciiBytes "proto3")
    ∧ (parseFileDescriptor file_penumbra_core_keys_v1alpha1_keys_proto_rawDesc).map
        (fun f => f.messages.map (fun m => m.name))
      = some ((file_penumbra_core_keys_v1alpha1_keys_proto_goTypes.take 11).map asciiBytes)
    ∧ file_penumbra_core_keys_v1alpha1_keys_proto_goTypes.take 11
      = ["Address", "AddressView", "PayloadKey", "SpendKey", "FullViewingKey", "WalletId",
          "Diversifier", "AddressIndex", "IdentityKey", "GovernanceKey", "ConsensusKey"]
    ∧ (parseFileDescriptor file_penumbra_core_keys_v1alpha1_keys_proto_rawDesc).map
        (fun f => f.messages.map (fun m => m.nested.map (fun n => (n.name, n.nested.length))))
      = some [[], [(asciiBytes "Decoded", 0), (asciiBytes "Opaque", 0)],
          [], [], [], [], [], [], [], [], []]
    ∧ (file_penumbra_core_keys_v1alpha1_keys_proto_goTypes.drop 11).map protoNameOfGoType = ["AddressView.Decoded", "AddressView.Opaque"]
    ∧ declaredMessages.map List.length = some 13
    ∧ descBuilderCounts.NumMessages = 13
    ∧ file_penumbra_core_keys_v1alpha1_keys_proto_goTypes.length = 13
    ∧ file_penumbra_core_keys_v1alpha1_keys_proto_msgTypes_len = 13 := by
  decide

/-- C16: the message indices are consistent. For every message of any type, with
k the position of its Go type in goTypes: Reset stores msgTypes[k] when
UnsafeEnabled; ProtoReflect uses msgTypes[k] on a nil receiver, on any receiver
without UnsafeEnabled, and with UnsafeEnabled on a receiver whose state holds
no MessageInfo (otherwise the one its state holds); k is below 13 and no other
message type has the same k; and Descriptor returns the path [k] for a top-level
type and [1, 0] and [1, 1] for AddressView_Decoded and AddressView_Opaque, 1
being the index of AddressView. -/
theorem message_indices_consistent (UnsafeEnabled : Bool) (CompressGZIP : Bytes → Bytes)
    (m : Message) :
    (∃ y, m.Reset true = .ok y ∧ y.state = some (file_penumbra_core_keys_v1alpha1_keys_proto_goTypes.indexOf m.type.goName))
    ∧ m.type.ProtoReflectNil UnsafeEnabled = file_penumbra_core_keys_v1alpha1_keys_proto_goTypes.indexOf m.type.goName
    ∧ m.ProtoReflect false = file_penumbra_core_keys_v1alpha1_keys_proto_goTypes.indexOf m.type.goName
    ∧ m.ProtoReflect true = m.state.getD (file_penumbra_core_keys_v1alpha1_keys_proto_goTypes.indexOf m.type.goName)
    ∧ file_penumbra_core_keys_v1alpha1_keys_proto_goTypes.indexOf m.type.goName < file_penumbra_core_keys_v1alpha1_keys_proto_msgTypes_len
    ∧ file_penumbra_core_keys_v1alpha1_keys_proto_goTypes[file_penumbra_core_keys_v1alpha1_keys_proto_goTypes.indexOf m.type.goName]? = some m.type.goName
    ∧ (∀ t : MessageType, file_penumbra_core_keys_v1alpha1_keys_proto_goTypes.indexOf t.goName = file_penumbra_core_keys_v1alpha1_keys_proto_goTypes.indexOf m.type.goName
        → t = m.type)
    ∧ m.type.descriptorPath CompressGZIP
      = (match m.type with
        | .AddressView_Decoded => [file_penumbra_core_keys_v1alpha1_keys_proto_goTypes.indexOf "AddressView", 0]
        | .AddressView_Opaque => [file_penumbra_core_keys_v1alpha1_keys_proto_goTypes.indexOf "AddressView", 1]
        | _ => [file_penumbra_core_keys_v1alpha1_keys_proto_goTypes.indexOf m.type.goName])
    ∧ file_penumbra_core_keys_v1alpha1_keys_proto_goTypes.indexOf "AddressView" = 1 := by
  have hinj : ∀ t1 t2 : MessageType, file_penumbra_core_keys_v1alpha1_keys_proto_goTypes.indexOf t1.goName = file_penumbra_core_keys_v1alpha1_keys_proto_goTypes.indexOf t2.goName
      → t1 = t2 := by
    intro t1 t2
    cases t1 <;> cases t2 <;> decide
  refine ⟨?_, ?_, ?_, ?_, ?_, ?_, fun t h => hinj t m.type h, ?_, by decide⟩
  · cases m <;> exact ⟨_, rfl, rfl⟩
  · cases m <;> cases UnsafeEnabled <;> rfl
  · cases m <;> rfl
  · cases m with
    | Address x =>
      obtain ⟨s, _⟩ := x
      cases s <;> simp [Message.ProtoReflect, Address.ProtoReflect, Message.state, Message.type, MessageType.goName, file_penumbra_core_keys_v1alpha1_keys_proto_goTypes]
    | AddressView x =>
      obtain ⟨s, _⟩ := x
      cases s <;> simp [Message.ProtoReflect, AddressView.ProtoReflect, Message.state, Message.type, MessageType.goName, file_penumbra_core_keys_v1alpha1_keys_proto_goTypes]
    | PayloadKey x =>
      obtain ⟨s, _⟩ := x
      cases s <;> simp [Message.ProtoReflect, PayloadKey.ProtoReflect, Message.state, Message.type, MessageType.goName, file_penumbra_core_keys_v1alpha1_keys_proto_goTypes]
    | SpendKey x =>
      obtain ⟨s, _⟩ := x
      cases s <;> simp [Message.ProtoReflect, SpendKey.ProtoReflect, Message.state, Message.type, MessageType.goName, file_penumbra_core_keys_v1alpha1_keys_proto_goTypes]
    | FullViewingKey x =>
      obtain ⟨s, _⟩ := x
      cases s <;> simp [Message.ProtoReflect, FullViewingKey.ProtoReflect, Message.state, Message.type, MessageType.goName, file_penumbra_core_keys_v1alpha1_keys_proto_goTypes]
    | WalletId x =>
      obtain ⟨s, _⟩ := x
      cases s <;> simp [Message.ProtoReflect, WalletId.ProtoReflect, Message.state, Message.type, MessageType.goName, file_penumbra_core_keys_v1alpha1_keys_proto_goTypes]
    | Diversifier x =>
      obtain ⟨s, _⟩ := x
      cases s <;> simp [Message.ProtoReflect, Diversifier.ProtoReflect, Message.state, Message.type, MessageType.goName, file_penumbra_core_keys_v1alpha1_keys_proto_goTypes]
    | AddressIndex x =>
      obtain ⟨s, _⟩ := x
      cases s <;> simp [Message.ProtoReflect, AddressIndex.ProtoReflect, Message.state, Message.type, MessageType.goName, file_penumbra_core_keys_v1alpha1_keys_proto_goTypes]
    | IdentityKey x =>
      obtain ⟨s, _⟩ := x
      cases s <;> simp [Message.ProtoReflect, IdentityKey.ProtoReflect, Message.state, Message.type, MessageType.goName, file_penumbra_core_keys_v1alpha1_keys_proto_goTypes]
    | GovernanceKey x =>
      obtain ⟨s, _⟩ := x
      cases s <;> simp [Message.ProtoReflect, GovernanceKey.ProtoReflect, Message.state, Message.type, MessageType.goName, file_penumbra_core_keys_v1alpha1_keys_proto_goTypes]
    | ConsensusKey x =>
      obtain ⟨s, _⟩ := x
      cases s <;> simp [Message.ProtoReflect, ConsensusKey.ProtoReflect, Message.state, Message.type, MessageType.goName, file_penumbra_core_keys_v1alpha1_keys_proto_goTypes]
    | AddressView_Decoded x =>
      obtain ⟨s, _⟩ := x
      cases s <;> simp [Message.ProtoReflect, AddressView_Decoded.ProtoReflect, Message.state, Message.type, MessageType.goName, file_penumbra_core_keys_v1alpha1_keys_proto_goTypes]
    | AddressView_Opaque x =>
      obtain ⟨s, _⟩ := x
      cases s <;> simp [Message.ProtoReflect, AddressView_Opaque.ProtoReflect, Message.state, Message.type, MessageType.goName, file_penumbra_core_keys_v1alpha1_keys_proto_goTypes]
  · cases m <;> simp only [Message.type] <;> decide
  · cases m <;> rfl
  · cases m <;> rfl

/-- C17: the dependency indexes resolve to the right types. The first six entries
of depIdxs, its sub-list for field type_name, which starts at offset 0, are in
order the positions in goTypes of the Go types of the message-valued fields
decoded and opaque of AddressView, address, index and wallet_id of
AddressView.Decoded and address of AddressView.Opaque, that is 11, 12, 0, 7, 5
and 0; each is below the length 13 of goTypes; and the four other sub-lists, for
extension extendee, extension type_name, method input_type and method
output_type, start at offset 6 and are empty. -/
theorem depIdxs_resolve_to_field_types :
    depIdxsSubList 0 = messageFieldTargets.map (fun s => file_penumbra_core_keys_v1alpha1_keys_proto_goTypes.indexOf s)
    ∧ depIdxsSubList 0 = file_penumbra_core_keys_v1alpha1_keys_proto_depIdxs.take 6
    ∧ messageFieldTargets
      = ["AddressView_Decoded", "AddressView_Opaque", "Address", "AddressIndex", "WalletId",
          "Address"]
    ∧ file_penumbra_core_keys_v1alpha1_keys_proto_depIdxs.take 6 = [11, 12, 0, 7, 5, 0]
    ∧ (∀ i ∈ depIdxsSubList 0, i < file_penumbra_core_keys_v1alpha1_keys_proto_goTypes.length)
    ∧ file_penumbra_core_keys_v1alpha1_keys_proto_goTypes.length = 13
    ∧ depIdxsStarts = [0, 6, 6, 6, 6]
    ∧ depIdxsSubList 1 = [] ∧ depIdxsSubList 2 = [] ∧ depIdxsSubList 3 = []
    ∧ depIdxsSubList 4 = [] := by
  decide

end keysv1alpha1
